import Mathlib

/-!
# Image verification engine (`pkg/engine/imageVerify.go`)

A shallow embedding of the attestor-set expander, the quorum verifier, the
registry-error classifier, the digest mutator, the image-match filter, the
attestation verifier and the image-verify orchestrator, followed by the
theorems that relate them to the written specification.

Conventions of the embedding.

* A Go `string` is a Lean `String`; the searching and slicing done by the
  `strings` package is carried out on the underlying character list.  The
  only separator the engine searches for is ASCII, so searching by character
  and searching by byte find the same positions.
* A Go `int` is an `Int`, a pointer or a nilable map is an `Option`.
* A Go `error` value is a `GoError`; a nil `error` is `none`.
* A call of the registry client is a function argument; every call made is
  appended to the list of calls returned next to the result.
* The JSON evaluation context is a state of an arbitrary type `σ`, threaded
  through the functions that use it; what the engine consumes from outside
  this file is gathered in `Capabilities σ`.
* A run-time panic is the `Outcome.panic` result.
-/

set_option linter.dupNamespace false
set_option linter.unusedVariables false

namespace Kyverno

/-! ## Go library model: `strings` -/

namespace strings

/-- Go `strings.Index(s, substr)`: position of the first occurrence of `substr` in `s`,
`none` where Go returns `-1`. -/
def Index : List Char → List Char → Option Nat
  | [], substr => if substr = [] then some 0 else none
  | c :: s, substr =>
    if substr.isPrefixOf (c :: s) then some 0 else (Index s substr).map (· + 1)

/-- Loop of Go `strings.Count` for a non-empty `substr`: the number of
non-overlapping occurrences, found left to right.  Every round removes at
least one character, so `fuel = len(s)` rounds always suffice. -/
def countLoop (substr : List Char) : Nat → List Char → Nat
  | 0, _ => 0
  | fuel + 1, s =>
    match Index s substr with
    | none => 0
    | some i => countLoop substr fuel (s.drop (i + substr.length)) + 1

/-- Go `strings.Count(s, substr)`. -/
def Count (s substr : List Char) : Nat :=
  if substr = [] then s.length + 1 else countLoop substr s.length s

/-- Loop of Go `strings.genSplit` for a non-empty `sep`: at most `n` cuts, each
keeping `sepSave` characters of the separator with the piece before it; the rest
of the string is the last piece. -/
def genSplitLoop (sep : List Char) (sepSave : Nat) : Nat → List Char → List (List Char)
  | 0, s => [s]
  | n + 1, s =>
    match Index s sep with
    | none => [s]
    | some m => s.take (m + sepSave) :: genSplitLoop sep sepSave n (s.drop (m + sep.length))

/-- Go `strings.SplitAfter(s, sep)`, that is `genSplit(s, sep, len(sep), -1)`, on
character lists: an empty separator explodes the string into its characters,
otherwise the string is cut after each of its `Count(s, sep)` occurrences. -/
def splitAfterChars (s sep : List Char) : List (List Char) :=
  if sep = [] then s.map (fun c => [c])
  else genSplitLoop sep sep.length (Count s sep) s

/-- Go `strings.SplitAfter(s, sep)`. -/
def SplitAfter (s sep : String) : List String :=
  (splitAfterChars s.data sep.data).map String.mk

/-- Go `strings.Join(elems, sep)`. -/
def Join (elems : List String) (sep : String) : String :=
  sep.intercalate elems

end strings

/-! ## Go library model: errors -/

/-- A Go `error` value, as far as the engine can observe it: its text and
whether `errors.As` finds a `*net.OpError` in it. -/
inductive GoError where
  /-- a `*net.OpError` with the given text -/
  | opError (text : String)
  /-- any other error that wraps nothing -/
  | plain (text : String)
  /-- the result of `errors.Wrapf(cause, msg)` of `github.com/pkg/errors` -/
  | withMessage (cause : GoError) (msg : String)
  /-- a `multierr` error holding several errors -/
  | multi (errs : List GoError)

mutual
/-- The method `Error()`. -/
def GoError.Error : GoError → String
  | .opError t => t
  | .plain t => t
  | .withMessage c m => m ++ ": " ++ c.Error
  | .multi es => GoError.joinErrors es
/-- Text of a `multierr` error: the texts of its errors separated by `"; "`. -/
def GoError.joinErrors : List GoError → String
  | [] => ""
  | [e] => e.Error
  | e :: f :: es => e.Error ++ "; " ++ GoError.joinErrors (f :: es)
end

mutual
/-- The test `errors.As(err, &netErr)` with `netErr` of type `*net.OpError`: it
follows `Unwrap` through wrapped errors and looks into every error of a
`multierr` error. -/
def GoError.asOpError : GoError → Bool
  | .opError _ => true
  | .plain _ => false
  | .withMessage c _ => c.asOpError
  | .multi es => GoError.anyOpError es
/-- Whether `errors.As` succeeds on one of the listed errors. -/
def GoError.anyOpError : List GoError → Bool
  | [] => false
  | e :: es => e.asOpError || GoError.anyOpError es
end

namespace errors

/-- The call `errors.Wrapf(err, msg)` on a non-nil error. -/
def Wrapf (err : GoError) (msg : String) : GoError := .withMessage err msg

/-- The call `errors.Wrap(err, msg)` on a non-nil error. -/
def Wrap (err : GoError) (msg : String) : GoError := .withMessage err msg

end errors

namespace multierr

/-- The errors a `multierr` error contributes when it is combined again. -/
def flatten : List GoError → List GoError
  | [] => []
  | .multi es :: rest => es ++ flatten rest
  | e :: rest => e :: flatten rest

/-- The call `multierr.Combine(errors...)` on a list of non-nil errors: nil for
no error, the error itself for one, otherwise one error holding them all. -/
def Combine : List GoError → Option GoError
  | [] => none
  | [e] => some e
  | errs => some (.multi (flatten errs))

end multierr

/-! ## Data model -/

/-- Modelled from the spec: the declaration of `kyvernov1.CTLog` is not among the
source files; the field is the one the engine reads. -/
structure CTLog where
  URL : String

/-- Modelled from the spec: the declaration of `kyvernov1.SecretReference` is not
among the source files; the fields are those the engine reads. -/
structure SecretReference where
  Name : String
  Namespace : String

/-- Modelled from the spec: the declaration of `kyvernov1.StaticKeyAttestor` is
not among the source files; the fields are those the engine reads and writes. -/
structure StaticKeyAttestor where
  PublicKeys : String := ""
  SignatureAlgorithm : String := ""
  KMS : String := ""
  Secret : Option SecretReference := none
  Rekor : Option CTLog := none

/-- Modelled from the spec: the declaration of `kyvernov1.CertificateAttestor` is
not among the source files; the fields are those the engine reads. -/
structure CertificateAttestor where
  Certificate : String := ""
  CertificateChain : String := ""
  Rekor : Option CTLog := none

/-- Modelled from the spec: the declaration of `kyvernov1.KeylessAttestor` is not
among the source files; the fields are those the engine reads. -/
structure KeylessAttestor where
  Rekor : Option CTLog := none
  Issuer : String := ""
  Subject : String := ""
  Roots : String := ""
  AdditionalExtensions : Option (List (String × String)) := none

/-- An attestor set over entries of type `α`: the optional required count and
the entries. -/
structure AttestorSetOf (α : Type) where
  Count : Option Int := none
  Entries : List α := []

/-- The raw JSON of a nested attestor (`*apiextv1.JSON`), told apart by what
`kyvernov1.AttestorSetUnmarshal` makes of it: an error, or an attestor set. -/
inductive JSONOf (α : Type) where
  | malformed (err : GoError)
  | attestorSet (set : AttestorSetOf α)

/-- Modelled from the spec: the declaration of `kyvernov1.Attestor` is not among
the source files; the fields are those the engine reads and writes.  One trust
unit: static keys, certificates, keyless, or a nested attestor set. -/
structure Attestor where
  Keys : Option StaticKeyAttestor := none
  Certificates : Option CertificateAttestor := none
  Keyless : Option KeylessAttestor := none
  Attestor : Option (JSONOf Attestor)
  Annotations : Option (List (String × String)) := none
  Repository : String := ""

/-- Modelled from the spec: `kyvernov1.AttestorSet`, a quorum of attestors. -/
abbrev AttestorSet := AttestorSetOf Attestor

/-- The call `kyvernov1.AttestorSetUnmarshal(json)`. -/
def AttestorSetUnmarshal : JSONOf Attestor → Except GoError AttestorSet
  | .malformed err => .error err
  | .attestorSet set => .ok set

/-! ## Attestor-set expander -/

/-- The terminator of one PEM public key block. -/
def pemTerminator : String := "-----END PUBLIC KEY-----"

/-- Source `splitPEM`: split after every terminator and drop the last element. -/
def splitPEM (pem : String) : List String :=
  let keys := strings.SplitAfter pem pemTerminator
  if keys.length < 1 then keys
  else keys.take (keys.length - 1)

/-- Body of the loop of `createStaticKeyAttestors`, `attestors` being the slice
built so far. -/
def createStaticKeyAttestorsLoop (attestors : List Attestor) : List String → List Attestor
  | [] => attestors
  | k :: keys =>
    let a : Attestor := { Keys := some { PublicKeys := k }, Attestor := none }
    createStaticKeyAttestorsLoop (attestors ++ [a]) keys

/-- Source `createStaticKeyAttestors`: one attestor per key, holding that key only. -/
def createStaticKeyAttestors (keys : List String) : List Attestor :=
  createStaticKeyAttestorsLoop [] keys

/-- Body of the loop of `expandStaticKeys`, `entries` being the slice built so far. -/
def expandStaticKeysLoop (entries : List Attestor) : List Attestor → List Attestor
  | [] => entries
  | e :: rest =>
    match e.Keys with
    | some k =>
      let keys := splitPEM k.PublicKeys
      if keys.length > 1 then
        let moreEntries := createStaticKeyAttestors keys
        expandStaticKeysLoop (entries ++ moreEntries) rest
      else
        expandStaticKeysLoop (entries ++ [e]) rest
    | none => expandStaticKeysLoop (entries ++ [e]) rest

/-- Source `expandStaticKeys`. -/
def expandStaticKeys (attestorSet : AttestorSet) : AttestorSet :=
  { Count := attestorSet.Count, Entries := expandStaticKeysLoop [] attestorSet.Entries }

/-- Source `getRequiredCount`. -/
def getRequiredCount (as : AttestorSet) : Int :=
  match as.Count with
  | none => as.Entries.length
  | some count => if count = 0 then as.Entries.length else count

/-! ## Options builder -/

/-- Modelled from the spec: the declaration of `kyvernov1.AnyAllConditions` is not
among the source files; the engine only counts the conditions and hands them
to the variable substitution and to the condition evaluation, so a condition
block is kept as its text. -/
structure AnyAllConditions where
  text : String := ""
deriving DecidableEq

/-- Modelled from the spec: the declaration of `kyvernov1.Attestation` is not among
the source files; the fields are those the engine reads. -/
structure Attestation where
  PredicateType : String := ""
  Attestors : List AttestorSet := []
  Conditions : List AnyAllConditions := []

/-- Modelled from the spec: the declaration of `kyvernov1.ImageVerification` is not
among the source files; the fields are those the engine reads. -/
structure ImageVerification where
  ImageReferences : List String := []
  Attestors : List AttestorSet := []
  Attestations : List Attestation := []
  Annotations : Option (List (String × String)) := none
  Repository : String := ""
  MutateDigest : Bool := false
  Roots : String := ""

/-- Modelled from the spec: the declaration of `apiutils.ImageInfo` is not among the
source files; the fields are the attributes the spec lists for an image
occurrence.  Its method `String()` is not among the source files either and
is an argument (`imageString`) of every function that calls it. -/
structure ImageInfo where
  Registry : String := ""
  Name : String := ""
  Path : String := ""
  Tag : String := ""
  Digest : String := ""
  Pointer : String := ""

/-- A decoded JSON value held in a `map[string]interface{}` of a statement, as far
as the engine tells values apart: a string, an object (kept as its text, the
engine only hands it to the JSON context), or any other value. -/
inductive Value where
  | string (s : String)
  | object (text : String)
  | other (text : String)
deriving DecidableEq

/-- An in-toto statement, a Go `map[string]interface{}`, as the list of its keys
with their values. -/
abbrev Statement := List (String × Value)

namespace cosign

/-- Modelled from the spec: the declaration of `cosign.Options` is not among the
source files; the fields are those `buildOptionsAndPath` writes. -/
structure Options where
  ImageRef : String := ""
  Repository : String := ""
  Annotations : Option (List (String × String)) := none
  Roots : String := ""
  PredicateType : String := ""
  FetchAttestations : Bool := false
  Key : String := ""
  RekorURL : String := ""
  SignatureAlgorithm : String := ""
  Cert : String := ""
  CertChain : String := ""
  Issuer : String := ""
  Subject : String := ""
  AdditionalExtensions : Option (List (String × String)) := none
deriving DecidableEq

/-- Modelled from the spec: the declaration of `cosign.Response` is not among the
source files; the field is the one the engine reads. -/
structure Response where
  Digest : String := ""
  Statements : List Statement := []
deriving DecidableEq

end cosign

/-- The part of `buildOptionsAndPath` that reads the static keys of an attestor. -/
def applyKeys (opts : cosign.Options) (keys : StaticKeyAttestor) : cosign.Options :=
  let opts :=
    if keys.PublicKeys ≠ "" then { opts with Key := keys.PublicKeys }
    else match keys.Secret with
      | some secret => { opts with Key := "k8s://" ++ secret.Namespace ++ "/" ++ secret.Name }
      | none => if keys.KMS ≠ "" then { opts with Key := keys.KMS } else opts
  let opts :=
    match keys.Rekor with
    | some rekor => { opts with RekorURL := rekor.URL }
    | none => opts
  { opts with SignatureAlgorithm := keys.SignatureAlgorithm }

/-- The part of `buildOptionsAndPath` that reads the certificates of an attestor. -/
def applyCertificates (opts : cosign.Options) (certs : CertificateAttestor) : cosign.Options :=
  let opts := { opts with Cert := certs.Certificate, CertChain := certs.CertificateChain }
  match certs.Rekor with
  | some rekor => { opts with RekorURL := rekor.URL }
  | none => opts

/-- The part of `buildOptionsAndPath` that reads the keyless block of an attestor. -/
def applyKeyless (opts : cosign.Options) (keyless : KeylessAttestor) : cosign.Options :=
  let opts :=
    match keyless.Rekor with
    | some rekor => { opts with RekorURL := rekor.URL }
    | none => opts
  { opts with
    Roots := keyless.Roots
    Issuer := keyless.Issuer
    Subject := keyless.Subject
    AdditionalExtensions := keyless.AdditionalExtensions }

/-- Source `buildOptionsAndPath`. -/
def buildOptionsAndPath (attestor : Attestor) (imageVerify : ImageVerification) (image : String)
    (attestation : Option Attestation) : cosign.Options × String :=
  let path := ""
  let opts : cosign.Options :=
    { ImageRef := image, Repository := imageVerify.Repository, Annotations := imageVerify.Annotations }
  let opts := if imageVerify.Roots ≠ "" then { opts with Roots := imageVerify.Roots } else opts
  let opts :=
    match attestation with
    | some att => { opts with PredicateType := att.PredicateType, FetchAttestations := true }
    | none => opts
  let (opts, path) :=
    match attestor.Keys with
    | some keys => (applyKeys opts keys, path ++ ".keys")
    | none =>
      match attestor.Certificates with
      | some certs => (applyCertificates opts certs, path ++ ".certificates")
      | none =>
        match attestor.Keyless with
        | some keyless => (applyKeyless opts keyless, path ++ ".keyless")
        | none => (opts, path)
  let opts := if attestor.Repository ≠ "" then { opts with Repository := attestor.Repository } else opts
  let opts :=
    match attestor.Annotations with
    | some annotations => { opts with Annotations := some annotations }
    | none => opts
  (opts, path)

/-! ## Rule responses and the registry-error classifier -/

/-- The four rule statuses. -/
inductive RuleStatus where
  | pass
  | fail
  | error
  | skip
deriving DecidableEq, Repr

/-- The rule types; the engine of this file produces `ImageVerify` only. -/
inductive RuleType where
  | ImageVerify
deriving DecidableEq, Repr

/-- Modelled from the spec: the declaration of `response.RuleResponse` is not among
the source files; the fields are those of section 4.9. -/
structure RuleResponse where
  Name : String
  Type_ : RuleType
  Message : String
  Status : RuleStatus
  Patches : List String := []
deriving DecidableEq

/-- Modelled from the spec: the declaration of `kyvernov1.Rule` is not among the
source files; the fields are those the engine reads.  The image extractors
and the context entries are only handed on, and are kept as text. -/
structure Rule where
  Name : String := ""
  VerifyImages : List ImageVerification := []
  ImageExtractors : Option String := none
  Context : List String := []

/-- Modelled from the spec: the helper `ruleResponse` is not among the source
files; section 4.9 has it build the record from the rule name, the rule type,
the message and the status, with no patch. -/
def ruleResponse (rule : Rule) (ruleType : RuleType) (msg : String) (status : RuleStatus) :
    RuleResponse :=
  { Name := rule.Name, Type_ := ruleType, Message := msg, Status := status }

/-- Modelled from the spec: the helper `ruleError` is not among the source files;
it is the response of status error whose message is `msg`, a colon and the
text of the error. -/
def ruleError (rule : Rule) (ruleType : RuleType) (msg : String) (err : GoError) : RuleResponse :=
  ruleResponse rule ruleType (msg ++ ": " ++ err.Error) .error

/-- Source `handleRegistryErrors`. -/
def handleRegistryErrors (rule : Rule) (image : String) (err : GoError) : RuleResponse :=
  let msg := "failed to verify image " ++ image ++ ": " ++ err.Error
  if err.asOpError then ruleResponse rule .ImageVerify msg .error
  else ruleResponse rule .ImageVerify msg .fail

/-! ## Attestor-set verifier -/

/-- How a Go call ends: it returns a value, or it panics. -/
inductive Outcome (α : Type) where
  | ret (value : α)
  | panic (reason : String)

/-- The panic raised by a method call on a nil interface value. -/
def nilDereference : String := "invalid memory address or nil pointer dereference"

/-- What `verifyAttestorSet` yields: the options of the `VerifySignature` calls it
made, in order, and the returned pair `(*cosign.Response, error)` or a panic. -/
abbrev SetResult := List cosign.Options × Outcome (Option cosign.Response × Option GoError)

/-- Body of the loop of `verifyAttestorSet` over the entries still to visit; `i` is
the index of the first of them, `calls` the registry calls made so far and
`recurse` the call of `verifyAttestorSet` on a nested set (`none` when the
recursion bound is exhausted). -/
def verifyAttestorSetLoop (recurse : AttestorSet → String → Option SetResult)
    (VerifySignature : cosign.Options → Option cosign.Response × Option GoError)
    (imageVerify : ImageVerification) (image : String) (path : String) (requiredCount : Int) :
    List Attestor → Nat → Int → List GoError → List cosign.Options → Option SetResult
  | [], _, _, errorList, calls =>
    match multierr.Combine errorList with
    | none => some (calls, .panic nilDereference)
    | some err => some (calls, .ret (none, some err))
  | a :: rest, i, verifiedCount, errorList, calls =>
    let attestorPath := path ++ ".entries[" ++ toString i ++ "]"
    let entry : Option SetResult :=
      match a.Attestor with
      | some json =>
        match AttestorSetUnmarshal json with
        | .error err =>
          some ([], .ret (none,
            some (errors.Wrapf err ("failed to unmarshal nested attestor " ++ attestorPath))))
        | .ok nestedAttestorSet => recurse nestedAttestorSet (attestorPath ++ ".attestor")
      | none =>
        let built := buildOptionsAndPath a imageVerify image none
        match VerifySignature built.1 with
        | (cosignResp, none) => some ([built.1], .ret (cosignResp, none))
        | (cosignResp, some entryError) =>
          some ([built.1], .ret (cosignResp, some (errors.Wrapf entryError (attestorPath ++ built.2))))
    match entry with
    | none => none
    | some (made, .panic reason) => some (calls ++ made, .panic reason)
    | some (made, .ret (cosignResp, none)) =>
      if verifiedCount + 1 ≥ requiredCount then some (calls ++ made, .ret (cosignResp, none))
      else
        verifyAttestorSetLoop recurse VerifySignature imageVerify image path requiredCount
          rest (i + 1) (verifiedCount + 1) errorList (calls ++ made)
    | some (made, .ret (_, some entryError)) =>
      verifyAttestorSetLoop recurse VerifySignature imageVerify image path requiredCount
        rest (i + 1) verifiedCount (errorList ++ [entryError]) (calls ++ made)

/-- Source `verifyAttestorSet`, with a bound on the depth of the recursion into
nested attestor sets; `none` when the bound is exhausted. -/
def verifyAttestorSetFuel
    (VerifySignature : cosign.Options → Option cosign.Response × Option GoError)
    (imageString : ImageInfo → String) (imageVerify : ImageVerification) (imageInfo : ImageInfo) :
    Nat → AttestorSet → String → Option SetResult
  | 0, _, _ => none
  | fuel + 1, attestorSet, path =>
    let attestorSet := expandStaticKeys attestorSet
    let requiredCount := getRequiredCount attestorSet
    let image := imageString imageInfo
    verifyAttestorSetLoop
      (verifyAttestorSetFuel VerifySignature imageString imageVerify imageInfo fuel)
      VerifySignature imageVerify image path requiredCount attestorSet.Entries 0 0 [] []

mutual
/-- Nesting depth of an attestor: 0 for a leaf, one more than its nested set otherwise. -/
def attestorDepth : Attestor → Nat
  | ⟨_, _, _, none, _, _⟩ => 0
  | ⟨_, _, _, some (.malformed _), _, _⟩ => 0
  | ⟨_, _, _, some (.attestorSet ⟨_, entries⟩), _, _⟩ => entriesDepth entries + 1
/-- The largest nesting depth among the listed attestors. -/
def entriesDepth : List Attestor → Nat
  | [] => 0
  | a :: as => max (attestorDepth a) (entriesDepth as)
end

/-- Nesting depth of an attestor set. -/
def setDepth (set : AttestorSet) : Nat := entriesDepth set.Entries

/-- Source `verifyAttestorSet`: the recursion is bounded by the nesting depth of
the set, which is enough for it to end (`verifyAttestorSet_returns`). -/
def verifyAttestorSet
    (VerifySignature : cosign.Options → Option cosign.Response × Option GoError)
    (imageString : ImageInfo → String) (imageVerify : ImageVerification) (imageInfo : ImageInfo)
    (attestorSet : AttestorSet) (path : String) : Option SetResult :=
  verifyAttestorSetFuel VerifySignature imageString imageVerify imageInfo
    (setDepth attestorSet + 1) attestorSet path

/-- What `verifyAttestors` yields: the registry calls made, and the returned pair
`(*response.RuleResponse, *cosign.Response)` or a panic. -/
abbrev AttestorsResult := List cosign.Options × Outcome (RuleResponse × Option cosign.Response)

/-- Body of the loop of `verifyAttestors` over the attestor sets still to visit; `i`
is the index of the first of them, `cosignResponse` the response of the last
set verified. -/
def verifyAttestorsLoop
    (VerifySignature : cosign.Options → Option cosign.Response × Option GoError)
    (imageString : ImageInfo → String) (rule : Rule) (imageVerify : ImageVerification)
    (imageInfo : ImageInfo) (image : String) :
    List AttestorSet → Nat → Option cosign.Response → List cosign.Options → Option AttestorsResult
  | [], _, cosignResponse, calls =>
    match cosignResponse with
    | none => some (calls, .ret (ruleError rule .ImageVerify "invalid response" (.plain "nil"), none))
    | some resp =>
      some (calls, .ret (ruleResponse rule .ImageVerify ("verified image signatures for " ++ image) .pass,
        some resp))
  | attestorSet :: rest, i, _, calls =>
    let path := ".attestors[" ++ toString i ++ "]"
    match verifyAttestorSet VerifySignature imageString imageVerify imageInfo attestorSet path with
    | none => none
    | some (made, .panic reason) => some (calls ++ made, .panic reason)
    | some (made, .ret (_, some err)) =>
      some (calls ++ made, .ret (handleRegistryErrors rule image err, none))
    | some (made, .ret (cosignResponse, none)) =>
      verifyAttestorsLoop VerifySignature imageString rule imageVerify imageInfo image
        rest (i + 1) cosignResponse (calls ++ made)

/-- Source `verifyAttestors` (its argument `predicateType` is never read). -/
def verifyAttestors
    (VerifySignature : cosign.Options → Option cosign.Response × Option GoError)
    (imageString : ImageInfo → String) (rule : Rule)
    (attestors : List AttestorSet) (imageVerify : ImageVerification) (imageInfo : ImageInfo)
    (predicateType : String) : Option AttestorsResult :=
  let image := imageString imageInfo
  verifyAttestorsLoop VerifySignature imageString rule imageVerify imageInfo image attestors 0 none []

/-! ## Digest patch -/

/-- A value stored in a Go `map[string]interface{}`: a string, or a value that
`json.Marshal` has no encoding for (a channel, a function). -/
inductive Iface where
  | string (s : String)
  | unsupported

/-- Assignment `m[key] = value` on a Go map, kept as a list of distinct keys. -/
def mapSet (m : List (String × Iface)) (key : String) (value : Iface) : List (String × Iface) :=
  if m.any (fun kv => kv.1 == key) then m.map (fun kv => if kv.1 == key then (key, value) else kv)
  else m ++ [(key, value)]

namespace json

/-- Encoding of one map value; `quote` is the encoding of a JSON string literal made
by `encoding/json`. -/
def encodeValue (quote : String → String) : Iface → Except GoError String
  | .string s => .ok (quote s)
  | .unsupported => .error (.plain "json: unsupported type")

/-- Encoding of the fields of an object, already in key order. -/
def encodeFields (quote : String → String) : List (String × Iface) → Except GoError (List String)
  | [] => .ok []
  | (k, v) :: rest =>
    match encodeValue quote v with
    | .error err => .error err
    | .ok text =>
      match encodeFields quote rest with
      | .error err => .error err
      | .ok texts => .ok ((quote k ++ ":" ++ text) :: texts)

/-- Encoding of an object with the given fields, in the given order. -/
def encodeObject (quote : String → String) (fields : List (String × Iface)) :
    Except GoError String :=
  match encodeFields quote fields with
  | .error err => .error err
  | .ok texts => .ok ("\x7b" ++ ",".intercalate texts ++ "\x7d")

/-- Go `json.Marshal` on a `map[string]interface{}`: the keys are sorted
(lexicographically), then the object is encoded. -/
def Marshal (quote : String → String) (m : List (String × Iface)) : Except GoError String :=
  encodeObject quote (m.insertionSort (fun a b => a.1.data ≤ b.1.data))

end json

/-- Source `makeAddDigestPatch`. -/
def makeAddDigestPatch (quote : String → String) (imageString : ImageInfo → String)
    (imageInfo : ImageInfo) (digest : String) : Except GoError String :=
  let patch : List (String × Iface) := []
  let patch := mapSet patch "op" (.string "replace")
  let patch := mapSet patch "path" (.string imageInfo.Pointer)
  let patch := mapSet patch "value" (.string (imageString imageInfo ++ "@" ++ digest))
  json.Marshal quote patch


/-! ## Policy context, engine response and the consumed capabilities -/

/-- The content of a resource that is not empty: its annotations
(`metadata.annotations`) and, as text, everything else. -/
structure ResourceObject where
  annotations : List (String × String) := []
  body : String := ""
deriving DecidableEq

/-- A resource, `unstructured.Unstructured`: the zero value `Unstructured{}` has a nil
`Object`. -/
structure Unstructured where
  Object : Option ResourceObject := none
deriving DecidableEq

/-- The call `res.GetAnnotations()[key]`: the empty string when the resource has no
such annotation. -/
def Unstructured.annotation (res : Unstructured) (key : String) : String :=
  match res.Object with
  | none => ""
  | some obj => (obj.annotations.lookup key).getD ""

/-- The values of `applyRules`. -/
inductive ApplyRulesType where
  | ApplyAll
  | ApplyOne
deriving DecidableEq

/-- Modelled from the spec: the policy interface is not among the source files; a
policy is kept as its name, the value `GetSpec().GetApplyRules()` returns and
the rules of its spec. -/
structure Policy where
  Name : String := ""
  ApplyRules : ApplyRulesType := .ApplyAll
  Rules : List Rule := []

/-- Modelled from the spec: the declaration of `PolicyContext` is not among the
source files; the fields are those of section 3, the JSON evaluation context
being a state of type `σ`. -/
structure PolicyContext (σ : Type) where
  policy : Policy := {}
  newResource : Unstructured := {}
  oldResource : Unstructured := {}
  jsonContext : σ

/-- Modelled from the spec: `response.PolicyResponse`, with the rule responses and the
counts of section 4.9. -/
structure PolicyResponse where
  Rules : List RuleResponse := []
  RulesAppliedCount : Int := 0
  RulesErrorCount : Int := 0
deriving DecidableEq

/-- Modelled from the spec: `response.EngineResponse`, the result for the whole policy. -/
structure EngineResponse where
  PolicyResponse : PolicyResponse := {}
deriving DecidableEq

/-- Modelled from the spec: the helper `incrementAppliedCount` is not among the
source files; it adds one to `rulesAppliedCount`. -/
def incrementAppliedCount (resp : EngineResponse) : EngineResponse :=
  { resp with PolicyResponse :=
      { resp.PolicyResponse with RulesAppliedCount := resp.PolicyResponse.RulesAppliedCount + 1 } }

/-- Modelled from the spec: the helper `incrementErrorCount` is not among the source
files; it adds one to `rulesErrorCount`. -/
def incrementErrorCount (resp : EngineResponse) : EngineResponse :=
  { resp with PolicyResponse :=
      { resp.PolicyResponse with RulesErrorCount := resp.PolicyResponse.RulesErrorCount + 1 } }

/-- The statement `resp.PolicyResponse.Rules = append(resp.PolicyResponse.Rules, rr)`. -/
def appendRule (resp : EngineResponse) (rr : RuleResponse) : EngineResponse :=
  { resp with PolicyResponse :=
      { resp.PolicyResponse with Rules := resp.PolicyResponse.Rules ++ [rr] } }

/-- Modelled from the spec: `ImageVerificationMetadata`, the mapping from image
reference to its verified bit, as the list of its keys with their values. -/
structure ImageVerificationMetadata where
  Data : List (String × Bool) := []
deriving DecidableEq

/-- Assignment `m[key] = value` on a Go map kept as a list of distinct keys. -/
def mapPut {α : Type} (m : List (String × α)) (key : String) (value : α) : List (String × α) :=
  if m.any (fun kv => kv.1 == key) then m.map (fun kv => if kv.1 == key then (key, value) else kv)
  else m ++ [(key, value)]

/-- Modelled from the spec: the method `add` of the metadata accumulator is not among
the source files; section 4.9 has it map the image to the bit, the last write
winning. -/
def ImageVerificationMetadata.add (ivm : ImageVerificationMetadata) (image : String)
    (verified : Bool) : ImageVerificationMetadata :=
  { Data := mapPut ivm.Data image verified }

/-- A call of the registry client. -/
inductive RegistryCall where
  | verifySignature (opts : cosign.Options)
  | fetchAttestations (opts : cosign.Options)
  | fetchImageDescriptor (ref : String)
deriving DecidableEq

/-- The grouped image set, `map[string]map[string]apiutils.ImageInfo`, in the order
in which the `range` loops visit it. -/
abbrev Images := List (String × List (String × ImageInfo))

/-- What the engine consumes (section 6), for a JSON evaluation context of type `σ`,
together with the functions and the constant of this repository that are
not among the source files. -/
structure Capabilities (σ : Type) where
  /-- the method `String()` of `apiutils.ImageInfo` -/
  imageString : ImageInfo → String
  /-- the call `wildcard.Match(pattern, name)` -/
  wildcardMatch : String → String → Bool
  /-- the method `Convert()` of `kyvernov1.ImageVerification` -/
  Convert : ImageVerification → ImageVerification
  /-- the string encoding of `encoding/json` -/
  quote : String → String
  /-- the constant `imageVerifyAnnotationKey` -/
  imageVerifyAnnotationKey : String
  /-- the call `jsonpointer.ParsePath(pointer).JMESPath()` -/
  JMESPath : String → String
  /-- the function `isImageVerified(resource, image, logger)` -/
  isImageVerified : Unstructured → String → Bool × Option GoError
  /-- the function `matches(logger, rule, policyContext)` -/
  ruleMatches : Rule → PolicyContext σ → Bool
  /-- the function `autogen.ComputeRules(policy)` -/
  ComputeRules : Policy → List Rule
  /-- the function `LoadContext`, which loads the context entries of a rule -/
  LoadContext : σ → List String → String → σ × Option GoError
  /-- registry client: `cosign.VerifySignature` -/
  VerifySignature : cosign.Options → Option cosign.Response × Option GoError
  /-- registry client: `cosign.FetchAttestations` -/
  FetchAttestations : cosign.Options → Option cosign.Response × Option GoError
  /-- registry client: `FetchImageDescriptor`, reduced to the digest of the descriptor -/
  FetchImageDescriptor : String → Except GoError String
  /-- JSON context: `Checkpoint()` -/
  Checkpoint : σ → σ
  /-- JSON context: `Restore()` -/
  Restore : σ → σ
  /-- JSON context: `AddImageInfo(info)` -/
  AddImageInfo : σ → ImageInfo → σ × Option GoError
  /-- JSON context: `AddJSONObject(obj)`, the object as text -/
  AddJSONObject : σ → String → σ × Option GoError
  /-- JSON context: `HasChanged(jmesPath)` -/
  HasChanged : σ → String → Bool × Option GoError
  /-- JSON context: `ImageInfo()` -/
  ImageInfo : σ → Images
  /-- JSON context: `GenerateCustomImageInfo(resource, extractors)` -/
  GenerateCustomImageInfo : σ → Unstructured → String → σ × Except GoError Images
  /-- variable substitution: `SubstituteAllInRule` -/
  SubstituteAllInRule : σ → Rule → Except GoError Rule
  /-- variable substitution: `SubstituteAllInConditions` -/
  SubstituteAllInConditions : σ → List AnyAllConditions → Except GoError (List AnyAllConditions)
  /-- variable substitution: `EvaluateAnyAllConditions` -/
  EvaluateAnyAllConditions : σ → List AnyAllConditions → Bool
  /-- the rendering of a statement by the verb `%v` of `fmt` -/
  showStatement : Statement → String

/-! ## Image-match filter -/

/-- Source `imageMatches`. -/
def imageMatches (wildcardMatch : String → String → Bool) (image : String) :
    List String → Bool
  | [] => false
  | imagePattern :: imagePatterns =>
    if wildcardMatch imagePattern image then true
    else imageMatches wildcardMatch image imagePatterns

/-- Innermost loop of `getMatchingImages`, over the image verifications of the rule,
for one image; `imageInfos` and `imageRefs` are the slices built so far. -/
def getMatchingImagesRule {σ : Type} (caps : Capabilities σ) (imageInfo : ImageInfo)
    (image : String) :
    List ImageVerification → List ImageInfo → List String → List ImageInfo × List String
  | [], imageInfos, imageRefs => (imageInfos, imageRefs)
  | verifyImage :: rest, imageInfos, imageRefs =>
    let verifyImage := caps.Convert verifyImage
    let imageRefs := imageRefs ++ verifyImage.ImageReferences
    let imageInfos :=
      if imageMatches caps.wildcardMatch image verifyImage.ImageReferences then
        imageInfos ++ [imageInfo]
      else imageInfos
    getMatchingImagesRule caps imageInfo image rest imageInfos imageRefs

/-- Middle loop of `getMatchingImages`, over the images of one group. -/
def getMatchingImagesGroup {σ : Type} (caps : Capabilities σ) (rule : Rule) :
    List (String × ImageInfo) → List ImageInfo → List String → List ImageInfo × List String
  | [], imageInfos, imageRefs => (imageInfos, imageRefs)
  | (_, imageInfo) :: rest, imageInfos, imageRefs =>
    let image := caps.imageString imageInfo
    let acc := getMatchingImagesRule caps imageInfo image rule.VerifyImages imageInfos imageRefs
    getMatchingImagesGroup caps rule rest acc.1 acc.2

/-- Outer loop of `getMatchingImages`, over the groups of images. -/
def getMatchingImagesLoop {σ : Type} (caps : Capabilities σ) (rule : Rule) :
    Images → List ImageInfo → List String → List ImageInfo × List String
  | [], imageInfos, imageRefs => (imageInfos, imageRefs)
  | (_, infoMap) :: rest, imageInfos, imageRefs =>
    let acc := getMatchingImagesGroup caps rule infoMap imageInfos imageRefs
    getMatchingImagesLoop caps rule rest acc.1 acc.2

/-- Source `getMatchingImages`. -/
def getMatchingImages {σ : Type} (caps : Capabilities σ) (images : Images) (rule : Rule) :
    List ImageInfo × String :=
  let acc := getMatchingImagesLoop caps rule images [] []
  (acc.1, strings.Join acc.2 ",")

/-- Source `extractMatchingImages`; the JSON context comes back with the result. -/
def extractMatchingImages {σ : Type} (caps : Capabilities σ) (policyContext : PolicyContext σ)
    (rule : Rule) : σ × Except GoError (List ImageInfo × String) :=
  let images := caps.ImageInfo policyContext.jsonContext
  match rule.ImageExtractors with
  | some extractors =>
    match caps.GenerateCustomImageInfo policyContext.jsonContext policyContext.newResource
        extractors with
    | (ctx, .error err) => (ctx, .error err)
    | (ctx, .ok images) => (ctx, .ok (getMatchingImages caps images rule))
  | none => (policyContext.jsonContext, .ok (getMatchingImages caps images rule))

/-! ## Digest mutator -/

/-- Source `handleMutateDigest`: the registry calls made, then the returned triple
`([]byte, string, error)`. -/
def handleMutateDigest {σ : Type} (caps : Capabilities σ) (digest : String)
    (imageInfo : ImageInfo) : List RegistryCall × (Option String × String × Option GoError) :=
  if imageInfo.Digest ≠ "" then ([], (none, "", none))
  else
    let fetched : List RegistryCall × Except GoError String :=
      if digest = "" then
        ([.fetchImageDescriptor (caps.imageString imageInfo)],
          caps.FetchImageDescriptor (caps.imageString imageInfo))
      else ([], .ok digest)
    match fetched with
    | (calls, .error err) => (calls, (none, "", some err))
    | (calls, .ok digest) =>
      match makeAddDigestPatch caps.quote caps.imageString imageInfo digest with
      | .error err =>
        (calls, (none, "", some (errors.Wrapf err "failed to create image digest patch")))
      | .ok patch => (calls, (some patch, digest, none))

/-- Source `hasImageVerifiedAnnotationChanged`. -/
def hasImageVerifiedAnnotationChanged {σ : Type} (caps : Capabilities σ)
    (ctx : PolicyContext σ) : Bool :=
  if ctx.newResource = {} ∨ ctx.oldResource = {} then false
  else
    let key := caps.imageVerifyAnnotationKey
    let newValue := ctx.newResource.annotation key
    let oldValue := ctx.oldResource.annotation key
    let result := newValue != oldValue
    result

/-! ## Attestation verifier -/

/-- The panic raised by a failed type assertion `x.(string)`. -/
def interfaceConversion : String := "interface conversion: interface is not string"

/-- Body of the loop of `buildStatementMap`; `results` and `predicateTypes` are the
map and the slice built so far. -/
def buildStatementMapLoop :
    List Statement → List (String × List Statement) → List String →
      Outcome (List (String × List Statement) × List String)
  | [], results, predicateTypes => .ret (results, predicateTypes)
  | s :: statements, results, predicateTypes =>
    match s.lookup "predicateType" with
    | some (.string predicateType) =>
      let results :=
        match results.lookup predicateType with
        | some found => mapPut results predicateType (found ++ [s])
        | none => mapPut results predicateType [s]
      buildStatementMapLoop statements results (predicateTypes ++ [predicateType])
    | _ => .panic interfaceConversion

/-- Source `buildStatementMap`. -/
def buildStatementMap (statements : List Statement) :
    Outcome (List (String × List Statement) × List String) :=
  buildStatementMapLoop statements [] []

/-- Source `evaluateConditions`; the JSON context comes back with the result. -/
def evaluateConditions {σ : Type} (caps : Capabilities σ) (conditions : List AnyAllConditions)
    (ctx : σ) (s : Statement) : σ × (Bool × Option GoError) :=
  match s.lookup "predicate" with
  | some (.object predicate) =>
    match caps.AddJSONObject ctx predicate with
    | (ctx, some err) =>
      (ctx, (false, some (errors.Wrapf err
        ("failed to add Statement to the context " ++ caps.showStatement s))))
    | (ctx, none) =>
      match caps.SubstituteAllInConditions ctx conditions with
      | .error err =>
        (ctx, (false, some (errors.Wrapf err
          "failed to substitute variables in attestation conditions")))
      | .ok c => (ctx, (caps.EvaluateAnyAllConditions ctx c, none))
  | _ =>
    (ctx, (false, some (.plain
      ("failed to extract predicate from statement: " ++ caps.showStatement s))))

/-- Source `checkAttestations`; the JSON context comes back with the result. -/
def checkAttestations {σ : Type} (caps : Capabilities σ) (ctx : σ) (a : Attestation)
    (s : Statement) : σ × (Bool × Option GoError) :=
  if a.Conditions.length = 0 then (ctx, (true, none))
  else
    let ctx := caps.Checkpoint ctx
    let r := evaluateConditions caps a.Conditions ctx s
    (caps.Restore r.1, r.2)

/-- Body of the loop of `verifyAttestation` over the statements of the predicate type. -/
def verifyAttestationLoop {σ : Type} (caps : Capabilities σ) (attestation : Attestation)
    (imageInfo : ImageInfo) : List Statement → σ → σ × Option GoError
  | [], ctx => (ctx, none)
  | s :: statements, ctx =>
    match checkAttestations caps ctx attestation s with
    | (ctx, (_, some err)) => (ctx, some (errors.Wrap err "failed to check attestations"))
    | (ctx, (val, none)) =>
      if !val then
        (ctx, some (.plain ("attestation checks failed for " ++ caps.imageString imageInfo ++
          " and predicate " ++ attestation.PredicateType)))
      else verifyAttestationLoop caps attestation imageInfo statements ctx

/-- Source `verifyAttestation`; the JSON context comes back with the returned error. -/
def verifyAttestation {σ : Type} (caps : Capabilities σ) (ctx : σ) (statements : List Statement)
    (attestation : Attestation) (imageInfo : ImageInfo) : σ × Outcome (Option GoError) :=
  if attestation.PredicateType = "" then (ctx, .ret (some (.plain "a predicateType is required")))
  else
    match buildStatementMap statements with
    | .panic reason => (ctx, .panic reason)
    | .ret (statementsByPredicate, _) =>
      match statementsByPredicate.lookup attestation.PredicateType with
      | none =>
        (ctx, .ret (some (.plain
          ("attestions not found for predicate type " ++ attestation.PredicateType))))
      | some statements =>
        let r := verifyAttestationLoop caps attestation imageInfo statements ctx
        (r.1, .ret r.2)

/-- How a loop inside a function ends: the function returns a value from within
the loop, or the loop is left and the function goes on. -/
inductive LoopExit (ρ β : Type) where
  | returned (value : ρ)
  | finished (state : β)

/-- What the loops of `verifyAttestations` carry along: the JSON context, the
registry calls made so far, and the local variables `imageInfo` and `image`. -/
structure AttestationState (σ : Type) where
  jsonContext : σ
  calls : List RegistryCall
  imageInfo : ImageInfo
  image : String

/-- Innermost loop of `verifyAttestations`, over the entries of one attestor set; `i`
is the index of the attestation, `attestationRef` the element
`imageVerify.Attestations[i]`, and the loop is left with the verified count. -/
def verifyAttestationsEntries {σ : Type} (caps : Capabilities σ) (rule : Rule)
    (imageVerify : ImageVerification) (attestation attestationRef : Attestation)
    (attestorPath : String) (i : Nat) (requiredCount : Int) :
    List Attestor → Int → AttestationState σ →
      AttestationState σ × Outcome (LoopExit (RuleResponse × String) Int)
  | [], verifiedCount, st => (st, .ret (.finished verifiedCount))
  | a :: entries, verifiedCount, st =>
    let entryPath := attestorPath ++ ".entries[" ++ toString i ++ "]"
    let built := buildOptionsAndPath a imageVerify st.image (some attestationRef)
    let st := { st with calls := st.calls ++ [.fetchAttestations built.1] }
    match caps.FetchAttestations built.1 with
    | (_, some err) => (st, .ret (.returned (handleRegistryErrors rule st.image err, "")))
    | (none, none) => (st, .panic nilDereference)
    | (some cosignResp, none) =>
      let imageInfo :=
        if st.imageInfo.Digest = "" then { st.imageInfo with Digest := cosignResp.Digest }
        else st.imageInfo
      let image := if st.imageInfo.Digest = "" then caps.imageString imageInfo else st.image
      let st := { st with imageInfo := imageInfo, image := image }
      match verifyAttestation caps st.jsonContext cosignResp.Statements attestation st.imageInfo with
      | (ctx, .panic reason) => ({ st with jsonContext := ctx }, .panic reason)
      | (ctx, .ret (some attestationError)) =>
        let attestationError := errors.Wrapf attestationError (entryPath ++ built.2)
        ({ st with jsonContext := ctx },
          .ret (.returned (ruleResponse rule .ImageVerify attestationError.Error .fail, "")))
      | (ctx, .ret none) =>
        let verifiedCount := verifiedCount + 1
        if verifiedCount ≥ requiredCount then
          ({ st with jsonContext := ctx }, .ret (.finished verifiedCount))
        else
          verifyAttestationsEntries caps rule imageVerify attestation attestationRef attestorPath
            i requiredCount entries verifiedCount { st with jsonContext := ctx }

/-- Middle loop of `verifyAttestations`, over the attestor sets of one attestation; `j`
is the index of the first set still to visit. -/
def verifyAttestationsSets {σ : Type} (caps : Capabilities σ) (rule : Rule)
    (imageVerify : ImageVerification) (attestation attestationRef : Attestation)
    (path : String) (i : Nat) :
    List AttestorSet → Nat → AttestationState σ →
      AttestationState σ × Outcome (LoopExit (RuleResponse × String) Unit)
  | [], _, st => (st, .ret (.finished ()))
  | attestor :: attestors, j, st =>
    let attestorPath := path ++ ".attestors[" ++ toString j ++ "]"
    let requiredCount := getRequiredCount attestor
    match verifyAttestationsEntries caps rule imageVerify attestation attestationRef attestorPath
        i requiredCount attestor.Entries 0 st with
    | (st, .panic reason) => (st, .panic reason)
    | (st, .ret (.returned value)) => (st, .ret (.returned value))
    | (st, .ret (.finished verifiedCount)) =>
      if verifiedCount < requiredCount then
        let msg := "image attestations verification failed, verifiedCount: " ++
          toString verifiedCount ++ ", requiredCount: " ++ toString requiredCount
        (st, .ret (.returned (ruleResponse rule .ImageVerify msg .fail, "")))
      else
        verifyAttestationsSets caps rule imageVerify attestation attestationRef path i
          attestors (j + 1) st

/-- Outer loop of `verifyAttestations`, over the attestations; `i` is the index of the
first attestation still to visit. -/
def verifyAttestationsLoop {σ : Type} (caps : Capabilities σ) (rule : Rule)
    (imageVerify : ImageVerification) :
    List Attestation → Nat → AttestationState σ →
      AttestationState σ × Outcome (RuleResponse × String)
  | [], _, st =>
    (st, .ret (ruleResponse rule .ImageVerify ("verified image attestations for " ++ st.image)
      .pass, st.imageInfo.Digest))
  | attestationRef :: attestations, i, st =>
    let path := ".attestations[" ++ toString i ++ "]"
    if attestationRef.PredicateType = "" then
      (st, .ret (ruleResponse rule .ImageVerify (path ++ ": missing predicateType") .fail, ""))
    else
      let attestation : Attestation :=
        if attestationRef.Attestors.length = 0 then
          { attestationRef with
            Attestors := [{ Entries := [{ Attestor := none }] }] }
        else attestationRef
      match verifyAttestationsSets caps rule imageVerify attestation attestationRef path i
          attestation.Attestors 0 st with
      | (st, .panic reason) => (st, .panic reason)
      | (st, .ret (.returned value)) => (st, .ret value)
      | (st, .ret (.finished _)) =>
        verifyAttestationsLoop caps rule imageVerify attestations (i + 1) st

/-- Source `verifyAttestations`: the JSON context and the registry calls made, then
the returned pair `(*response.RuleResponse, string)` or a panic. -/
def verifyAttestations {σ : Type} (caps : Capabilities σ) (rule : Rule) (ctx : σ)
    (imageVerify : ImageVerification) (imageInfo : ImageInfo) :
    (σ × List RegistryCall) × Outcome (RuleResponse × String) :=
  let image := caps.imageString imageInfo
  let r := verifyAttestationsLoop caps rule imageVerify imageVerify.Attestations 0
    { jsonContext := ctx, calls := [], imageInfo := imageInfo, image := image }
  ((r.1.jsonContext, r.1.calls), r.2)

/-! ## Image-verify orchestrator -/

/-- Source `imageVerifier`, without the logger; the registry client is part of the
capabilities, and `calls` lists the registry calls made so far. -/
structure imageVerifier (σ : Type) where
  policyContext : PolicyContext σ
  rule : Rule
  resp : EngineResponse
  ivm : ImageVerificationMetadata
  calls : List RegistryCall := []

/-- The result of a call that may panic and that recurses into nested attestor sets
under a bound: `none` when the bound is exhausted. -/
abbrev Run (α : Type) := Option (Outcome α)

/-- Source `verifyImage`: the JSON context and the registry calls made, then the
returned pair `(*response.RuleResponse, string)` or a panic. -/
def verifyImage {σ : Type} (caps : Capabilities σ) (rule : Rule) (ctx : σ)
    (imageVerify : ImageVerification) (imageInfo : ImageInfo) :
    Option ((σ × List RegistryCall) × Outcome (Option RuleResponse × String)) :=
  if imageVerify.Attestors.length ≤ 0 ∧ imageVerify.Attestations.length ≤ 0 then
    some ((ctx, []), .ret (none, ""))
  else
    let image := caps.imageString imageInfo
    match caps.AddImageInfo ctx imageInfo with
    | (ctx, some err) =>
      let msg := "failed to add image to context " ++ image ++ ": " ++ err.Error
      some ((ctx, []), .ret (some (ruleResponse rule .ImageVerify msg .error), ""))
    | (ctx, none) =>
      let attestations (made : List RegistryCall) (imageInfo : ImageInfo) :
          (σ × List RegistryCall) × Outcome (Option RuleResponse × String) :=
        match verifyAttestations caps rule ctx imageVerify imageInfo with
        | ((ctx, more), .panic reason) => ((ctx, made ++ more), .panic reason)
        | ((ctx, more), .ret (ruleResp, digest)) =>
          ((ctx, made ++ more), .ret (some ruleResp, digest))
      if imageVerify.Attestors.length > 0 then
        match verifyAttestors caps.VerifySignature caps.imageString rule imageVerify.Attestors
            imageVerify imageInfo "" with
        | none => none
        | some (made, .panic reason) => some ((ctx, made.map .verifySignature), .panic reason)
        | some (made, .ret (ruleResp, cosignResp)) =>
          let made := made.map RegistryCall.verifySignature
          if ruleResp.Status ≠ .pass then some ((ctx, made), .ret (some ruleResp, ""))
          else if imageVerify.Attestations.length = 0 then
            match cosignResp with
            | none => some ((ctx, made), .panic nilDereference)
            | some cosignResp => some ((ctx, made), .ret (some ruleResp, cosignResp.Digest))
          else if imageInfo.Digest = "" then
            match cosignResp with
            | none => some ((ctx, made), .panic nilDereference)
            | some cosignResp =>
              some (attestations made { imageInfo with Digest := cosignResp.Digest })
          else some (attestations made imageInfo)
      else some (attestations [] imageInfo)

/-- Body of the loop of `imageVerifier.verify` over the matched images still to
visit. -/
def verifyLoop {σ : Type} (caps : Capabilities σ) (imageVerify : ImageVerification) :
    List ImageInfo → imageVerifier σ → Run (imageVerifier σ)
  | [], iv => some (.ret iv)
  | imageInfo :: matchedImageInfos, iv =>
    let image := caps.imageString imageInfo
    if hasImageVerifiedAnnotationChanged caps iv.policyContext then
      let msg := caps.imageVerifyAnnotationKey ++ " annotation cannot be changed"
      let ruleResp := ruleResponse iv.rule .ImageVerify msg .fail
      let iv := { iv with resp := incrementAppliedCount (appendRule iv.resp ruleResp) }
      verifyLoop caps imageVerify matchedImageInfos iv
    else
      let pointer := caps.JMESPath imageInfo.Pointer
      let changed := caps.HasChanged iv.policyContext.jsonContext pointer
      if changed.2.isNone && !changed.1 then
        verifyLoop caps imageVerify matchedImageInfos iv
      else
        let verified := caps.isImageVerified iv.policyContext.newResource image
        if verified.2.isNone && verified.1 then
          verifyLoop caps imageVerify matchedImageInfos iv
        else
          match verifyImage caps iv.rule iv.policyContext.jsonContext imageVerify imageInfo with
          | none => none
          | some (_, .panic reason) => some (.panic reason)
          | some ((ctx, made), .ret (ruleResp, digest)) =>
            let iv := { iv with
              policyContext := { iv.policyContext with jsonContext := ctx }
              calls := iv.calls ++ made }
            let mutated : List RegistryCall × Option RuleResponse × String :=
              if imageVerify.MutateDigest then
                match handleMutateDigest caps digest imageInfo with
                | (more, (_, _, some err)) =>
                  (more, some (ruleError iv.rule .ImageVerify "failed to update digest" err), image)
                | (more, (some patch, retrievedDigest, none)) =>
                  let ruleResp : RuleResponse :=
                    match ruleResp with
                    | none => ruleResponse iv.rule .ImageVerify "mutated image digest" .pass
                    | some ruleResp => ruleResp
                  let ruleResp := { ruleResp with Patches := ruleResp.Patches ++ [patch] }
                  let imageInfo := { imageInfo with Digest := retrievedDigest }
                  (more, some ruleResp, caps.imageString imageInfo)
                | (more, (none, _, none)) => (more, ruleResp, image)
              else ([], ruleResp, image)
            let iv := { iv with calls := iv.calls ++ mutated.1 }
            match mutated.2.1 with
            | some ruleResp =>
              let ivm :=
                if imageVerify.Attestors.length > 0 ∨ imageVerify.Attestations.length > 0 then
                  iv.ivm.add mutated.2.2 (ruleResp.Status == .pass)
                else iv.ivm
              let iv := { iv with
                ivm := ivm
                resp := incrementAppliedCount (appendRule iv.resp ruleResp) }
              verifyLoop caps imageVerify matchedImageInfos iv
            | none => verifyLoop caps imageVerify matchedImageInfos iv

/-- Source `imageVerifier.verify`. -/
def imageVerifier.verify {σ : Type} (caps : Capabilities σ) (iv : imageVerifier σ)
    (imageVerify : ImageVerification) (matchedImageInfos : List ImageInfo) :
    Run (imageVerifier σ) :=
  let imageVerify := caps.Convert imageVerify
  verifyLoop caps imageVerify matchedImageInfos iv

/-- Source `appendResponse`. -/
def appendResponse (resp : EngineResponse) (rule : Rule) (msg : String) (status : RuleStatus) :
    EngineResponse :=
  let rr := ruleResponse rule .ImageVerify msg status
  incrementErrorCount (appendRule resp rr)

/-- The panic raised by an index beyond the length of a slice. -/
def indexOutOfRange : String := "index out of range"

/-- The second loop of `substituteVariables`: the attestations of the rule are put
back, by index, into the image verifications of the copy. -/
def replaceAttestations :
    List ImageVerification → List ImageVerification → Outcome (List ImageVerification)
  | copy, [] => .ret copy
  | [], _ :: _ => .panic indexOutOfRange
  | c :: copy, v :: verifyImages =>
    match replaceAttestations copy verifyImages with
    | .panic reason => .panic reason
    | .ret done => .ret ({ c with Attestations := v.Attestations } :: done)

/-- Source `substituteVariables`. -/
def substituteVariables {σ : Type} (caps : Capabilities σ) (rule : Rule) (ctx : σ) :
    Outcome (Except GoError Rule) :=
  let ruleCopy : Rule :=
    { rule with VerifyImages := rule.VerifyImages.map (fun v => { v with Attestations := [] }) }
  match caps.SubstituteAllInRule ctx ruleCopy with
  | .error err => .ret (.error err)
  | .ok ruleCopy =>
    match replaceAttestations ruleCopy.VerifyImages rule.VerifyImages with
    | .panic reason => .panic reason
    | .ret verifyImages => .ret (.ok { ruleCopy with VerifyImages := verifyImages })

/-- The loop of `VerifyAndPatchImages` over the image verifications of a rule. -/
def verifyImagesLoop {σ : Type} (caps : Capabilities σ) (ruleImages : List ImageInfo) :
    List ImageVerification → imageVerifier σ → Run (imageVerifier σ)
  | [], iv => some (.ret iv)
  | imageVerify :: rest, iv =>
    match iv.verify caps imageVerify ruleImages with
    | none => none
    | some (.panic reason) => some (.panic reason)
    | some (.ret iv) => verifyImagesLoop caps ruleImages rest iv

/-- What `VerifyAndPatchImages` carries from rule to rule: the policy context with
its JSON context, the response, the metadata and the registry calls made. -/
structure EngineState (σ : Type) where
  policyContext : PolicyContext σ
  resp : EngineResponse := {}
  ivm : ImageVerificationMetadata := {}
  calls : List RegistryCall := []

/-- The function run for one rule inside the loop of `VerifyAndPatchImages`. -/
def processRule {σ : Type} (caps : Capabilities σ) (rule : Rule) (st : EngineState σ) :
    Run (EngineState σ) :=
  if rule.VerifyImages.length = 0 then some (.ret st)
  else if !caps.ruleMatches rule st.policyContext then some (.ret st)
  else
    match extractMatchingImages caps st.policyContext rule with
    | (ctx, .error err) =>
      some (.ret { st with
        policyContext := { st.policyContext with jsonContext := ctx }
        resp := appendResponse st.resp rule ("failed to extract images: " ++ err.Error) .error })
    | (ctx, .ok (ruleImages, imageRefs)) =>
      let st := { st with policyContext := { st.policyContext with jsonContext := ctx } }
      if ruleImages.length = 0 then
        some (.ret { st with
          resp := appendResponse st.resp rule
            ("skip run verification as image in resource not found in imageRefs \x27" ++
              imageRefs ++ "\x27") .skip })
      else
        let ctx := caps.Restore st.policyContext.jsonContext
        match caps.LoadContext ctx rule.Context rule.Name with
        | (ctx, some err) =>
          some (.ret { st with
            policyContext := { st.policyContext with jsonContext := ctx }
            resp := appendResponse st.resp rule ("failed to load context: " ++ err.Error) .error })
        | (ctx, none) =>
          let st := { st with policyContext := { st.policyContext with jsonContext := ctx } }
          match substituteVariables caps rule ctx with
          | .panic reason => some (.panic reason)
          | .ret (.error err) =>
            some (.ret { st with
              resp := appendResponse st.resp rule
                ("failed to substitute variables: " ++ err.Error) .error })
          | .ret (.ok ruleCopy) =>
            let iv : imageVerifier σ :=
              { policyContext := st.policyContext, rule := ruleCopy, resp := st.resp,
                ivm := st.ivm, calls := st.calls }
            match verifyImagesLoop caps ruleImages ruleCopy.VerifyImages iv with
            | none => none
            | some (.panic reason) => some (.panic reason)
            | some (.ret iv) =>
              some (.ret { policyContext := iv.policyContext, resp := iv.resp, ivm := iv.ivm,
                           calls := iv.calls })

/-- The loop of `VerifyAndPatchImages` over the rules. -/
def rulesLoop {σ : Type} (caps : Capabilities σ) (applyRules : ApplyRulesType) :
    List Rule → EngineState σ → Run (EngineState σ)
  | [], st => some (.ret st)
  | rule :: rules, st =>
    match processRule caps rule st with
    | none => none
    | some (.panic reason) => some (.panic reason)
    | some (.ret st) =>
      if applyRules = .ApplyOne ∧ st.resp.PolicyResponse.RulesAppliedCount > 0 then some (.ret st)
      else rulesLoop caps applyRules rules st

/-- Source `VerifyAndPatchImages`.  The deferred `buildResponse`, which is not among
the source files and stamps the response with the processing time, is left
out; the deferred `Restore` is applied to the JSON context of the result. -/
def VerifyAndPatchImages {σ : Type} (caps : Capabilities σ) (policyContext : PolicyContext σ) :
    Run (EngineState σ) :=
  let resp : EngineResponse := {}
  let policy := policyContext.policy
  let policyContext :=
    { policyContext with jsonContext := caps.Checkpoint policyContext.jsonContext }
  let ivm : ImageVerificationMetadata := {}
  let rules := caps.ComputeRules policyContext.policy
  let applyRules := policy.ApplyRules
  match rulesLoop caps applyRules rules
      { policyContext := policyContext, resp := resp, ivm := ivm, calls := [] } with
  | none => none
  | some (.panic reason) => some (.panic reason)
  | some (.ret st) =>
    some (.ret { st with
      policyContext := { st.policyContext with
        jsonContext := caps.Restore st.policyContext.jsonContext } })

/-! ## The options builder, step by step -/

/-- First step of `buildOptionsAndPath`: the options made from the image
verification and the attestation. -/
def optionsStart (imageVerify : ImageVerification) (image : String)
    (attestation : Option Attestation) : cosign.Options :=
  let opts : cosign.Options :=
    { ImageRef := image, Repository := imageVerify.Repository, Annotations := imageVerify.Annotations }
  let opts := if imageVerify.Roots ≠ "" then { opts with Roots := imageVerify.Roots } else opts
  match attestation with
  | some att => { opts with PredicateType := att.PredicateType, FetchAttestations := true }
  | none => opts

/-- Second step of `buildOptionsAndPath`: the kind of the attestor is applied. -/
def optionsKind (attestor : Attestor) (opts : cosign.Options) : cosign.Options × String :=
  match attestor.Keys with
  | some keys => (applyKeys opts keys, "" ++ ".keys")
  | none =>
    match attestor.Certificates with
    | some certs => (applyCertificates opts certs, "" ++ ".certificates")
    | none =>
      match attestor.Keyless with
      | some keyless => (applyKeyless opts keyless, "" ++ ".keyless")
      | none => (opts, "")

/-- Last step of `buildOptionsAndPath`: the overrides of the attestor. -/
def optionsFinish (attestor : Attestor) (opts : cosign.Options) : cosign.Options :=
  let opts := if attestor.Repository ≠ "" then { opts with Repository := attestor.Repository } else opts
  match attestor.Annotations with
  | some annotations => { opts with Annotations := some annotations }
  | none => opts

/-! ## The digest patch, as the specification words it -/

/-- The JSON-Patch operation of section 4.7 as text: the object with the fields `op`,
`path` and `value`, every string encoded by `quote`. -/
def digestPatchText (quote : String → String) (imageString : ImageInfo → String)
    (imageInfo : ImageInfo) (digest : String) : String :=
  "\x7b" ++ quote "op" ++ ":" ++ quote "replace" ++ "," ++
    quote "path" ++ ":" ++ quote imageInfo.Pointer ++ "," ++
    quote "value" ++ ":" ++ quote (imageString imageInfo ++ "@" ++ digest) ++ "\x7d"

/-! ## The expansion of one entry, as the specification words it -/

/-- The expansion of one entry, in the words of the specification: an entry whose
static-keys PEM splits into more than one key becomes one attestor per key,
holding that key and nothing else; any other entry stays as it is. -/
def expandEntrySpec (e : Attestor) : List Attestor :=
  match e.Keys with
  | some k =>
    if 1 < (splitPEM k.PublicKeys).length then
      (splitPEM k.PublicKeys).map fun key =>
        { Keys := some { PublicKeys := key, SignatureAlgorithm := "", KMS := "", Secret := none,
                         Rekor := none },
          Certificates := none, Keyless := none, Attestor := none, Annotations := none,
          Repository := "" }
    else [e]
  | none => [e]

/-! ## The statement map, as the specification words it -/

/-- The predicate type of a statement, `s["predicateType"]` when it is a string and
the empty string otherwise. -/
def predicateTypeOf (s : Statement) : String :=
  match s.lookup "predicateType" with
  | some (.string predicateType) => predicateType
  | _ => ""

/-- The statements of the input whose predicate type is `t`, in input order; no value
when there is none, as a map holds no key for it. -/
def statementsOfType (statements : List Statement) (t : String) : Option (List Statement) :=
  match statements.filter (fun s => predicateTypeOf s == t) with
  | [] => none
  | found => some found

/-! ## One round of `verify` under an image verification that only mutates the digest -/

/-- What one round of the loop of `verify` does for an image when the image
verification has no attestors and no attestations and has `mutateDigest` set,
and the annotation check does not fire: the response appended, if any, and
the registry calls made. `verifyImage` returns no response and no digest
there, so the round is the two skip tests followed by `handleMutateDigest` on
the empty digest. -/
def mutateOnlyRound {σ : Type} (caps : Capabilities σ) (rule : Rule)
    (policyContext : PolicyContext σ) (imageInfo : ImageInfo) :
    Option RuleResponse × List RegistryCall :=
  let changed := caps.HasChanged policyContext.jsonContext (caps.JMESPath imageInfo.Pointer)
  if changed.2.isNone && !changed.1 then (none, [])
  else
    let verified := caps.isImageVerified policyContext.newResource (caps.imageString imageInfo)
    if verified.2.isNone && verified.1 then (none, [])
    else
      match handleMutateDigest caps "" imageInfo with
      | (more, (_, _, some err)) =>
        (some (ruleError rule .ImageVerify "failed to update digest" err), more)
      | (more, (some patch, _, none)) =>
        (some { ruleResponse rule .ImageVerify "mutated image digest" .pass with
                Patches := [patch] }, more)
      | (more, (none, _, none)) => (none, more)

/-! ## The loops of `verifyAttestations`, from a point inside -/

/-- The attestation as the loops of `verifyAttestations` use it: the local copy, which
gets one empty attestor when the attestation names no attestors. -/
def attestationInUse (attestationRef : Attestation) : Attestation :=
  if attestationRef.Attestors.length = 0 then
    { attestationRef with Attestors := [{ Entries := [{ Attestor := none }] }] }
  else attestationRef

/-- What is left of `verifyAttestations` at a point inside the attestation of index `i`:
the attestor sets of that attestation still to visit, of which `j` is the index
of the first, and then the attestations after it. -/
def verifyAttestationsFrom {σ : Type} (caps : Capabilities σ) (rule : Rule)
    (imageVerify : ImageVerification) (attestationRef : Attestation) (i : Nat)
    (sets : List AttestorSet) (j : Nat) (attestations : List Attestation)
    (st : AttestationState σ) : (σ × List RegistryCall) × Outcome (RuleResponse × String) :=
  match verifyAttestationsSets caps rule imageVerify (attestationInUse attestationRef)
      attestationRef (".attestations[" ++ toString i ++ "]") i sets j st with
  | (st, .panic reason) => ((st.jsonContext, st.calls), .panic reason)
  | (st, .ret (.returned value)) => ((st.jsonContext, st.calls), .ret value)
  | (st, .ret (.finished _)) =>
    let r := verifyAttestationsLoop caps rule imageVerify attestations (i + 1) st
    ((r.1.jsonContext, r.1.calls), r.2)

/-! ## Example data -/

/-- A leaf attestor holding one static key. -/
def keyAttestor (key : String) : Attestor :=
  { Keys := some { PublicKeys := key }, Attestor := none }

/-- A registry for which the keys in `trusted` verify, the keys in `unreachable` end
in a network operation error, and every other key ends in a signature mismatch. -/
def exampleRegistry (trusted unreachable : List String) :
    cosign.Options → Option cosign.Response × Option GoError :=
  fun opts =>
    if opts.Key ∈ unreachable then (none, some (.opError "dial tcp: i/o timeout"))
    else if opts.Key ∈ trusted then (some { Digest := "sha256:abcd" }, none)
    else (none, some (.plain "no matching signatures"))

/-- Modelled from the spec: the method `String()` of `ImageInfo` is not among the
source files. For the examples an image renders as its registry and path,
followed by `@` and the digest once a digest is set, and by `:` and the tag
otherwise. -/
def exampleImageString (imageInfo : ImageInfo) : String :=
  let image :=
    if imageInfo.Registry ≠ "" then imageInfo.Registry ++ "/" ++ imageInfo.Path
    else imageInfo.Path
  if imageInfo.Digest ≠ "" then image ++ "@" ++ imageInfo.Digest
  else image ++ ":" ++ imageInfo.Tag

/-- The image of the examples, `example.com/app:v1`. -/
def exampleImage : ImageInfo :=
  { Registry := "example.com", Path := "app", Tag := "v1", Pointer := "/spec/containers/0/image" }

/-- A wildcard match for the examples: a pattern ending in `*` matches the names that
start with what stands before the `*`, any other pattern matches itself. -/
def exampleWildcard (pattern name : String) : Bool :=
  match pattern.data.reverse with
  | '*' :: stem => stem.reverse.isPrefixOf name.data
  | _ => pattern == name

/-- The capabilities of the examples, over a JSON context that is the grouped image
set of the resource: every image has changed and is not yet verified, every
rule matches, contexts load, variables are left as they are, conditions hold,
and every descriptor has the digest `sha256:abcd`. -/
def exampleCaps (VerifySignature FetchAttestations :
    cosign.Options → Option cosign.Response × Option GoError) : Capabilities Images where
  imageString := exampleImageString
  wildcardMatch := exampleWildcard
  Convert := fun v => v
  quote := fun text => "\"" ++ text ++ "\""
  imageVerifyAnnotationKey := "kyverno.io/verify-images"
  JMESPath := fun pointer => pointer
  isImageVerified := fun _ _ => (false, none)
  ruleMatches := fun _ _ => true
  ComputeRules := fun policy => policy.Rules
  LoadContext := fun ctx _ _ => (ctx, none)
  VerifySignature := VerifySignature
  FetchAttestations := FetchAttestations
  FetchImageDescriptor := fun _ => .ok "sha256:abcd"
  Checkpoint := fun ctx => ctx
  Restore := fun ctx => ctx
  AddImageInfo := fun ctx _ => (ctx, none)
  AddJSONObject := fun ctx _ => (ctx, none)
  HasChanged := fun _ _ => (true, none)
  ImageInfo := fun ctx => ctx
  GenerateCustomImageInfo := fun ctx _ _ => (ctx, .ok ctx)
  SubstituteAllInRule := fun _ rule => .ok rule
  SubstituteAllInConditions := fun _ conditions => .ok conditions
  EvaluateAnyAllConditions := fun _ _ => true
  showStatement := fun _ => "map[]"

/-- A registry that answers every attestation fetch with the given statements. -/
def exampleAttestations (statements : List Statement) :
    cosign.Options → Option cosign.Response × Option GoError :=
  fun _ => (some { Digest := "sha256:abcd", Statements := statements }, none)

/-- A second image of the examples, `example.com/db:v2`. -/
def exampleImage2 : ImageInfo :=
  { Registry := "example.com", Path := "db", Tag := "v2", Pointer := "/spec/containers/1/image" }

/-- A policy context of the examples: one image, and a policy under apply-one with
three rules, of which the first matches no image and the second and third
each mutate the digest of the image. -/
def applyOneContext : PolicyContext Images :=
  { policy :=
      { ApplyRules := .ApplyOne,
        Rules :=
          [{ Name := "first", VerifyImages := [{ ImageReferences := ["ghcr.io/*"] }] },
           { Name := "second",
             VerifyImages := [{ ImageReferences := ["example.com/*"], MutateDigest := true }] },
           { Name := "third",
             VerifyImages := [{ ImageReferences := ["example.com/*"], MutateDigest := true }] }] },
    jsonContext := [("containers", [("app", exampleImage)])] }

/-- What the engine returns on `applyOneContext`: the skip of the first rule and the
applied response of the second. -/
def applyOneResult : EngineState Images :=
  { policyContext := applyOneContext,
    resp := { PolicyResponse :=
      { Rules :=
          [{ Name := "first", Type_ := .ImageVerify,
             Message := "skip run verification as image in resource not found in imageRefs " ++
               "\x27ghcr.io/*\x27",
             Status := .skip },
           { Name := "second", Type_ := .ImageVerify, Message := "mutated image digest",
             Status := .pass,
             Patches := ["\x7b\"op\":\"replace\",\"path\":\"/spec/containers/0/image\"," ++
               "\"value\":\"example.com/app:v1@sha256:abcd\"\x7d"] }],
        RulesAppliedCount := 1,
        RulesErrorCount := 1 } },
    ivm := {},
    calls := [.fetchImageDescriptor "example.com/app:v1"] }

/-- A statement of the examples with the given predicate type and predicate. -/
def exampleStatement (predicateType predicate : String) : Statement :=
  [("predicateType", .string predicateType), ("predicate", .object predicate)]

/-- Three statements of the examples: two of one predicate type around one of
another. -/
def exampleStatements : List Statement :=
  [exampleStatement "https://slsa.dev/provenance/v0.2" "first",
   exampleStatement "https://cyclonedx.org/bom" "second",
   exampleStatement "https://slsa.dev/provenance/v0.2" "third"]

/-- The capabilities of the examples with conditions that never hold. -/
def failingCaps (FetchAttestations : cosign.Options → Option cosign.Response × Option GoError) :
    Capabilities Images :=
  { exampleCaps (exampleRegistry [] []) FetchAttestations with
    EvaluateAnyAllConditions := fun _ _ => false }

/-- An attestation of the examples: provenance statements under one condition. -/
def exampleAttestation : Attestation :=
  { PredicateType := "https://slsa.dev/provenance/v0.2",
    Conditions := [{ text := "builder.id == trusted" }] }

/-- A PEM text of the examples holding two keys. -/
def twoKeyPEM : String :=
  "-----BEGIN PUBLIC KEY-----A-----END PUBLIC KEY-----" ++
    "-----BEGIN PUBLIC KEY-----B-----END PUBLIC KEY-----"

/-- A static-keys entry of the examples that holds two keys and sets the rekor URL,
the signature algorithm, the repository and the annotations. -/
def twoKeyAttestor : Attestor :=
  { Keys := some { PublicKeys := twoKeyPEM, SignatureAlgorithm := "sha512",
                   Rekor := some { URL := "https://rekor.example.com" } },
    Attestor := none,
    Annotations := some [("team", "release")],
    Repository := "registry.example.com/signatures" }

/-- An entry that is a nested attestor set with the given count and entries. -/
def nestedAttestor (count : Option Int) (entries : List Attestor) : Attestor :=
  { Attestor := some (.attestorSet { Count := count, Entries := entries }) }

/-- An image verification of the examples: one attestor set with the key `A`, and
`mutateDigest` set. -/
def signedAndPinned : ImageVerification :=
  { ImageReferences := ["example.com/*"], Attestors := [{ Entries := [keyAttestor "A"] }],
    MutateDigest := true }

/-- A verifier of the examples at its start: the rule `check-image`, no response
yet. -/
def freshVerifier : imageVerifier Images :=
  { policyContext := { jsonContext := [] }, rule := { Name := "check-image" }, resp := {},
    ivm := {} }

/-- What `verify` leaves on `freshVerifier` under `signedAndPinned` for the image
`example.com/app:v1` when the registry trusts no key: one response of status
fail that carries the digest patch. -/
def failedAndPinned : imageVerifier Images :=
  { policyContext := { jsonContext := [] }, rule := { Name := "check-image" },
    resp := { PolicyResponse :=
      { Rules := [{ Name := "check-image", Type_ := .ImageVerify,
                    Message := "failed to verify image example.com/app:v1: " ++
                      ".attestors[0].entries[0].keys: no matching signatures",
                    Status := .fail,
                    Patches := ["\x7b\"op\":\"replace\",\"path\":\"/spec/containers/0/image\"," ++
                      "\"value\":\"example.com/app:v1@sha256:abcd\"\x7d"] }],
        RulesAppliedCount := 1 } },
    ivm := { Data := [("example.com/app@sha256:abcd", false)] },
    calls := [.verifySignature { ImageRef := "example.com/app:v1", Key := "A" },
              .fetchImageDescriptor "example.com/app:v1"] }

/-- A JSON context of the examples that keeps the objects added to it: the objects
now in the context, most recent first, and the contexts saved by the
checkpoints still open. -/
structure ObjectContext where
  objects : List String := []
  saved : List (List String) := []
deriving DecidableEq

/-- The capabilities of the examples over an `ObjectContext`: a checkpoint saves the
objects, a restore brings the last saved objects back, and conditions hold
when the text of every condition is among the objects of the context. The
rest is as in `exampleCaps`. -/
def conditionCaps (FetchAttestations : cosign.Options → Option cosign.Response × Option GoError) :
    Capabilities ObjectContext where
  imageString := exampleImageString
  wildcardMatch := exampleWildcard
  Convert := fun v => v
  quote := fun text => "\"" ++ text ++ "\""
  imageVerifyAnnotationKey := "kyverno.io/verify-images"
  JMESPath := fun pointer => pointer
  isImageVerified := fun _ _ => (false, none)
  ruleMatches := fun _ _ => true
  ComputeRules := fun policy => policy.Rules
  LoadContext := fun ctx _ _ => (ctx, none)
  VerifySignature := exampleRegistry [] []
  FetchAttestations := FetchAttestations
  FetchImageDescriptor := fun _ => .ok "sha256:abcd"
  Checkpoint := fun ctx => { ctx with saved := ctx.objects :: ctx.saved }
  Restore := fun ctx =>
    match ctx.saved with
    | objects :: saved => { objects := objects, saved := saved }
    | [] => ctx
  AddImageInfo := fun ctx _ => (ctx, none)
  AddJSONObject := fun ctx object => ({ ctx with objects := object :: ctx.objects }, none)
  HasChanged := fun _ _ => (true, none)
  ImageInfo := fun _ => []
  GenerateCustomImageInfo := fun ctx _ _ => (ctx, .ok [])
  SubstituteAllInRule := fun _ rule => .ok rule
  SubstituteAllInConditions := fun _ conditions => .ok conditions
  EvaluateAnyAllConditions := fun ctx conditions =>
    conditions.all fun condition => condition.text ∈ ctx.objects
  showStatement := fun _ => "map[]"

/-- A registry that answers every attestation fetch with one statement of the
predicate type asked for, whose predicate is `untrusted` for the keys listed
and `trusted` for every other key. -/
def attestationsByKey (untrusted : List String) :
    cosign.Options → Option cosign.Response × Option GoError :=
  fun opts =>
    (some { Digest := "sha256:abcd",
            Statements :=
              [exampleStatement opts.PredicateType
                (if opts.Key ∈ untrusted then "untrusted" else "trusted")] }, none)

/-- An attestation of the examples without conditions, checked by the key `A`. -/
def bomAttestation : Attestation :=
  { PredicateType := "https://cyclonedx.org/bom",
    Attestors := [{ Entries := [keyAttestor "A"] }] }

/-- An attestation of the examples under the condition `trusted`, with two attestor
sets: one of the keys `A` and `D` with the count 1, one of the keys `A`, `B` and
`C` with the count 3. -/
def provenanceAttestation : Attestation :=
  { PredicateType := "https://slsa.dev/provenance/v0.2",
    Attestors :=
      [{ Count := some 1, Entries := [keyAttestor "A", keyAttestor "D"] },
       { Count := some 3, Entries := [keyAttestor "A", keyAttestor "B", keyAttestor "C"] }],
    Conditions := [{ text := "trusted" }] }

/-- The fetch of the attestations of a predicate type with a key, for the image of the
examples as it renders with the given reference. -/
def exampleFetch (image predicateType key : String) : RegistryCall :=
  .fetchAttestations
    { ImageRef := image, PredicateType := predicateType, FetchAttestations := true, Key := key }

/-- What `verify` leaves on `freshVerifier` under `signedAndPinned` for the image
`example.com/app:v1` when the registry cannot be reached for the key: one
response of status error that carries the digest patch. -/
def erroredAndPinned : imageVerifier Images :=
  { policyContext := { jsonContext := [] }, rule := { Name := "check-image" },
    resp := { PolicyResponse :=
      { Rules := [{ Name := "check-image", Type_ := .ImageVerify,
                    Message := "failed to verify image example.com/app:v1: " ++
                      ".attestors[0].entries[0].keys: dial tcp: i/o timeout",
                    Status := .error,
                    Patches := ["\x7b\"op\":\"replace\",\"path\":\"/spec/containers/0/image\"," ++
                      "\"value\":\"example.com/app:v1@sha256:abcd\"\x7d"] }],
        RulesAppliedCount := 1 } },
    ivm := { Data := [("example.com/app@sha256:abcd", false)] },
    calls := [.verifySignature { ImageRef := "example.com/app:v1", Key := "A" },
              .fetchImageDescriptor "example.com/app:v1"] }

/-- A third image of the examples, `example.com/cache@sha256:ef01`, pinned to a
digest. -/
def pinnedImage : ImageInfo :=
  { Registry := "example.com", Path := "cache", Tag := "v3", Digest := "sha256:ef01",
    Pointer := "/spec/containers/2/image" }

/-! # Theorems -/

/-! ## Lemmas on the `strings` model -/

namespace strings

theorem Index_nil_of_ne {sep : List Char} (hsep : sep ≠ []) : Index [] sep = none := by
  simp [Index, hsep]

theorem Index_cons (c : Char) (s sep : List Char) :
    Index (c :: s) sep =
      if sep.isPrefixOf (c :: s) then some 0 else (Index s sep).map (· + 1) := rfl

/-- Where `Index` finds the separator, the separator stands. -/
theorem Index_some_take {sep : List Char} :
    ∀ (s : List Char) (m : Nat), Index s sep = some m → s.take (m + sep.length) = s.take m ++ sep := by
  intro s
  induction s with
  | nil =>
    intro m h
    by_cases hsep : sep = []
    · subst hsep; simp
    · simp [Index, hsep] at h
  | cons c t ih =>
    intro m h
    rw [Index_cons] at h
    split at h
    · rename_i hp
      have hm : m = 0 := by simpa using h.symm
      subst hm
      rw [ List.isPrefixOf_iff_prefix] at hp
      obtain ⟨r, hr⟩ := hp
      rw [← hr]
      simp
    · cases hi : Index t sep with
      | none => simp [hi] at h
      | some m' =>
        simp [hi] at h
        subst h
        have := ih m' hi
        simp [Nat.add_right_comm m' 1 sep.length, this]

theorem Index_some_length {sep : List Char} :
    ∀ (s : List Char) (m : Nat), Index s sep = some m → m + sep.length ≤ s.length := by
  intro s
  induction s with
  | nil =>
    intro m h
    by_cases hsep : sep = []
    · subst hsep; simp [Index] at h; simp [← h]
    · simp [Index, hsep] at h
  | cons c t ih =>
    intro m h
    rw [Index_cons] at h
    split at h
    · rename_i hp
      have hm : m = 0 := by simpa using h.symm
      subst hm
      rw [ List.isPrefixOf_iff_prefix] at hp
      simpa using hp.length_le
    · cases hi : Index t sep with
      | none => simp [hi] at h
      | some m' =>
        simp [hi] at h
        subst h
        have := ih m' hi
        simp
        omega

/-- The piece cut at the first occurrence holds the separator at the same place. -/
theorem Index_take {sep : List Char} (hsep : sep ≠ []) :
    ∀ (s : List Char) (m : Nat), Index s sep = some m →
      Index (s.take (m + sep.length)) sep = some m := by
  intro s
  induction s with
  | nil => intro m h; simp [Index, hsep] at h
  | cons c t ih =>
    intro m h
    rw [Index_cons] at h
    split at h
    · rename_i hp
      have hm : m = 0 := by simpa using h.symm
      subst hm
      rw [ List.isPrefixOf_iff_prefix] at hp
      obtain ⟨r, hr⟩ := hp
      obtain ⟨d, ds, hd⟩ := List.exists_cons_of_ne_nil hsep
      subst hd
      simp at hr
      obtain ⟨h1, h2⟩ := hr
      subst h1 h2
      simp [Index]
    · rename_i hp
      cases hi : Index t sep with
      | none => simp [hi] at h
      | some m' =>
        simp [hi] at h
        subst h
        have h3 := ih m' hi
        have h4 : m' + 1 + sep.length = (m' + sep.length) + 1 := by omega
        rw [h4, List.take_succ_cons, Index_cons, h3]
        have h5 : sep.isPrefixOf (c :: List.take (m' + sep.length) t) = false := by
          cases h6 : sep.isPrefixOf (c :: List.take (m' + sep.length) t) with
          | false => rfl
          | true =>
            exfalso
            apply hp
            rw [ List.isPrefixOf_iff_prefix] at h6 ⊢
            exact h6.trans ((List.prefix_cons_inj c).2 (List.take_prefix _ t))
        simp [h5]

theorem countLoop_nil {sep : List Char} (hsep : sep ≠ []) (fuel : Nat) : countLoop sep fuel [] = 0 := by
  cases fuel with
  | zero => rfl
  | succ f => simp [countLoop, Index_nil_of_ne hsep]

/-- Cutting happens exactly once in a piece that was itself cut off at a separator. -/
theorem splitAfterChars_take {sep : List Char} (hsep : sep ≠ []) (s : List Char) (m : Nat)
    (h : Index s sep = some m) :
    splitAfterChars (s.take (m + sep.length)) sep = [s.take (m + sep.length), []] := by
  have hidx := Index_take hsep s m h
  have hlen := Index_some_length s m h
  have hl : (s.take (m + sep.length)).length = m + sep.length := by simp; omega
  have hpos : 0 < sep.length := List.length_pos.2 hsep
  have hdrop : (s.take (m + sep.length)).drop (m + sep.length) = [] := by
    apply List.drop_eq_nil_of_le; omega
  have hcount : Count (s.take (m + sep.length)) sep = 1 := by
    unfold Count
    rw [if_neg hsep, hl]
    obtain ⟨k, hk⟩ : ∃ k, m + sep.length = k + 1 := ⟨m + sep.length - 1, by omega⟩
    rw [hk, countLoop, ← hk, hidx]
    simp only
    rw [hdrop, countLoop_nil hsep]
  unfold splitAfterChars
  rw [if_neg hsep, hcount, genSplitLoop, hidx]
  simp only
  rw [hdrop, genSplitLoop]
  simp

/-- The pieces of a split, put together again, are the string. -/
theorem genSplitLoop_flatten (sep : List Char) :
    ∀ (n : Nat) (s : List Char), (genSplitLoop sep sep.length n s).flatten = s := by
  intro n
  induction n with
  | zero => intro s; simp [genSplitLoop]
  | succ n ih =>
    intro s
    rw [genSplitLoop]
    split
    · simp
    · simp [ih]

/-- Shape of a split with `Count` cuts allowed: every piece but the last was cut off
at the first separator of some string, and no separator is left in the last. -/
theorem genSplitLoop_shape {sep : List Char} (hsep : sep ≠ []) :
    ∀ (fuel : Nat) (s : List Char), s.length ≤ fuel →
      ∃ init r, genSplitLoop sep sep.length (countLoop sep fuel s) s = init ++ [r] ∧
        (∀ p ∈ init, ∃ s' m, Index s' sep = some m ∧ p = s'.take (m + sep.length)) ∧
        Index r sep = none := by
  intro fuel
  induction fuel with
  | zero =>
    intro s hs
    have : s = [] := List.length_eq_zero.1 (by omega)
    subst this
    exact ⟨[], [], by simp [countLoop, genSplitLoop], by simp, Index_nil_of_ne hsep⟩
  | succ f ih =>
    intro s hs
    rw [countLoop]
    cases hi : Index s sep with
    | none => exact ⟨[], s, by simp [genSplitLoop], by simp, hi⟩
    | some m =>
      simp only
      rw [genSplitLoop, hi]
      simp only
      have hpos : 0 < sep.length := List.length_pos.2 hsep
      obtain ⟨init, r, h1, h2, h3⟩ := ih (s.drop (m + sep.length)) (by simp; omega)
      refine ⟨s.take (m + sep.length) :: init, r, by simp [h1], ?_, h3⟩
      intro p hp
      rcases List.mem_cons.1 hp with h | h
      · exact ⟨s, m, hi, h⟩
      · exact h2 p h

end strings

/-! ## The attestor-set expander -/

theorem pemTerminator_ne_nil : pemTerminator.data ≠ [] := by decide

/-- Shape of the split behind `splitPEM`: the returned blocks, then one more element,
which is dropped; every block was cut off at the first terminator of some
string, and the dropped element holds no terminator. -/
theorem splitPEM_shape (pem : String) :
    ∃ (r : List Char), strings.SplitAfter pem pemTerminator = splitPEM pem ++ [String.mk r] ∧
      (∀ b ∈ splitPEM pem, ∃ s' m, strings.Index s' pemTerminator.data = some m ∧
        b = String.mk (s'.take (m + pemTerminator.data.length))) ∧
      strings.Index r pemTerminator.data = none := by
  obtain ⟨init, r, h1, h2, h3⟩ :=
    strings.genSplitLoop_shape pemTerminator_ne_nil pem.data.length pem.data (Nat.le_refl _)
  have hsplit : strings.SplitAfter pem pemTerminator = init.map String.mk ++ [String.mk r] := by
    unfold strings.SplitAfter strings.splitAfterChars strings.Count
    rw [if_neg pemTerminator_ne_nil, if_neg pemTerminator_ne_nil, h1]
    simp
  have hpem : splitPEM pem = init.map String.mk := by
    unfold splitPEM
    simp only [hsplit]
    simp
  refine ⟨r, by rw [hsplit, hpem], ?_, h3⟩
  intro b hb
  rw [hpem] at hb
  obtain ⟨p, hp, rfl⟩ := List.mem_map.1 hb
  obtain ⟨s', m, hm, rfl⟩ := h2 p hp
  exact ⟨s', m, hm, rfl⟩

/-- A block returned by `splitPEM` is not split any further. -/
theorem splitPEM_block (pem : String) (b : String) (hb : b ∈ splitPEM pem) : splitPEM b = [b] := by
  obtain ⟨r, -, h2, -⟩ := splitPEM_shape pem
  obtain ⟨s', m, hm, rfl⟩ := h2 b hb
  have h := strings.splitAfterChars_take pemTerminator_ne_nil s' m hm
  unfold splitPEM strings.SplitAfter
  simp only [h]
  simp

theorem createStaticKeyAttestorsLoop_eq (keys : List String) :
    ∀ attestors : List Attestor, createStaticKeyAttestorsLoop attestors keys =
      attestors ++ keys.map (fun k => { Keys := some { PublicKeys := k }, Attestor := none }) := by
  induction keys with
  | nil => intro attestors; simp [createStaticKeyAttestorsLoop]
  | cons k ks ih => intro attestors; simp [createStaticKeyAttestorsLoop, ih]

theorem expandStaticKeysLoop_eq (rest : List Attestor) :
    ∀ entries : List Attestor,
      expandStaticKeysLoop entries rest = entries ++ rest.flatMap expandEntrySpec := by
  induction rest with
  | nil => intro entries; simp [expandStaticKeysLoop]
  | cons e rest ih =>
    intro entries
    rw [expandStaticKeysLoop]
    cases hk : e.Keys with
    | none => simp [ih, expandEntrySpec, hk]
    | some k =>
      simp only
      split
      · rename_i hlen
        simp [ih, expandEntrySpec, hk, hlen, createStaticKeyAttestors,
          createStaticKeyAttestorsLoop_eq]
      · rename_i hlen
        simp [ih, expandEntrySpec, hk, hlen]

/-- An entry produced by the expansion is not expanded any further. -/
theorem expandEntrySpec_fixed (e a : Attestor) (ha : a ∈ expandEntrySpec e) :
    expandEntrySpec a = [a] := by
  unfold expandEntrySpec at ha
  cases hk : e.Keys with
  | none =>
    simp [hk] at ha
    subst ha
    simp [expandEntrySpec, hk]
  | some k =>
    simp only [hk] at ha
    split at ha
    · obtain ⟨key, hkey, rfl⟩ := List.mem_map.1 ha
      simp [expandEntrySpec, splitPEM_block _ key hkey]
    · simp at ha
      subst ha
      rename_i hlen
      simp [expandEntrySpec, hk, hlen]

/-- The entries of the expansion are the expansions of the entries, in order. -/
theorem expandStaticKeys_entries (s : AttestorSet) :
    (expandStaticKeys s).Entries = s.Entries.flatMap expandEntrySpec := by
  unfold expandStaticKeys
  rw [expandStaticKeysLoop_eq]
  simp

/-- Claim C6. `expandStaticKeys` is idempotent: expanding an expanded attestor set
changes nothing, whatever the PEM strings and the kinds of the entries. -/
theorem expandStaticKeys_idempotent (s : AttestorSet) :
    expandStaticKeys (expandStaticKeys s) = expandStaticKeys s := by
  unfold expandStaticKeys
  simp only [expandStaticKeysLoop_eq, List.nil_append]
  congr 1
  rw [List.flatMap_assoc]
  apply List.flatMap_congr
  intro e _
  have h : ∀ l : List Attestor, (∀ a ∈ l, expandEntrySpec a = [a]) →
      l.flatMap expandEntrySpec = l := by
    intro l
    induction l with
    | nil => intro _; rfl
    | cons a l ih =>
      intro hl
      simp [hl a (List.mem_cons_self a l), ih (fun b hb => hl b (List.mem_cons_of_mem a hb))]
  exact h _ (fun a ha => expandEntrySpec_fixed e a ha)

/-- Claim C7. `expandStaticKeys` keeps `Count`, and its entries are the concatenation,
in input order, of the expansion of each entry: one attestor per key, holding
exactly that key, for an entry whose static-keys PEM splits into more than
one key, and the entry itself otherwise. -/
theorem expandStaticKeys_spec (s : AttestorSet) :
    expandStaticKeys s = { Count := s.Count, Entries := s.Entries.flatMap expandEntrySpec } := by
  unfold expandStaticKeys
  rw [expandStaticKeysLoop_eq]
  simp

/-- Claim C8, as stated, fails: of a PEM string that ends in a line break after the
terminator, `splitPEM` drops the line break, which is not empty, and the
returned blocks no longer add up to the input. -/
theorem splitPEM_drops_nonempty_rest :
    strings.SplitAfter "KEY-----END PUBLIC KEY-----\n" pemTerminator
        = ["KEY-----END PUBLIC KEY-----", "\n"] ∧
      splitPEM "KEY-----END PUBLIC KEY-----\n" = ["KEY-----END PUBLIC KEY-----"] ∧
      String.join (splitPEM "KEY-----END PUBLIC KEY-----\n") ≠ "KEY-----END PUBLIC KEY-----\n" := by
  decide

/-- Claim C8, amended. For every PEM string, `splitPEM` returns the blocks obtained by
splitting after each terminator and drops exactly the last element of the
split, the rest after the last terminator, empty or not: every returned block
ends with the terminator, the rest holds no terminator, and the returned
blocks followed by the rest are the input. -/
theorem splitPEM_blocks_and_rest (pem : String) :
    ∃ rest : String,
      strings.SplitAfter pem pemTerminator = splitPEM pem ++ [rest] ∧
      (∀ b ∈ splitPEM pem, ∃ body : String, b = body ++ pemTerminator) ∧
      strings.Index rest.data pemTerminator.data = none ∧
      String.join (splitPEM pem) ++ rest = pem := by
  obtain ⟨r, h1, h2, h3⟩ := splitPEM_shape pem
  refine ⟨String.mk r, h1, ?_, h3, ?_⟩
  · intro b hb
    obtain ⟨s', m, hm, rfl⟩ := h2 b hb
    refine ⟨String.mk (s'.take m), ?_⟩
    rw [strings.Index_some_take s' m hm]
    rfl
  · have h4 : (strings.SplitAfter pem pemTerminator).map String.data
        = strings.splitAfterChars pem.data pemTerminator.data := by
      unfold strings.SplitAfter
      simp [Function.comp_def]
    have h5 := strings.genSplitLoop_flatten pemTerminator.data
      (strings.Count pem.data pemTerminator.data) pem.data
    have h6 : (strings.splitAfterChars pem.data pemTerminator.data).flatten = pem.data := by
      unfold strings.splitAfterChars
      rw [if_neg pemTerminator_ne_nil]
      exact h5
    apply String.ext
    rw [String.data_append, String.data_join, ← h6, ← h4, h1]
    simp

/-- Claim C9. `getRequiredCount` is the number of entries when `Count` is nil or zero,
and the value of `Count` in every other case. -/
theorem getRequiredCount_spec (as : AttestorSet) :
    getRequiredCount as =
      match as.Count with
      | none => (as.Entries.length : Int)
      | some 0 => (as.Entries.length : Int)
      | some count => count := by
  unfold getRequiredCount
  cases h : as.Count with
  | none => rfl
  | some c =>
    by_cases hc : c = 0
    · subst hc; simp
    · simp only [if_neg hc]

/-! ## The registry-error classifier and the digest patch -/

/-- Status of the response of `handleRegistryErrors`. -/
theorem handleRegistryErrors_status (rule : Rule) (image : String) (err : GoError) :
    (handleRegistryErrors rule image err).Status
      = (if err.asOpError = true then RuleStatus.error else RuleStatus.fail) := by
  unfold handleRegistryErrors
  cases h : err.asOpError <;> simp [ruleResponse]

/-- Claim C5. For every image string and every error, `handleRegistryErrors` returns a
rule response whose status is error if `errors.As` finds a network operation
error in the error and fail otherwise, and whose message in both cases is
`"failed to verify image <image>: <error text>"`. -/
theorem handleRegistryErrors_spec (rule : Rule) (image : String) (err : GoError) :
    (handleRegistryErrors rule image err).Status
        = (if err.asOpError = true then RuleStatus.error else RuleStatus.fail) ∧
      (handleRegistryErrors rule image err).Message
        = "failed to verify image " ++ image ++ ": " ++ err.Error := by
  unfold handleRegistryErrors
  cases h : err.asOpError <;> simp [ruleResponse]

/-- Claim C10. For every `ImageInfo` and digest, `makeAddDigestPatch` succeeds, and what
it returns is the JSON encoding of the object with exactly the three fields
`op`, `path` and `value`, holding `"replace"`, the stored JSON pointer, and
the reference string followed by `@` and the digest: the text
`{"op":"replace","path":<pointer>,"value":<ref@digest>}` with every string
encoded by `quote`. -/
theorem makeAddDigestPatch_spec (quote : String → String) (imageString : ImageInfo → String)
    (imageInfo : ImageInfo) (digest : String) :
    makeAddDigestPatch quote imageString imageInfo digest
        = json.encodeObject quote
            [("op", .string "replace"), ("path", .string imageInfo.Pointer),
             ("value", .string (imageString imageInfo ++ "@" ++ digest))] ∧
      makeAddDigestPatch quote imageString imageInfo digest
        = .ok ("\x7b" ++ quote "op" ++ ":" ++ quote "replace" ++ "," ++
            quote "path" ++ ":" ++ quote imageInfo.Pointer ++ "," ++
            quote "value" ++ ":" ++ quote (imageString imageInfo ++ "@" ++ digest) ++ "\x7d") := by
  have hfields : makeAddDigestPatch quote imageString imageInfo digest
      = json.encodeObject quote
          [("op", .string "replace"), ("path", .string imageInfo.Pointer),
           ("value", .string (imageString imageInfo ++ "@" ++ digest))] := rfl
  refine ⟨hfields, ?_⟩
  rw [hfields]
  simp only [json.encodeObject, json.encodeFields, json.encodeValue]
  apply congrArg
  apply String.ext
  simp [String.intercalate, String.intercalate.go]

/-! ## The attestor-set verifier -/

section Verifier

variable (recurse : AttestorSet → String → Option SetResult)
  (VerifySignature : cosign.Options → Option cosign.Response × Option GoError)
  (imageVerify : ImageVerification) (image : String) (path : String) (requiredCount : Int)

/-- One round of the loop on a leaf entry that verifies. -/
theorem verifyAttestorSetLoop_leaf_ok (a : Attestor) (rest : List Attestor) (i : Nat)
    (verifiedCount : Int) (errorList : List GoError) (calls : List cosign.Options)
    (ha : a.Attestor = none) (resp : Option cosign.Response)
    (hvs : VerifySignature (buildOptionsAndPath a imageVerify image none).1 = (resp, none)) :
    verifyAttestorSetLoop recurse VerifySignature imageVerify image path requiredCount
        (a :: rest) i verifiedCount errorList calls =
      if verifiedCount + 1 ≥ requiredCount then
        some (calls ++ [(buildOptionsAndPath a imageVerify image none).1], .ret (resp, none))
      else
        verifyAttestorSetLoop recurse VerifySignature imageVerify image path requiredCount
          rest (i + 1) (verifiedCount + 1) errorList
          (calls ++ [(buildOptionsAndPath a imageVerify image none).1]) := by
  rw [verifyAttestorSetLoop]
  simp only [ha, hvs]

/-- One round of the loop on a leaf entry that does not verify. -/
theorem verifyAttestorSetLoop_leaf_err (a : Attestor) (rest : List Attestor) (i : Nat)
    (verifiedCount : Int) (errorList : List GoError) (calls : List cosign.Options)
    (ha : a.Attestor = none) (resp : Option cosign.Response) (e : GoError)
    (hvs : VerifySignature (buildOptionsAndPath a imageVerify image none).1 = (resp, some e)) :
    verifyAttestorSetLoop recurse VerifySignature imageVerify image path requiredCount
        (a :: rest) i verifiedCount errorList calls =
      verifyAttestorSetLoop recurse VerifySignature imageVerify image path requiredCount
        rest (i + 1) verifiedCount
        (errorList ++ [errors.Wrapf e (path ++ ".entries[" ++ toString i ++ "]" ++
          (buildOptionsAndPath a imageVerify image none).2)])
        (calls ++ [(buildOptionsAndPath a imageVerify image none).1]) := by
  rw [verifyAttestorSetLoop]
  simp only [ha, hvs]

/-- On leaf entries the loop returns a nil error exactly when some entry verifies and
the entries that verify, added to those counted so far, reach the required count. -/
theorem verifyAttestorSetLoop_nil_error_iff (es : List Attestor)
    (hleaf : ∀ a ∈ es, a.Attestor = none) :
    ∀ (i : Nat) (verifiedCount : Int) (errorList : List GoError) (calls : List cosign.Options),
      (∃ made resp, verifyAttestorSetLoop recurse VerifySignature imageVerify image path
          requiredCount es i verifiedCount errorList calls = some (made, .ret (resp, none))) ↔
        (1 ≤ es.countP (fun a =>
            (VerifySignature (buildOptionsAndPath a imageVerify image none).1).2.isNone) ∧
          requiredCount ≤ verifiedCount + (es.countP (fun a =>
            (VerifySignature (buildOptionsAndPath a imageVerify image none).1).2.isNone) : Nat)) := by
  induction es with
  | nil =>
    intro i v el calls
    rw [verifyAttestorSetLoop]
    cases multierr.Combine el <;> simp
  | cons a rest ih =>
    intro i v el calls
    have ha := hleaf a (List.mem_cons_self a rest)
    have ih' := ih (fun b hb => hleaf b (List.mem_cons_of_mem a hb))
    cases hvs : VerifySignature (buildOptionsAndPath a imageVerify image none).1 with
    | mk resp err =>
      cases err with
      | none =>
        rw [verifyAttestorSetLoop_leaf_ok recurse VerifySignature imageVerify image path
          requiredCount a rest i v el calls ha resp hvs]
        have hc : List.countP (fun a =>
            (VerifySignature (buildOptionsAndPath a imageVerify image none).1).2.isNone) (a :: rest)
            = List.countP (fun a =>
            (VerifySignature (buildOptionsAndPath a imageVerify image none).1).2.isNone) rest + 1 := by
          simp [List.countP_cons, hvs]
        rw [hc]
        by_cases hq : v + 1 ≥ requiredCount
        · rw [if_pos hq]
          constructor
          · intro _
            constructor
            · omega
            · push_cast; omega
          · intro _
            exact ⟨_, _, rfl⟩
        · rw [if_neg hq, ih']
          simp only [Nat.cast_add, Nat.cast_one]
          constructor
          · rintro ⟨h1, h2⟩
            constructor
            · omega
            · omega
          · rintro ⟨h1, h2⟩
            constructor
            · omega
            · omega
      | some e =>
        rw [verifyAttestorSetLoop_leaf_err recurse VerifySignature imageVerify image path
          requiredCount a rest i v el calls ha resp e hvs]
        have hc : List.countP (fun a =>
            (VerifySignature (buildOptionsAndPath a imageVerify image none).1).2.isNone) (a :: rest)
            = List.countP (fun a =>
            (VerifySignature (buildOptionsAndPath a imageVerify image none).1).2.isNone) rest := by
          simp [List.countP_cons, hvs]
        rw [hc, ih']

/-- When the entries up to the one that reaches the required count are leaves that
verify, the loop calls the registry for them, in order, and returns there. -/
theorem verifyAttestorSetLoop_short_circuit (a : Attestor) (rest : List Attestor) :
    ∀ (pre : List Attestor) (i : Nat) (verifiedCount : Int) (errorList : List GoError)
      (calls : List cosign.Options),
      (∀ b ∈ pre ++ [a], b.Attestor = none ∧
        (VerifySignature (buildOptionsAndPath b imageVerify image none).1).2 = none) →
      requiredCount = verifiedCount + (pre.length : Int) + 1 →
      verifyAttestorSetLoop recurse VerifySignature imageVerify image path requiredCount
          (pre ++ a :: rest) i verifiedCount errorList calls =
        some (calls ++ (pre ++ [a]).map (fun b => (buildOptionsAndPath b imageVerify image none).1),
          .ret ((VerifySignature (buildOptionsAndPath a imageVerify image none).1).1, none)) := by
  intro pre
  induction pre with
  | nil =>
    intro i v el calls hok hreq
    obtain ⟨ha, hva⟩ := hok a (by simp)
    have hvs : VerifySignature (buildOptionsAndPath a imageVerify image none).1 =
        ((VerifySignature (buildOptionsAndPath a imageVerify image none).1).1, none) := by
      rw [← hva]
    rw [List.nil_append, verifyAttestorSetLoop_leaf_ok recurse VerifySignature imageVerify image
      path requiredCount a rest i v el calls ha _ hvs, if_pos (by simp at hreq; omega)]
    simp
  | cons b pre ih =>
    intro i v el calls hok hreq
    obtain ⟨hb, hvb⟩ := hok b (by simp)
    have hvs : VerifySignature (buildOptionsAndPath b imageVerify image none).1 =
        ((VerifySignature (buildOptionsAndPath b imageVerify image none).1).1, none) := by
      rw [← hvb]
    rw [List.cons_append, verifyAttestorSetLoop_leaf_ok recurse VerifySignature imageVerify image
      path requiredCount b (pre ++ a :: rest) i v el calls hb _ hvs,
      if_neg (by simp at hreq; omega)]
    rw [ih (i + 1) (v + 1) el _ (fun c hc => hok c (by simp at hc ⊢; tauto))
      (by simp at hreq ⊢; omega)]
    simp

/-- When every entry is a leaf that verifies and the required count is still out of
reach, no error is recorded and the loop ends in the call `err.Error()` on a
nil error. -/
theorem verifyAttestorSetLoop_panic :
    ∀ (es : List Attestor) (i : Nat) (verifiedCount : Int) (calls : List cosign.Options),
      (∀ b ∈ es, b.Attestor = none ∧
        (VerifySignature (buildOptionsAndPath b imageVerify image none).1).2 = none) →
      verifiedCount + (es.length : Int) < requiredCount →
      verifyAttestorSetLoop recurse VerifySignature imageVerify image path requiredCount
          es i verifiedCount [] calls =
        some (calls ++ es.map (fun b => (buildOptionsAndPath b imageVerify image none).1),
          .panic nilDereference) := by
  intro es
  induction es with
  | nil =>
    intro i v calls _ _
    rw [verifyAttestorSetLoop]
    simp [multierr.Combine]
  | cons b es ih =>
    intro i v calls hok hreq
    obtain ⟨hb, hvb⟩ := hok b (by simp)
    have hvs : VerifySignature (buildOptionsAndPath b imageVerify image none).1 =
        ((VerifySignature (buildOptionsAndPath b imageVerify image none).1).1, none) := by
      rw [← hvb]
    rw [verifyAttestorSetLoop_leaf_ok recurse VerifySignature imageVerify image
      path requiredCount b es i v [] calls hb _ hvs, if_neg (by simp at hreq; omega)]
    rw [ih (i + 1) (v + 1) _ (fun c hc => hok c (List.mem_cons_of_mem b hc))
      (by simp at hreq ⊢; omega)]
    simp

end Verifier

theorem anyOpError_append (l₁ l₂ : List GoError) :
    GoError.anyOpError (l₁ ++ l₂) = (GoError.anyOpError l₁ || GoError.anyOpError l₂) := by
  induction l₁ with
  | nil => simp [GoError.anyOpError]
  | cons e l ih => simp [GoError.anyOpError, ih, Bool.or_assoc]

theorem anyOpError_flatten (l : List GoError) :
    GoError.anyOpError (multierr.flatten l) = GoError.anyOpError l := by
  induction l with
  | nil => rfl
  | cons e l ih =>
    cases e <;> simp [multierr.flatten, GoError.anyOpError, GoError.asOpError, ih,
      anyOpError_append]

/-- The test `errors.As` finds a network error in a combined error exactly when it
finds one in an error of the list. -/
theorem Combine_asOpError (l : List GoError) (err : GoError) (h : multierr.Combine l = some err) :
    err.asOpError = GoError.anyOpError l := by
  match l, h with
  | [e], h =>
    simp [multierr.Combine] at h
    subst h
    simp [GoError.anyOpError]
  | e :: f :: l, h =>
    simp [multierr.Combine] at h
    subst h
    simp only [GoError.asOpError]
    exact anyOpError_flatten _

/-- When the loop returns an error, it returns no response, and `errors.As` finds a
network error in the error as soon as one was recorded before, or the
registry answers one of the leaf entries with one. -/
theorem verifyAttestorSetLoop_error (recurse : AttestorSet → String → Option SetResult)
    (VerifySignature : cosign.Options → Option cosign.Response × Option GoError)
    (imageVerify : ImageVerification) (image : String) (path : String) (requiredCount : Int) :
    ∀ (es : List Attestor) (i : Nat) (verifiedCount : Int) (errorList : List GoError)
      (calls made : List cosign.Options) (resp : Option cosign.Response) (err : GoError),
      verifyAttestorSetLoop recurse VerifySignature imageVerify image path requiredCount
          es i verifiedCount errorList calls = some (made, .ret (resp, some err)) →
      resp = none ∧
        ((GoError.anyOpError errorList = true ∨
          ∃ a ∈ es, a.Attestor = none ∧ ∃ e,
            (VerifySignature (buildOptionsAndPath a imageVerify image none).1).2 = some e ∧
              e.asOpError = true) → err.asOpError = true) := by
  intro es
  induction es with
  | nil =>
    intro i v el calls made resp err h
    rw [verifyAttestorSetLoop] at h
    cases hc : multierr.Combine el with
    | none => simp [hc] at h
    | some err' =>
      simp [hc] at h
      obtain ⟨-, h1, h2⟩ := h
      subst h1 h2
      refine ⟨rfl, ?_⟩
      intro hor
      rw [Combine_asOpError el err' hc]
      rcases hor with h | ⟨a, ha, -⟩
      · exact h
      · simp at ha
  | cons a rest ih =>
    intro i v el calls made resp err h
    rw [verifyAttestorSetLoop] at h
    simp only at h
    split at h
    · simp at h
    · simp at h
    · split at h
      · simp at h
      · rename_i made' cosignResp heq hq
        obtain ⟨h1, h2⟩ := ih _ _ _ _ _ _ _ h
        refine ⟨h1, fun hor => h2 ?_⟩
        rcases hor with hor | ⟨b, hb, hleaf, e, he, hop⟩
        · exact Or.inl hor
        · rcases List.mem_cons.1 hb with hba | hbr
          · subst hba
            exfalso
            cases hvs : VerifySignature (buildOptionsAndPath b imageVerify image none).1 with
            | mk r e' =>
              rw [hvs] at he
              simp only at he
              subst he
              simp [hleaf, hvs] at heq
          · exact Or.inr ⟨b, hbr, hleaf, e, he, hop⟩
    · rename_i made' cosignResp entryError heq
      obtain ⟨h1, h2⟩ := ih _ _ _ _ _ _ _ h
      refine ⟨h1, fun hor => h2 ?_⟩
      rw [anyOpError_append]
      rcases hor with hor | ⟨b, hb, hleaf, e, he, hop⟩
      · exact Or.inl (by simp [hor])
      · rcases List.mem_cons.1 hb with hba | hbr
        · subst hba
          left
          cases hvs : VerifySignature (buildOptionsAndPath b imageVerify image none).1 with
          | mk r e' =>
            rw [hvs] at he
            simp only at he
            subst he
            simp [hleaf, hvs] at heq
            obtain ⟨-, -, h3⟩ := heq
            subst h3
            simp [GoError.anyOpError, errors.Wrapf, GoError.asOpError, hop]
        · exact Or.inr ⟨b, hbr, hleaf, e, he, hop⟩

/-! ### The recursion into nested sets ends -/

theorem attestorDepth_eq (a : Attestor) :
    attestorDepth a =
      match a.Attestor with
      | none => 0
      | some (.malformed _) => 0
      | some (.attestorSet set) => setDepth set + 1 := by
  obtain ⟨k, c, l, n, an, r⟩ := a
  cases n with
  | none => simp [attestorDepth]
  | some j =>
    cases j with
    | malformed e => simp [attestorDepth]
    | attestorSet set =>
      obtain ⟨cnt, es⟩ := set
      simp [attestorDepth, setDepth]

theorem attestorDepth_le_entriesDepth (a : Attestor) (es : List Attestor) (h : a ∈ es) :
    attestorDepth a ≤ entriesDepth es := by
  induction es with
  | nil => simp at h
  | cons b es ih =>
    rw [entriesDepth]
    rcases List.mem_cons.1 h with h | h
    · subst h; exact Nat.le_max_left _ _
    · exact Nat.le_trans (ih h) (Nat.le_max_right _ _)

theorem entriesDepth_le (es : List Attestor) (n : Nat) (h : ∀ a ∈ es, attestorDepth a ≤ n) :
    entriesDepth es ≤ n := by
  induction es with
  | nil => simp [entriesDepth]
  | cons b es ih =>
    rw [entriesDepth]
    exact Nat.max_le.2 ⟨h b (List.mem_cons_self b es),
      ih (fun a ha => h a (List.mem_cons_of_mem b ha))⟩

/-- An entry of the expansion is an entry of the set, or a leaf. -/
theorem mem_expandStaticKeys (s : AttestorSet) (a : Attestor)
    (h : a ∈ (expandStaticKeys s).Entries) : a ∈ s.Entries ∨ a.Attestor = none := by
  rw [expandStaticKeys_entries] at h
  simp only [List.mem_flatMap] at h
  obtain ⟨e, he, hae⟩ := h
  unfold expandEntrySpec at hae
  cases hk : e.Keys with
  | none =>
    simp [hk] at hae
    subst hae
    exact Or.inl he
  | some k =>
    simp only [hk] at hae
    split at hae
    · obtain ⟨key, -, rfl⟩ := List.mem_map.1 hae
      exact Or.inr rfl
    · simp at hae
      subst hae
      exact Or.inl he

theorem expandStaticKeys_leaf (s : AttestorSet) (h : ∀ a ∈ s.Entries, a.Attestor = none) :
    ∀ a ∈ (expandStaticKeys s).Entries, a.Attestor = none := by
  intro a ha
  rcases mem_expandStaticKeys s a ha with h1 | h1
  · exact h a h1
  · exact h1

theorem setDepth_expandStaticKeys (s : AttestorSet) :
    setDepth (expandStaticKeys s) ≤ setDepth s := by
  unfold setDepth
  apply entriesDepth_le
  intro a ha
  rcases mem_expandStaticKeys s a ha with h1 | h1
  · exact attestorDepth_le_entriesDepth a _ h1
  · rw [attestorDepth_eq, h1]
    exact Nat.zero_le _

/-- The loop yields a result as soon as the recursive calls it makes do. -/
theorem verifyAttestorSetLoop_isSome (recurse : AttestorSet → String → Option SetResult)
    (VerifySignature : cosign.Options → Option cosign.Response × Option GoError)
    (imageVerify : ImageVerification) (image : String) (path : String) (requiredCount : Int) :
    ∀ (es : List Attestor) (i : Nat) (verifiedCount : Int) (errorList : List GoError)
      (calls : List cosign.Options),
      (∀ a ∈ es, ∀ nested, a.Attestor = some (.attestorSet nested) →
        ∀ p, (recurse nested p).isSome = true) →
      (verifyAttestorSetLoop recurse VerifySignature imageVerify image path requiredCount
          es i verifiedCount errorList calls).isSome = true := by
  intro es
  induction es with
  | nil =>
    intro i v el calls _
    rw [verifyAttestorSetLoop]
    cases multierr.Combine el <;> rfl
  | cons a rest ih =>
    intro i v el calls hrec
    have ih' := fun i v el calls =>
      ih i v el calls (fun b hb => hrec b (List.mem_cons_of_mem a hb))
    rw [verifyAttestorSetLoop]
    simp only
    split
    · rename_i heq
      exfalso
      cases hn : a.Attestor with
      | none =>
        simp only [hn] at heq
        split at heq <;> simp at heq
      | some j =>
        cases j with
        | malformed e => simp [hn, AttestorSetUnmarshal] at heq
        | attestorSet nested =>
          simp only [hn, AttestorSetUnmarshal] at heq
          have := hrec a (List.mem_cons_self a rest) nested hn
            (path ++ ".entries[" ++ toString i ++ "]" ++ ".attestor")
          rw [heq] at this
          simp at this
    · rfl
    · split
      · rfl
      · exact ih' _ _ _ _
    · exact ih' _ _ _ _

/-- With a bound above the nesting depth of the set, `verifyAttestorSet` yields a
result: it returns or panics, it never runs out of recursion depth. -/
theorem verifyAttestorSetFuel_isSome
    (VerifySignature : cosign.Options → Option cosign.Response × Option GoError)
    (imageString : ImageInfo → String) (imageVerify : ImageVerification) (imageInfo : ImageInfo) :
    ∀ (fuel : Nat) (attestorSet : AttestorSet) (path : String), setDepth attestorSet < fuel →
      (verifyAttestorSetFuel VerifySignature imageString imageVerify imageInfo fuel attestorSet
        path).isSome = true := by
  intro fuel
  induction fuel with
  | zero => intro s p h; omega
  | succ fuel ih =>
    intro s p h
    rw [verifyAttestorSetFuel]
    apply verifyAttestorSetLoop_isSome
    intro a ha nested hn q
    apply ih
    have h1 := attestorDepth_le_entriesDepth a _ ha
    rw [attestorDepth_eq, hn] at h1
    have h2 := setDepth_expandStaticKeys s
    unfold setDepth at h2 h1 h ⊢
    simp only at h1
    omega

/-- The function `verifyAttestorSet` is total: on every attestor set it returns or panics. -/
theorem verifyAttestorSet_returns
    (VerifySignature : cosign.Options → Option cosign.Response × Option GoError)
    (imageString : ImageInfo → String) (imageVerify : ImageVerification) (imageInfo : ImageInfo)
    (attestorSet : AttestorSet) (path : String) :
    (verifyAttestorSet VerifySignature imageString imageVerify imageInfo attestorSet
      path).isSome = true :=
  verifyAttestorSetFuel_isSome VerifySignature imageString imageVerify imageInfo _ _ _
    (Nat.lt_succ_self _)

/-! ### Quorum -/

theorem verifyAttestorSet_eq
    (VerifySignature : cosign.Options → Option cosign.Response × Option GoError)
    (imageString : ImageInfo → String) (imageVerify : ImageVerification) (imageInfo : ImageInfo)
    (attestorSet : AttestorSet) (path : String) :
    verifyAttestorSet VerifySignature imageString imageVerify imageInfo attestorSet path =
      verifyAttestorSetLoop
        (verifyAttestorSetFuel VerifySignature imageString imageVerify imageInfo
          (setDepth attestorSet))
        VerifySignature imageVerify (imageString imageInfo) path
        (getRequiredCount (expandStaticKeys attestorSet))
        (expandStaticKeys attestorSet).Entries 0 0 [] [] := rfl

/-- Claim C1, as stated, fails where the required count is below 1. With `Count` set to
`-1` and one entry that does not verify, no entry verifies and `0 ≥ -1`, yet
`verifyAttestorSet` returns the entry error; on the set without entries the
required count is 0 and `0 ≥ 0`, yet `verifyAttestorSet` returns no nil
error (it does not return at all). -/
theorem verifyAttestorSet_count_below_one :
    ¬ ((∃ calls resp, verifyAttestorSet (exampleRegistry [] []) exampleImageString {} exampleImage
          { Count := some (-1), Entries := [keyAttestor "A"] } ".attestors[0]"
            = some (calls, .ret (resp, none))) ↔
        getRequiredCount (expandStaticKeys { Count := some (-1), Entries := [keyAttestor "A"] })
          ≤ (((expandStaticKeys { Count := some (-1), Entries := [keyAttestor "A"] }).Entries.countP
              (fun a => ((exampleRegistry [] []) (buildOptionsAndPath a {}
                (exampleImageString exampleImage) none).1).2.isNone) : Nat) : Int)) ∧
      verifyAttestorSet (exampleRegistry [] []) exampleImageString {} exampleImage
          { Count := some (-1), Entries := [keyAttestor "A"] } ".attestors[0]"
        = some ([{ ImageRef := "example.com/app:v1", Key := "A" }],
            .ret (none, some (.withMessage (.plain "no matching signatures")
              ".attestors[0].entries[0].keys"))) ∧
      ¬ ((∃ calls resp, verifyAttestorSet (exampleRegistry [] []) exampleImageString {} exampleImage
          { Count := none, Entries := [] } ".attestors[0]" = some (calls, .ret (resp, none))) ↔
        getRequiredCount (expandStaticKeys { Count := none, Entries := [] })
          ≤ (((expandStaticKeys { Count := none, Entries := [] }).Entries.countP
              (fun a => ((exampleRegistry [] []) (buildOptionsAndPath a {}
                (exampleImageString exampleImage) none).1).2.isNone) : Nat) : Int)) := by
  have h1 : verifyAttestorSet (exampleRegistry [] []) exampleImageString {} exampleImage
      { Count := some (-1), Entries := [keyAttestor "A"] } ".attestors[0]"
        = some ([{ ImageRef := "example.com/app:v1", Key := "A" }],
            .ret (none, some (.withMessage (.plain "no matching signatures")
              ".attestors[0].entries[0].keys"))) := rfl
  have h2 : verifyAttestorSet (exampleRegistry [] []) exampleImageString {} exampleImage
      { Count := none, Entries := [] } ".attestors[0]" = some ([], .panic nilDereference) := rfl
  refine ⟨?_, h1, ?_⟩
  · intro h
    obtain ⟨calls, resp, hc⟩ := h.2 (by decide)
    rw [h1] at hc
    simp at hc
  · intro h
    obtain ⟨calls, resp, hc⟩ := h.2 (by decide)
    rw [h2] at hc
    simp at hc

/-- Claim C1, amended. For every attestor set whose entries are all leaf attestors and
whose required count is at least 1, and every outcome of `VerifySignature`
per entry, `verifyAttestorSet` returns a nil error if and only if the number
of entries of the expanded set whose verification succeeds is at least the
required count of the expanded set. -/
theorem verifyAttestorSet_nil_error_iff
    (VerifySignature : cosign.Options → Option cosign.Response × Option GoError)
    (imageString : ImageInfo → String) (imageVerify : ImageVerification) (imageInfo : ImageInfo)
    (attestorSet : AttestorSet) (path : String)
    (hleaf : ∀ a ∈ attestorSet.Entries, a.Attestor = none)
    (hreq : 1 ≤ getRequiredCount (expandStaticKeys attestorSet)) :
    (∃ calls resp, verifyAttestorSet VerifySignature imageString imageVerify imageInfo
        attestorSet path = some (calls, .ret (resp, none))) ↔
      getRequiredCount (expandStaticKeys attestorSet) ≤
        (((expandStaticKeys attestorSet).Entries.countP (fun a =>
          (VerifySignature (buildOptionsAndPath a imageVerify (imageString imageInfo)
            none).1).2.isNone) : Nat) : Int) := by
  rw [verifyAttestorSet_eq, verifyAttestorSetLoop_nil_error_iff _ _ _ _ _ _ _
    (expandStaticKeys_leaf attestorSet hleaf)]
  constructor
  · rintro ⟨-, h⟩
    omega
  · intro h
    constructor
    · omega
    · omega

/-- Witness for claim C1: two of three keys verify and two
are required. -/
theorem verifyAttestorSet_nil_error_iff_witness :
    (∃ calls resp, verifyAttestorSet (exampleRegistry ["A", "C"] []) exampleImageString {}
        exampleImage { Count := some 2, Entries := [keyAttestor "A", keyAttestor "B", keyAttestor "C"] }
        ".attestors[0]" = some (calls, .ret (resp, none))) ↔
      getRequiredCount (expandStaticKeys
          { Count := some 2, Entries := [keyAttestor "A", keyAttestor "B", keyAttestor "C"] }) ≤
        (((expandStaticKeys
            { Count := some 2, Entries := [keyAttestor "A", keyAttestor "B", keyAttestor "C"] }).Entries.countP
          (fun a => ((exampleRegistry ["A", "C"] []) (buildOptionsAndPath a {}
            (exampleImageString exampleImage) none).1).2.isNone) : Nat) : Int) :=
  verifyAttestorSet_nil_error_iff (exampleRegistry ["A", "C"] []) exampleImageString {}
    exampleImage { Count := some 2, Entries := [keyAttestor "A", keyAttestor "B", keyAttestor "C"] }
    ".attestors[0]" (by intro a ha; simp at ha; rcases ha with rfl | rfl | rfl <;> rfl) (by decide)

/-- Claim C2. For every attestor set with required count `k ≥ 1` whose first `k` expanded
entries (`pre` and then `a`) are leaves that all verify, `verifyAttestorSet`
invokes `VerifySignature` on exactly those `k` entries, in order, and on no
later entry, and returns the response of the last of them with a nil error. -/
theorem verifyAttestorSet_short_circuit
    (VerifySignature : cosign.Options → Option cosign.Response × Option GoError)
    (imageString : ImageInfo → String) (imageVerify : ImageVerification) (imageInfo : ImageInfo)
    (attestorSet : AttestorSet) (path : String)
    (pre : List Attestor) (a : Attestor) (rest : List Attestor)
    (hentries : (expandStaticKeys attestorSet).Entries = pre ++ a :: rest)
    (hk : getRequiredCount (expandStaticKeys attestorSet) = (pre.length : Int) + 1)
    (hok : ∀ b ∈ pre ++ [a], b.Attestor = none ∧
      (VerifySignature (buildOptionsAndPath b imageVerify (imageString imageInfo) none).1).2
        = none) :
    verifyAttestorSet VerifySignature imageString imageVerify imageInfo attestorSet path =
      some ((pre ++ [a]).map
          (fun b => (buildOptionsAndPath b imageVerify (imageString imageInfo) none).1),
        .ret ((VerifySignature
          (buildOptionsAndPath a imageVerify (imageString imageInfo) none).1).1, none)) := by
  rw [verifyAttestorSet_eq, hentries,
    verifyAttestorSetLoop_short_circuit _ _ _ _ _ _ a rest pre 0 0 [] [] hok (by rw [hk]; omega)]
  simp

/-- Witness for claim C2: two keys are required, the first two
of three verify, and the registry is asked about those two only. -/
theorem verifyAttestorSet_short_circuit_witness :
    verifyAttestorSet (exampleRegistry ["A", "B", "C"] []) exampleImageString {} exampleImage
        { Count := some 2, Entries := [keyAttestor "A", keyAttestor "B", keyAttestor "C"] }
        ".attestors[0]" =
      some ([{ ImageRef := "example.com/app:v1", Key := "A" },
             { ImageRef := "example.com/app:v1", Key := "B" }],
        .ret (some { Digest := "sha256:abcd" }, none)) :=
  verifyAttestorSet_short_circuit (exampleRegistry ["A", "B", "C"] []) exampleImageString {}
    exampleImage { Count := some 2, Entries := [keyAttestor "A", keyAttestor "B", keyAttestor "C"] }
    ".attestors[0]" [keyAttestor "A"] (keyAttestor "B") [keyAttestor "C"] rfl (by decide)
    (by intro b hb; simp at hb; rcases hb with rfl | rfl <;> exact ⟨rfl, rfl⟩)

/-- Claim C3 fails on the code. When every entry of the expanded set is a leaf that
verifies and the loop still ends without the required count, because the set
has no entry or because the required count exceeds the number of entries, no
entry error was recorded, `multierr.Combine` yields a nil error, and
`verifyAttestorSet` panics in `err.Error()` instead of returning a nil
response with a non-nil error. -/
theorem verifyAttestorSet_panics_without_entry_error
    (VerifySignature : cosign.Options → Option cosign.Response × Option GoError)
    (imageString : ImageInfo → String) (imageVerify : ImageVerification) (imageInfo : ImageInfo)
    (attestorSet : AttestorSet) (path : String)
    (hok : ∀ b ∈ (expandStaticKeys attestorSet).Entries, b.Attestor = none ∧
      (VerifySignature (buildOptionsAndPath b imageVerify (imageString imageInfo) none).1).2
        = none)
    (hreq : (expandStaticKeys attestorSet).Entries = [] ∨
      ((expandStaticKeys attestorSet).Entries.length : Int)
        < getRequiredCount (expandStaticKeys attestorSet)) :
    verifyAttestorSet VerifySignature imageString imageVerify imageInfo attestorSet path =
      some ((expandStaticKeys attestorSet).Entries.map
          (fun b => (buildOptionsAndPath b imageVerify (imageString imageInfo) none).1),
        .panic nilDereference) := by
  rw [verifyAttestorSet_eq]
  rcases hreq with h | h
  · rw [h, verifyAttestorSetLoop]
    simp [multierr.Combine]
  · rw [verifyAttestorSetLoop_panic _ _ _ _ _ _ _ 0 0 [] hok (by omega)]
    simp

/-- Witness for claim C3: a set without entries,
and a set of two keys that both verify with `Count` 3. -/
theorem verifyAttestorSet_panics_without_entry_error_witness :
    verifyAttestorSet (exampleRegistry ["A", "B"] []) exampleImageString {} exampleImage
        { Count := none, Entries := [] } ".attestors[0]" = some ([], .panic nilDereference) ∧
      verifyAttestorSet (exampleRegistry ["A", "B"] []) exampleImageString {} exampleImage
        { Count := some 3, Entries := [keyAttestor "A", keyAttestor "B"] } ".attestors[0]" =
      some ([{ ImageRef := "example.com/app:v1", Key := "A" },
             { ImageRef := "example.com/app:v1", Key := "B" }], .panic nilDereference) :=
  ⟨verifyAttestorSet_panics_without_entry_error (exampleRegistry ["A", "B"] [])
      exampleImageString {} exampleImage { Count := none, Entries := [] } ".attestors[0]"
      (by intro b hb; simp [expandStaticKeys, expandStaticKeysLoop] at hb) (Or.inl rfl),
    verifyAttestorSet_panics_without_entry_error (exampleRegistry ["A", "B"] [])
      exampleImageString {} exampleImage
      { Count := some 3, Entries := [keyAttestor "A", keyAttestor "B"] } ".attestors[0]"
      (by
        intro b hb
        have : (expandStaticKeys { Count := some 3, Entries := [keyAttestor "A", keyAttestor "B"] }).Entries
            = [keyAttestor "A", keyAttestor "B"] := rfl
        rw [this] at hb
        simp at hb
        rcases hb with rfl | rfl <;> exact ⟨rfl, rfl⟩)
      (Or.inr (by decide))⟩

/-! ### Network errors -/

/-- The attestor sets that return a nil error are passed over by the loop of
`verifyAttestors`. -/
theorem verifyAttestorsLoop_skip
    (VerifySignature : cosign.Options → Option cosign.Response × Option GoError)
    (imageString : ImageInfo → String) (rule : Rule) (imageVerify : ImageVerification)
    (imageInfo : ImageInfo) (image : String) (rest : List AttestorSet) :
    ∀ (pre : List AttestorSet) (i : Nat) (cosignResponse : Option cosign.Response)
      (calls : List cosign.Options),
      (∀ (j : Nat) (s : AttestorSet), pre[j]? = some s → ∃ made resp,
        verifyAttestorSet VerifySignature imageString imageVerify imageInfo s
          (".attestors[" ++ toString (i + j) ++ "]") = some (made, .ret (resp, none))) →
      ∃ cosignResponse' calls',
        verifyAttestorsLoop VerifySignature imageString rule imageVerify imageInfo image
            (pre ++ rest) i cosignResponse calls =
          verifyAttestorsLoop VerifySignature imageString rule imageVerify imageInfo image
            rest (i + pre.length) cosignResponse' calls' := by
  intro pre
  induction pre with
  | nil => intro i cr calls _; exact ⟨cr, calls, rfl⟩
  | cons s pre ih =>
    intro i cr calls hpre
    obtain ⟨made, resp, h0⟩ := hpre 0 s (by simp)
    rw [Nat.add_zero] at h0
    rw [List.cons_append, verifyAttestorsLoop]
    simp only [h0]
    obtain ⟨cr', calls', h1⟩ := ih (i + 1) resp (calls ++ made) (by
      intro j t hj
      have := hpre (j + 1) t (by simpa using hj)
      rwa [show i + (j + 1) = i + 1 + j by omega] at this)
    refine ⟨cr', calls', ?_⟩
    rw [h1, List.length_cons, show i + (pre.length + 1) = i + 1 + pre.length by omega]

/-- Claim C4, as stated, fails: with `Count` 1 and two keys, the first of which ends in a
network operation error and the second of which verifies, the registry was
asked about the first key and answered with a network error, yet the rule
response of `verifyAttestors` has status pass. -/
theorem verifyAttestors_pass_despite_network_error :
    (exampleRegistry ["B"] ["A"] { ImageRef := "example.com/app:v1", Key := "A" }).2
        = some (.opError "dial tcp: i/o timeout") ∧
      verifyAttestors (exampleRegistry ["B"] ["A"]) exampleImageString { Name := "check-image" }
          [{ Count := some 1, Entries := [keyAttestor "A", keyAttestor "B"] }] {} exampleImage ""
        = some ([{ ImageRef := "example.com/app:v1", Key := "A" },
                 { ImageRef := "example.com/app:v1", Key := "B" }],
            .ret ({ Name := "check-image", Type_ := .ImageVerify,
                    Message := "verified image signatures for example.com/app:v1",
                    Status := .pass },
                  some { Digest := "sha256:abcd" })) := by
  constructor
  · rfl
  · rfl

/-- Claim C4, amended. For every list of attestor sets and every outcome of
`VerifySignature` per entry: if an attestor set returns an error (it does not
reach its required count) after every set before it returned a nil error, and
`VerifySignature` yields a network operation error for a leaf entry of that
expanded set, then `verifyAttestors` returns a rule response with status
error, whatever the other entries and the later sets return. -/
theorem verifyAttestors_network_error
    (VerifySignature : cosign.Options → Option cosign.Response × Option GoError)
    (imageString : ImageInfo → String) (rule : Rule) (imageVerify : ImageVerification)
    (imageInfo : ImageInfo) (predicateType : String)
    (pre : List AttestorSet) (attestorSet : AttestorSet) (post : List AttestorSet)
    (a : Attestor) (e : GoError)
    (hpre : ∀ (j : Nat) (s : AttestorSet), pre[j]? = some s → ∃ made resp,
      verifyAttestorSet VerifySignature imageString imageVerify imageInfo s
        (".attestors[" ++ toString j ++ "]") = some (made, .ret (resp, none)))
    (hset : ∃ made resp err,
      verifyAttestorSet VerifySignature imageString imageVerify imageInfo attestorSet
        (".attestors[" ++ toString pre.length ++ "]") = some (made, .ret (resp, some err)))
    (ha : a ∈ (expandStaticKeys attestorSet).Entries) (hleaf : a.Attestor = none)
    (hnet : (VerifySignature (buildOptionsAndPath a imageVerify (imageString imageInfo)
      none).1).2 = some e)
    (hop : e.asOpError = true) :
    ∃ calls rr,
      verifyAttestors VerifySignature imageString rule (pre ++ attestorSet :: post) imageVerify
          imageInfo predicateType = some (calls, .ret (rr, none)) ∧
        rr.Status = RuleStatus.error := by
  obtain ⟨made, resp, err, hs⟩ := hset
  obtain ⟨cr', calls', h1⟩ := verifyAttestorsLoop_skip VerifySignature imageString rule
    imageVerify imageInfo (imageString imageInfo) (attestorSet :: post) pre 0 none []
    (by intro j s hj; rw [Nat.zero_add]; exact hpre j s hj)
  rw [Nat.zero_add] at h1
  have h2 := hs
  rw [verifyAttestorSet_eq] at h2
  obtain ⟨-, h3⟩ := verifyAttestorSetLoop_error _ _ _ _ _ _ _ _ _ _ _ _ _ _ h2
  have hnetErr : err.asOpError = true := h3 (Or.inr ⟨a, ha, hleaf, e, hnet, hop⟩)
  refine ⟨calls' ++ made, handleRegistryErrors rule (imageString imageInfo) err, ?_, ?_⟩
  · unfold verifyAttestors
    simp only
    rw [h1, verifyAttestorsLoop]
    simp only [hs]
  · rw [(handleRegistryErrors_status rule (imageString imageInfo) err), if_pos hnetErr]

/-- Witness for claim C4: the first attestor set verifies, the
second needs both of its keys, and the registry cannot be reached for one of
them. -/
theorem verifyAttestors_network_error_witness :
    ∃ calls rr,
      verifyAttestors (exampleRegistry ["B", "C"] ["A"]) exampleImageString
          { Name := "check-image" }
          ([{ Count := none, Entries := [keyAttestor "C"] }] ++
            { Count := none, Entries := [keyAttestor "A", keyAttestor "B"] } :: [])
          {} exampleImage "" = some (calls, .ret (rr, none)) ∧
        rr.Status = RuleStatus.error :=
  verifyAttestors_network_error (exampleRegistry ["B", "C"] ["A"]) exampleImageString
    { Name := "check-image" } {} exampleImage ""
    [{ Count := none, Entries := [keyAttestor "C"] }]
    { Count := none, Entries := [keyAttestor "A", keyAttestor "B"] } []
    (keyAttestor "A") (.opError "dial tcp: i/o timeout")
    (by
      intro j s hj
      cases j with
      | zero =>
        simp at hj
        subst hj
        exact ⟨[{ ImageRef := "example.com/app:v1", Key := "C" }],
          some { Digest := "sha256:abcd" }, rfl⟩
      | succ j => simp at hj)
    ⟨[{ ImageRef := "example.com/app:v1", Key := "A" },
      { ImageRef := "example.com/app:v1", Key := "B" }], none,
      .withMessage (.opError "dial tcp: i/o timeout") ".attestors[1].entries[0].keys", rfl⟩
    (by
      rw [show (expandStaticKeys
        { Count := none, Entries := [keyAttestor "A", keyAttestor "B"] }).Entries
          = [keyAttestor "A", keyAttestor "B"] from rfl]
      exact List.mem_cons_self _ _)
    rfl rfl rfl

/-! ## The options builder -/

theorem buildOptionsAndPath_steps (attestor : Attestor) (imageVerify : ImageVerification)
    (image : String) (attestation : Option Attestation) :
    buildOptionsAndPath attestor imageVerify image attestation =
      (optionsFinish attestor (optionsKind attestor (optionsStart imageVerify image attestation)).1,
        (optionsKind attestor (optionsStart imageVerify image attestation)).2) := by
  obtain ⟨keys, certs, keyless, nested, annotations, repository⟩ := attestor
  cases keys <;> cases certs <;> cases keyless <;> cases attestation <;> rfl

/-- The first step leaves the fields of the attestor kinds empty. -/
theorem optionsStart_fields (imageVerify : ImageVerification) (image : String)
    (attestation : Option Attestation) :
    (optionsStart imageVerify image attestation).Key = "" ∧
      (optionsStart imageVerify image attestation).Cert = "" ∧
      (optionsStart imageVerify image attestation).CertChain = "" ∧
      (optionsStart imageVerify image attestation).Issuer = "" ∧
      (optionsStart imageVerify image attestation).Subject = "" ∧
      (optionsStart imageVerify image attestation).AdditionalExtensions = none := by
  unfold optionsStart
  cases attestation <;> by_cases h : imageVerify.Roots = "" <;> simp [h]

/-- The last step keeps the fields of the attestor kinds. -/
theorem optionsFinish_fields (attestor : Attestor) (opts : cosign.Options) :
    (optionsFinish attestor opts).Key = opts.Key ∧
      (optionsFinish attestor opts).Cert = opts.Cert ∧
      (optionsFinish attestor opts).CertChain = opts.CertChain ∧
      (optionsFinish attestor opts).Issuer = opts.Issuer ∧
      (optionsFinish attestor opts).Subject = opts.Subject ∧
      (optionsFinish attestor opts).AdditionalExtensions = opts.AdditionalExtensions := by
  unfold optionsFinish
  cases attestor.Annotations <;> by_cases h : attestor.Repository = "" <;> simp [h]

/-- What static keys write into the options. -/
theorem applyKeys_fields (opts : cosign.Options) (keys : StaticKeyAttestor) :
    (applyKeys opts keys).Key =
        (if keys.PublicKeys ≠ "" then keys.PublicKeys
         else match keys.Secret with
           | some secret => "k8s://" ++ secret.Namespace ++ "/" ++ secret.Name
           | none => if keys.KMS ≠ "" then keys.KMS else opts.Key) ∧
      (applyKeys opts keys).Cert = opts.Cert ∧
      (applyKeys opts keys).CertChain = opts.CertChain ∧
      (applyKeys opts keys).Issuer = opts.Issuer ∧
      (applyKeys opts keys).Subject = opts.Subject ∧
      (applyKeys opts keys).AdditionalExtensions = opts.AdditionalExtensions := by
  unfold applyKeys
  cases keys.Rekor <;> cases keys.Secret <;> by_cases h : keys.PublicKeys = "" <;>
    by_cases h' : keys.KMS = "" <;> simp [h, h']

/-- What certificates write into the options. -/
theorem applyCertificates_fields (opts : cosign.Options) (certs : CertificateAttestor) :
    (applyCertificates opts certs).Key = opts.Key ∧
      (applyCertificates opts certs).Cert = certs.Certificate ∧
      (applyCertificates opts certs).CertChain = certs.CertificateChain ∧
      (applyCertificates opts certs).Issuer = opts.Issuer ∧
      (applyCertificates opts certs).Subject = opts.Subject ∧
      (applyCertificates opts certs).AdditionalExtensions = opts.AdditionalExtensions := by
  unfold applyCertificates
  cases certs.Rekor <;> simp

/-- What a keyless block writes into the options. -/
theorem applyKeyless_fields (opts : cosign.Options) (keyless : KeylessAttestor) :
    (applyKeyless opts keyless).Key = opts.Key ∧
      (applyKeyless opts keyless).Cert = opts.Cert ∧
      (applyKeyless opts keyless).CertChain = opts.CertChain ∧
      (applyKeyless opts keyless).Issuer = keyless.Issuer ∧
      (applyKeyless opts keyless).Subject = keyless.Subject ∧
      (applyKeyless opts keyless).AdditionalExtensions = keyless.AdditionalExtensions := by
  unfold applyKeyless
  cases keyless.Rekor <;> simp

/-- Claim C19. For every attestor, `buildOptionsAndPath` consumes exactly one of keys,
certificates, keyless, in that precedence: the path suffix is `.keys` when
`Keys` is set, else `.certificates` when `Certificates` is set, else
`.keyless` when `Keyless` is set, else empty; and the key, the certificate
with its chain, and the issuer, subject and additional extensions are those
of the kind chosen, and empty for the kinds not chosen, also when those
kinds are set on the attestor too. -/
theorem buildOptionsAndPath_one_kind (attestor : Attestor) (imageVerify : ImageVerification)
    (image : String) (attestation : Option Attestation) :
    (buildOptionsAndPath attestor imageVerify image attestation).2 =
        (match attestor.Keys, attestor.Certificates, attestor.Keyless with
         | some _, _, _ => ".keys"
         | none, some _, _ => ".certificates"
         | none, none, some _ => ".keyless"
         | none, none, none => "") ∧
      (buildOptionsAndPath attestor imageVerify image attestation).1.Key =
        (match attestor.Keys with
         | some keys =>
           if keys.PublicKeys ≠ "" then keys.PublicKeys
           else match keys.Secret with
             | some secret => "k8s://" ++ secret.Namespace ++ "/" ++ secret.Name
             | none => keys.KMS
         | none => "") ∧
      (buildOptionsAndPath attestor imageVerify image attestation).1.Cert =
        (match attestor.Keys, attestor.Certificates with
         | none, some certs => certs.Certificate
         | _, _ => "") ∧
      (buildOptionsAndPath attestor imageVerify image attestation).1.CertChain =
        (match attestor.Keys, attestor.Certificates with
         | none, some certs => certs.CertificateChain
         | _, _ => "") ∧
      (buildOptionsAndPath attestor imageVerify image attestation).1.Issuer =
        (match attestor.Keys, attestor.Certificates, attestor.Keyless with
         | none, none, some keyless => keyless.Issuer
         | _, _, _ => "") ∧
      (buildOptionsAndPath attestor imageVerify image attestation).1.Subject =
        (match attestor.Keys, attestor.Certificates, attestor.Keyless with
         | none, none, some keyless => keyless.Subject
         | _, _, _ => "") ∧
      (buildOptionsAndPath attestor imageVerify image attestation).1.AdditionalExtensions =
        (match attestor.Keys, attestor.Certificates, attestor.Keyless with
         | none, none, some keyless => keyless.AdditionalExtensions
         | _, _, _ => none) := by
  rw [buildOptionsAndPath_steps]
  obtain ⟨f1, f2, f3, f4, f5, f6⟩ := optionsFinish_fields attestor
    (optionsKind attestor (optionsStart imageVerify image attestation)).1
  obtain ⟨s1, s2, s3, s4, s5, s6⟩ := optionsStart_fields imageVerify image attestation
  simp only [f1, f2, f3, f4, f5, f6]
  unfold optionsKind
  cases hk : attestor.Keys with
  | some keys =>
    obtain ⟨k1, k2, k3, k4, k5, k6⟩ :=
      applyKeys_fields (optionsStart imageVerify image attestation) keys
    by_cases h : keys.PublicKeys = "" <;> cases hs : keys.Secret <;>
      by_cases h' : keys.KMS = "" <;>
      simp [k1, k2, k3, k4, k5, k6, s1, s2, s3, s4, s5, s6, h, h', hs]
  | none =>
    cases hc : attestor.Certificates with
    | some certs =>
      obtain ⟨k1, k2, k3, k4, k5, k6⟩ :=
        applyCertificates_fields (optionsStart imageVerify image attestation) certs
      simp [k1, k2, k3, k4, k5, k6, s1, s2, s3, s4, s5, s6]
    | none =>
      cases hl : attestor.Keyless with
      | some keyless =>
        obtain ⟨k1, k2, k3, k4, k5, k6⟩ :=
          applyKeyless_fields (optionsStart imageVerify image attestation) keyless
        simp [k1, k2, k3, k4, k5, k6, s1, s2, s3, s4, s5, s6]
      | none =>
        simp [s1, s2, s3, s4, s5, s6]

/-! ## The digest mutator -/

/-- The digest patch is always built, and is the text of section 4.7. -/
theorem makeAddDigestPatch_ok (quote : String → String) (imageString : ImageInfo → String)
    (imageInfo : ImageInfo) (digest : String) :
    makeAddDigestPatch quote imageString imageInfo digest
      = .ok (digestPatchText quote imageString imageInfo digest) := by
  have hfields : makeAddDigestPatch quote imageString imageInfo digest
      = json.encodeObject quote
          [("op", .string "replace"), ("path", .string imageInfo.Pointer),
           ("value", .string (imageString imageInfo ++ "@" ++ digest))] := rfl
  rw [hfields]
  simp only [json.encodeObject, json.encodeFields, json.encodeValue, digestPatchText]
  apply congrArg
  apply String.ext
  simp [String.intercalate, String.intercalate.go]

/-- Claim C11. `handleMutateDigest` returns a patch only if the digest of the image is
empty: for an image that already has a digest it returns no patch, an empty
digest and no error, and makes no registry call; for an image without a
digest it calls `FetchImageDescriptor`, once, only when the digest passed in
is empty, and returns the patch for the digest passed in or fetched. -/
theorem handleMutateDigest_spec {σ : Type} (caps : Capabilities σ) (digest : String)
    (imageInfo : ImageInfo) :
    handleMutateDigest caps digest imageInfo =
      if imageInfo.Digest ≠ "" then ([], (none, "", none))
      else if digest ≠ "" then
        ([], (some (digestPatchText caps.quote caps.imageString imageInfo digest), digest, none))
      else
        ([.fetchImageDescriptor (caps.imageString imageInfo)],
          match caps.FetchImageDescriptor (caps.imageString imageInfo) with
          | .error err => (none, "", some err)
          | .ok fetched =>
            (some (digestPatchText caps.quote caps.imageString imageInfo fetched), fetched,
              none)) := by
  unfold handleMutateDigest
  by_cases h1 : imageInfo.Digest = ""
  · by_cases h2 : digest = ""
    · simp only [h1, h2, ne_eq, not_true_eq_false, if_false, if_true]
      cases caps.FetchImageDescriptor (caps.imageString imageInfo) with
      | error err => rfl
      | ok fetched => simp only [makeAddDigestPatch_ok]
    · simp only [h1, h2, ne_eq, not_true_eq_false, not_false_eq_true, if_false, if_true,
        makeAddDigestPatch_ok]
  · simp only [h1, ne_eq, not_false_eq_true, if_true]

/-! ## The image-match filter -/

/-- An image matches a list of globs when it matches one of them. -/
theorem imageMatches_eq_any (wildcardMatch : String → String → Bool) (image : String)
    (imagePatterns : List String) :
    imageMatches wildcardMatch image imagePatterns
      = imagePatterns.any (fun imagePattern => wildcardMatch imagePattern image) := by
  induction imagePatterns with
  | nil => rfl
  | cons p ps ih =>
    rw [imageMatches, List.any_cons, ih]
    cases wildcardMatch p image <;> simp

theorem getMatchingImagesRule_eq {σ : Type} (caps : Capabilities σ) (imageInfo : ImageInfo)
    (image : String) (verifyImages : List ImageVerification) :
    ∀ (imageInfos : List ImageInfo) (imageRefs : List String),
      getMatchingImagesRule caps imageInfo image verifyImages imageInfos imageRefs =
        (imageInfos ++ (verifyImages.filter (fun v =>
            imageMatches caps.wildcardMatch image (caps.Convert v).ImageReferences)).map
              (fun _ => imageInfo),
          imageRefs ++ verifyImages.flatMap (fun v => (caps.Convert v).ImageReferences)) := by
  induction verifyImages with
  | nil => intro infos refs; simp [getMatchingImagesRule]
  | cons v vs ih =>
    intro infos refs
    rw [getMatchingImagesRule]
    simp only [ih]
    by_cases h : imageMatches caps.wildcardMatch image (caps.Convert v).ImageReferences = true
    · simp [h, List.filter_cons]
    · simp [h, List.filter_cons]

theorem getMatchingImagesGroup_eq {σ : Type} (caps : Capabilities σ) (rule : Rule)
    (infoMap : List (String × ImageInfo)) :
    ∀ (imageInfos : List ImageInfo) (imageRefs : List String),
      getMatchingImagesGroup caps rule infoMap imageInfos imageRefs =
        (imageInfos ++ infoMap.flatMap (fun entry =>
            (rule.VerifyImages.filter (fun v => imageMatches caps.wildcardMatch
              (caps.imageString entry.2) (caps.Convert v).ImageReferences)).map
                (fun _ => entry.2)),
          imageRefs ++ infoMap.flatMap (fun _ =>
            rule.VerifyImages.flatMap (fun v => (caps.Convert v).ImageReferences))) := by
  induction infoMap with
  | nil => intro infos refs; simp [getMatchingImagesGroup]
  | cons entry rest ih =>
    intro infos refs
    obtain ⟨name, info⟩ := entry
    rw [getMatchingImagesGroup]
    simp only [getMatchingImagesRule_eq, ih]
    simp

theorem getMatchingImagesLoop_eq {σ : Type} (caps : Capabilities σ) (rule : Rule)
    (images : Images) :
    ∀ (imageInfos : List ImageInfo) (imageRefs : List String),
      getMatchingImagesLoop caps rule images imageInfos imageRefs =
        (imageInfos ++ images.flatMap (fun group => group.2.flatMap (fun entry =>
            (rule.VerifyImages.filter (fun v => imageMatches caps.wildcardMatch
              (caps.imageString entry.2) (caps.Convert v).ImageReferences)).map
                (fun _ => entry.2))),
          imageRefs ++ images.flatMap (fun group => group.2.flatMap (fun _ =>
            rule.VerifyImages.flatMap (fun v => (caps.Convert v).ImageReferences)))) := by
  induction images with
  | nil => intro infos refs; simp [getMatchingImagesLoop]
  | cons group rest ih =>
    intro infos refs
    obtain ⟨kind, infoMap⟩ := group
    rw [getMatchingImagesLoop]
    simp only [getMatchingImagesGroup_eq, ih]
    simp

/-- Claim C13, as stated, fails: an image whose reference matches a glob of two image
verifications of the rule is listed twice. -/
theorem getMatchingImages_lists_image_twice :
    (getMatchingImages (exampleCaps (exampleRegistry [] []) (exampleAttestations []))
        [("containers", [("app", exampleImage)])]
        { Name := "check-image",
          VerifyImages := [{ ImageReferences := ["example.com/*"] },
                           { ImageReferences := ["example.com/app:*"] }] }).1
      = [exampleImage, exampleImage] := by
  rfl

/-- Claim C13, amended. For every grouped image set and rule, the image list returned
by `getMatchingImages` contains, in the order in which the images are
visited, each image occurrence once for every image verification of the rule
that has a glob matching its reference string (so twice when it matches
under two of them), and not at all when it matches under none; a list of
globs matches when one of its globs does. -/
theorem getMatchingImages_images {σ : Type} (caps : Capabilities σ) (images : Images)
    (rule : Rule) :
    (getMatchingImages caps images rule).1 =
        images.flatMap (fun group => group.2.flatMap (fun entry =>
          (rule.VerifyImages.filter (fun v =>
            (caps.Convert v).ImageReferences.any (fun imagePattern =>
              caps.wildcardMatch imagePattern (caps.imageString entry.2)))).map
                (fun _ => entry.2))) := by
  unfold getMatchingImages
  simp only [getMatchingImagesLoop_eq, List.nil_append, imageMatches_eq_any]

/-- The string returned by `getMatchingImages` joins the globs of the rule once for
every image visited. -/
theorem getMatchingImages_imageRefs {σ : Type} (caps : Capabilities σ) (images : Images)
    (rule : Rule) :
    (getMatchingImages caps images rule).2 =
      strings.Join (images.flatMap (fun group => group.2.flatMap (fun _ =>
        rule.VerifyImages.flatMap (fun v => (caps.Convert v).ImageReferences)))) "," := by
  unfold getMatchingImages
  simp only [getMatchingImagesLoop_eq, List.nil_append]

/-- Claim C14 fails on the code. The globs are collected inside the loops over the
images: for a resource without images the string returned by
`getMatchingImages` is empty, and the skip response names no glob; for a
resource with two images every glob of the rule is listed twice. The claim
has the string be the globs of the rule, each listed once, here
`ghcr.io/foo/*,ghcr.io/bar/*`. -/
theorem getMatchingImages_imageRefs_per_image :
    getMatchingImages (exampleCaps (exampleRegistry [] []) (exampleAttestations [])) []
        { Name := "check-image",
          VerifyImages := [{ ImageReferences := ["ghcr.io/foo/*"] },
                           { ImageReferences := ["ghcr.io/bar/*"] }] }
        = ([], "") ∧
      (VerifyAndPatchImages (exampleCaps (exampleRegistry [] []) (exampleAttestations []))
        { policy :=
            { Rules :=
                [{ Name := "check-image",
                   VerifyImages := [{ ImageReferences := ["ghcr.io/foo/*"] },
                                    { ImageReferences := ["ghcr.io/bar/*"] }] }] },
          jsonContext := [] }).map (fun out =>
            match out with
            | .ret st => st.resp.PolicyResponse.Rules.map (fun rr => (rr.Status, rr.Message))
            | .panic _ => [])
        = some [(RuleStatus.skip,
            "skip run verification as image in resource not found in imageRefs \x27\x27")] ∧
      getMatchingImages (exampleCaps (exampleRegistry [] []) (exampleAttestations []))
        [("containers", [("app", exampleImage), ("db", exampleImage2)])]
        { Name := "check-image",
          VerifyImages := [{ ImageReferences := ["ghcr.io/foo/*"] },
                           { ImageReferences := ["ghcr.io/bar/*"] }] }
        = ([], "ghcr.io/foo/*,ghcr.io/bar/*,ghcr.io/foo/*,ghcr.io/bar/*") := by
  refine ⟨rfl, ?_, rfl⟩
  decide

/-! ## The attestation verifier -/

set_option maxRecDepth 20000

/-- Claim C17 fails on the code. For an attestation of predicate type
`cosign.sigstore.dev/attestation/v1` and fetched statements that carry the
predicate type `vuln` only, `verifyAttestations` returns a response of status
fail, as the claim says, but its message reads `attestions not found for
predicate type ...`: the text `attestations not found for predicate type
cosign.sigstore.dev/attestation/v1` of the claim does not occur in it. -/
theorem verifyAttestations_predicate_missing_message :
    verifyAttestations
        (exampleCaps (exampleRegistry [] [])
          (exampleAttestations [[("predicateType", .string "vuln"), ("predicate", .object "")]]))
        { Name := "check-image" } []
        { Attestations := [{ PredicateType := "cosign.sigstore.dev/attestation/v1" }] }
        exampleImage
      = (([], [.fetchAttestations
            { ImageRef := "example.com/app:v1",
              PredicateType := "cosign.sigstore.dev/attestation/v1",
              FetchAttestations := true }]),
          .ret ({ Name := "check-image", Type_ := .ImageVerify,
                  Message := ".attestations[0].attestors[0].entries[0]: attestions not found " ++
                    "for predicate type cosign.sigstore.dev/attestation/v1",
                  Status := .fail }, "")) ∧
      strings.Index
        (".attestations[0].attestors[0].entries[0]: attestions not found " ++
          "for predicate type cosign.sigstore.dev/attestation/v1").data
        "attestations not found for predicate type cosign.sigstore.dev/attestation/v1".data
        = none := by
  constructor
  · rfl
  · decide

/-! ## The image-verify orchestrator -/

/-- While the image-verify annotation differs between the old and the new resource,
the loop of `verify` answers every image with the same fail response and
touches nothing else. -/
theorem verifyLoop_annotation_changed {σ : Type} (caps : Capabilities σ)
    (imageVerify : ImageVerification) (matchedImageInfos : List ImageInfo) :
    ∀ iv : imageVerifier σ, hasImageVerifiedAnnotationChanged caps iv.policyContext = true →
      verifyLoop caps imageVerify matchedImageInfos iv =
        some (.ret { iv with
          resp :=
            { PolicyResponse :=
                { Rules := iv.resp.PolicyResponse.Rules ++
                    List.replicate matchedImageInfos.length
                      (ruleResponse iv.rule .ImageVerify
                        (caps.imageVerifyAnnotationKey ++ " annotation cannot be changed") .fail),
                  RulesAppliedCount :=
                    iv.resp.PolicyResponse.RulesAppliedCount + matchedImageInfos.length,
                  RulesErrorCount := iv.resp.PolicyResponse.RulesErrorCount } } }) := by
  induction matchedImageInfos with
  | nil =>
    intro iv _
    rw [verifyLoop]
    simp
  | cons imageInfo rest ih =>
    intro iv h
    rw [verifyLoop]
    simp only [h, if_true]
    have key := ih { iv with
      resp := incrementAppliedCount (appendRule iv.resp
        (ruleResponse iv.rule .ImageVerify
          (caps.imageVerifyAnnotationKey ++ " annotation cannot be changed") .fail)) } h
    rw [key]
    simp only [incrementAppliedCount, appendRule, List.length_cons, List.replicate_succ,
      List.append_assoc, List.singleton_append, Nat.cast_add, Nat.cast_one]
    congr 5
    omega

/-- Claim C15. For every policy context whose old and new resources both exist and
carry different values of the image-verify annotation, `verify` appends for
each matched image one rule response with status fail and the message
`<image-verify annotation key> annotation cannot be changed`, and does
nothing else: no registry call is made (no signature verification, no
attestation fetch, no descriptor fetch), no patch and no metadata are
produced. When either resource is empty the check never fires. -/
theorem verify_annotation_changed {σ : Type} (caps : Capabilities σ) (iv : imageVerifier σ)
    (imageVerify : ImageVerification) (matchedImageInfos : List ImageInfo)
    (newObject oldObject : ResourceObject)
    (hnew : iv.policyContext.newResource.Object = some newObject)
    (hold : iv.policyContext.oldResource.Object = some oldObject)
    (hdiff : iv.policyContext.newResource.annotation caps.imageVerifyAnnotationKey ≠
      iv.policyContext.oldResource.annotation caps.imageVerifyAnnotationKey) :
    iv.verify caps imageVerify matchedImageInfos =
        some (.ret { iv with
          resp :=
            { PolicyResponse :=
                { Rules := iv.resp.PolicyResponse.Rules ++
                    List.replicate matchedImageInfos.length
                      { Name := iv.rule.Name, Type_ := .ImageVerify,
                        Message := caps.imageVerifyAnnotationKey ++ " annotation cannot be changed",
                        Status := .fail, Patches := [] },
                  RulesAppliedCount :=
                    iv.resp.PolicyResponse.RulesAppliedCount + matchedImageInfos.length,
                  RulesErrorCount := iv.resp.PolicyResponse.RulesErrorCount } } }) ∧
      ∀ ctx : PolicyContext σ, ctx.newResource = {} ∨ ctx.oldResource = {} →
        hasImageVerifiedAnnotationChanged caps ctx = false := by
  constructor
  · have h : hasImageVerifiedAnnotationChanged caps iv.policyContext = true := by
      unfold hasImageVerifiedAnnotationChanged
      have h1 : iv.policyContext.newResource ≠ {} := by
        intro h
        rw [h] at hnew
        simp at hnew
      have h2 : iv.policyContext.oldResource ≠ {} := by
        intro h
        rw [h] at hold
        simp at hold
      simp [h1, h2, hdiff]
    unfold imageVerifier.verify
    rw [verifyLoop_annotation_changed caps _ matchedImageInfos iv h]
    rfl
  · intro ctx h
    unfold hasImageVerifiedAnnotationChanged
    simp [h]

/-- An image that has not changed, or that is recorded as verified, is passed over by
the loop of `verify`. -/
theorem verifyLoop_skip {σ : Type} (caps : Capabilities σ) (imageVerify : ImageVerification)
    (imageInfo : ImageInfo) (matchedImageInfos : List ImageInfo) (iv : imageVerifier σ)
    (hann : hasImageVerifiedAnnotationChanged caps iv.policyContext = false)
    (hskip : caps.HasChanged iv.policyContext.jsonContext (caps.JMESPath imageInfo.Pointer)
          = (false, none) ∨
        caps.isImageVerified iv.policyContext.newResource (caps.imageString imageInfo)
          = (true, none)) :
    verifyLoop caps imageVerify (imageInfo :: matchedImageInfos) iv =
      verifyLoop caps imageVerify matchedImageInfos iv := by
  rw [verifyLoop]
  simp only [hann]
  rcases hskip with h | h
  · simp [h]
  · simp only [h]
    simp

/-- Without attestors and attestations `verifyImage` returns at once. -/
theorem verifyImage_nothing_to_verify {σ : Type} (caps : Capabilities σ) (rule : Rule) (ctx : σ)
    (imageVerify : ImageVerification) (imageInfo : ImageInfo)
    (hattestors : imageVerify.Attestors = []) (hattestations : imageVerify.Attestations = []) :
    verifyImage caps rule ctx imageVerify imageInfo = some ((ctx, []), .ret (none, "")) := by
  unfold verifyImage
  simp [hattestors, hattestations]

/-- One round of the loop of `verify` for an image verification that only mutates the
digest, on an image without digest that reaches the verification. -/
theorem verifyLoop_mutate_only {σ : Type} (caps : Capabilities σ)
    (imageVerify : ImageVerification) (imageInfo : ImageInfo)
    (matchedImageInfos : List ImageInfo) (iv : imageVerifier σ) (digest : String)
    (hattestors : imageVerify.Attestors = []) (hattestations : imageVerify.Attestations = [])
    (hmutate : imageVerify.MutateDigest = true)
    (hann : hasImageVerifiedAnnotationChanged caps iv.policyContext = false)
    (hchanged : caps.HasChanged iv.policyContext.jsonContext (caps.JMESPath imageInfo.Pointer)
      ≠ (false, none))
    (hverified : caps.isImageVerified iv.policyContext.newResource (caps.imageString imageInfo)
      ≠ (true, none))
    (hdigest : imageInfo.Digest = "")
    (hfetch : caps.FetchImageDescriptor (caps.imageString imageInfo) = .ok digest) :
    verifyLoop caps imageVerify (imageInfo :: matchedImageInfos) iv =
      verifyLoop caps imageVerify matchedImageInfos
        { iv with
          resp := incrementAppliedCount (appendRule iv.resp
            { Name := iv.rule.Name, Type_ := .ImageVerify, Message := "mutated image digest",
              Status := .pass,
              Patches := [digestPatchText caps.quote caps.imageString imageInfo digest] })
          calls := iv.calls ++ [.fetchImageDescriptor (caps.imageString imageInfo)] } := by
  have h1 : ((caps.HasChanged iv.policyContext.jsonContext (caps.JMESPath imageInfo.Pointer)).2.isNone
      && !(caps.HasChanged iv.policyContext.jsonContext (caps.JMESPath imageInfo.Pointer)).1)
      = false := by
    cases hc : caps.HasChanged iv.policyContext.jsonContext (caps.JMESPath imageInfo.Pointer) with
    | mk b e =>
      cases b <;> cases e <;> simp_all
  have h2 : ((caps.isImageVerified iv.policyContext.newResource (caps.imageString imageInfo)).2.isNone
      && (caps.isImageVerified iv.policyContext.newResource (caps.imageString imageInfo)).1)
      = false := by
    cases hc : caps.isImageVerified iv.policyContext.newResource (caps.imageString imageInfo) with
    | mk b e =>
      cases b <;> cases e <;> simp_all
  have h3 : handleMutateDigest caps "" imageInfo =
      ([.fetchImageDescriptor (caps.imageString imageInfo)],
        (some (digestPatchText caps.quote caps.imageString imageInfo digest), digest, none)) := by
    unfold handleMutateDigest
    simp [hdigest, hfetch, makeAddDigestPatch_ok]
  rw [verifyLoop]
  simp only [hann, h1, h2, verifyImage_nothing_to_verify caps _ _ _ _ hattestors hattestations,
    hmutate, h3, hattestors, hattestations]
  simp [ruleResponse]

/-- An image verification without attestors and attestations leaves the verification
metadata as it is, and `verify` returns on it. -/
theorem verifyLoop_metadata_kept {σ : Type} (caps : Capabilities σ)
    (imageVerify : ImageVerification)
    (hattestors : imageVerify.Attestors = []) (hattestations : imageVerify.Attestations = [])
    (matchedImageInfos : List ImageInfo) :
    ∀ iv : imageVerifier σ, ∃ iv', verifyLoop caps imageVerify matchedImageInfos iv
      = some (.ret iv') ∧ iv'.ivm = iv.ivm := by
  induction matchedImageInfos with
  | nil => intro iv; exact ⟨iv, by rw [verifyLoop], rfl⟩
  | cons imageInfo rest ih =>
    intro iv
    rw [verifyLoop]
    simp only [verifyImage_nothing_to_verify caps _ _ _ _ hattestors hattestations,
      hattestors, hattestations, List.length_nil, gt_iff_lt, Nat.lt_irrefl, or_self, if_false]
    split
    · exact ih _
    · split
      · exact ih _
      · split
        · exact ih _
        · split
          · exact ih _
          · exact ih _

/-- Claim C18, as stated, fails: for a matched image whose location has not changed
`verify` appends no rule response at all, of status skip or any other; the
verifier comes back as it was. -/
theorem verify_unchanged_image_no_response :
    imageVerifier.verify
        { exampleCaps (exampleRegistry ["A"] []) (exampleAttestations []) with
          HasChanged := fun _ _ => (false, none) }
        { policyContext := { jsonContext := [] }, rule := { Name := "check-image" },
          resp := {}, ivm := {} }
        { ImageReferences := ["*"], Attestors := [{ Entries := [keyAttestor "A"] }] }
        [exampleImage]
      = some (.ret
        { policyContext := { jsonContext := [] }, rule := { Name := "check-image" },
          resp := { PolicyResponse := { Rules := [], RulesAppliedCount := 0 } }, ivm := {} }) := by
  rfl

/-- Claim C18, amended. Where the annotation check does not fire, a matched image whose
JSON-pointer location is unchanged versus the old resource (`HasChanged`
returns false and no error), or that the image-verify annotation already
records as verified (`isImageVerified` returns true and no error), is passed
over: `verify` goes on with the next image and appends no rule response for
this one, records no metadata and makes no registry call. -/
theorem verify_skips_silently {σ : Type} (caps : Capabilities σ) (iv : imageVerifier σ)
    (imageVerify : ImageVerification) (imageInfo : ImageInfo)
    (matchedImageInfos : List ImageInfo)
    (hann : hasImageVerifiedAnnotationChanged caps iv.policyContext = false)
    (hskip : caps.HasChanged iv.policyContext.jsonContext (caps.JMESPath imageInfo.Pointer)
          = (false, none) ∨
        caps.isImageVerified iv.policyContext.newResource (caps.imageString imageInfo)
          = (true, none)) :
    iv.verify caps imageVerify (imageInfo :: matchedImageInfos) =
      iv.verify caps imageVerify matchedImageInfos := by
  unfold imageVerifier.verify
  exact verifyLoop_skip caps _ imageInfo matchedImageInfos iv hann hskip

/-- Witness for claim C18: the only matched image is recorded as verified, and `verify`
returns the verifier as it was. -/
theorem verify_skips_silently_witness :
    imageVerifier.verify
        { exampleCaps (exampleRegistry ["A"] []) (exampleAttestations []) with
          isImageVerified := fun _ _ => (true, none) }
        { policyContext := { jsonContext := [] }, rule := { Name := "check-image" },
          resp := {}, ivm := {} }
        { ImageReferences := ["*"], Attestors := [{ Entries := [keyAttestor "A"] }] }
        (exampleImage :: [])
      = imageVerifier.verify
        { exampleCaps (exampleRegistry ["A"] []) (exampleAttestations []) with
          isImageVerified := fun _ _ => (true, none) }
        { policyContext := { jsonContext := [] }, rule := { Name := "check-image" },
          resp := {}, ivm := {} }
        { ImageReferences := ["*"], Attestors := [{ Entries := [keyAttestor "A"] }] }
        [] :=
  verify_skips_silently _ _ _ exampleImage [] rfl (Or.inr rfl)

/-- Claim C20, as stated, fails: when the image-verify annotation differs between the
old and the new resource, a changed, not-yet-verified image without digest
under an image verification that only mutates the digest gets a fail
response without patch, and no descriptor is fetched. -/
theorem verify_mutate_only_annotation_changed :
    imageVerifier.verify (exampleCaps (exampleRegistry [] []) (exampleAttestations []))
        { policyContext :=
            { newResource := { Object := some { annotations := [("kyverno.io/verify-images", "a")] } },
              oldResource := { Object := some { annotations := [("kyverno.io/verify-images", "b")] } },
              jsonContext := [] },
          rule := { Name := "check-image" }, resp := {}, ivm := {} }
        { ImageReferences := ["*"], MutateDigest := true }
        [exampleImage]
      = some (.ret
        { policyContext :=
            { newResource := { Object := some { annotations := [("kyverno.io/verify-images", "a")] } },
              oldResource := { Object := some { annotations := [("kyverno.io/verify-images", "b")] } },
              jsonContext := [] },
          rule := { Name := "check-image" },
          resp := { PolicyResponse :=
            { Rules := [{ Name := "check-image", Type_ := .ImageVerify,
                          Message := "kyverno.io/verify-images annotation cannot be changed",
                          Status := .fail, Patches := [] }],
              RulesAppliedCount := 1 } },
          ivm := {}, calls := [] }) := by
  rfl

/-- Claim C20, amended. For every image verification that, once converted, has no
attestors and no attestations and has `mutateDigest` set, where the
annotation check does not fire, for an image that has changed, is not yet
verified and has no digest, and whose descriptor fetch succeeds, `verify`
appends exactly one rule response, with status pass, carrying exactly the
one digest patch, fetches the descriptor once, and records nothing in the
verification metadata. For such an image verification the metadata is left
as it is whatever the images: it is recorded only when the image
verification has attestors or attestations. -/
theorem verify_mutate_only {σ : Type} (caps : Capabilities σ) (iv : imageVerifier σ)
    (imageVerify : ImageVerification) (imageInfo : ImageInfo)
    (matchedImageInfos : List ImageInfo) (digest : String)
    (hattestors : (caps.Convert imageVerify).Attestors = [])
    (hattestations : (caps.Convert imageVerify).Attestations = [])
    (hmutate : (caps.Convert imageVerify).MutateDigest = true)
    (hann : hasImageVerifiedAnnotationChanged caps iv.policyContext = false)
    (hchanged : caps.HasChanged iv.policyContext.jsonContext (caps.JMESPath imageInfo.Pointer)
      ≠ (false, none))
    (hverified : caps.isImageVerified iv.policyContext.newResource (caps.imageString imageInfo)
      ≠ (true, none))
    (hdigest : imageInfo.Digest = "")
    (hfetch : caps.FetchImageDescriptor (caps.imageString imageInfo) = .ok digest) :
    iv.verify caps imageVerify (imageInfo :: matchedImageInfos) =
        imageVerifier.verify caps
          { policyContext := iv.policyContext, rule := iv.rule,
            resp :=
              { PolicyResponse :=
                  { Rules := iv.resp.PolicyResponse.Rules ++
                      [{ Name := iv.rule.Name, Type_ := .ImageVerify,
                         Message := "mutated image digest", Status := .pass,
                         Patches := [digestPatchText caps.quote caps.imageString imageInfo digest] }],
                    RulesAppliedCount := iv.resp.PolicyResponse.RulesAppliedCount + 1,
                    RulesErrorCount := iv.resp.PolicyResponse.RulesErrorCount } },
            ivm := iv.ivm,
            calls := iv.calls ++ [.fetchImageDescriptor (caps.imageString imageInfo)] }
          imageVerify matchedImageInfos ∧
      ∀ (start : imageVerifier σ) (images : List ImageInfo),
        ∃ iv', start.verify caps imageVerify images = some (.ret iv') ∧ iv'.ivm = start.ivm := by
  constructor
  · unfold imageVerifier.verify
    rw [verifyLoop_mutate_only caps _ imageInfo matchedImageInfos iv digest hattestors
      hattestations hmutate hann hchanged hverified hdigest hfetch]
    rfl
  · intro start images
    unfold imageVerifier.verify
    exact verifyLoop_metadata_kept caps _ hattestors hattestations images start

/-- Witness for claim C20: one image, an image verification that only mutates the
digest, and a descriptor with the digest `sha256:abcd`. -/
theorem verify_mutate_only_witness :
    imageVerifier.verify (exampleCaps (exampleRegistry [] []) (exampleAttestations []))
        { policyContext := { jsonContext := [] }, rule := { Name := "check-image" },
          resp := {}, ivm := {} }
        { ImageReferences := ["*"], MutateDigest := true }
        [exampleImage]
      = some (.ret
        { policyContext := { jsonContext := [] }, rule := { Name := "check-image" },
          resp := { PolicyResponse :=
            { Rules := [{ Name := "check-image", Type_ := .ImageVerify,
                          Message := "mutated image digest", Status := .pass,
                          Patches := ["\x7b\"op\":\"replace\",\"path\":\"/spec/containers/0/image\"," ++
                            "\"value\":\"example.com/app:v1@sha256:abcd\"\x7d"] }],
              RulesAppliedCount := 1 } },
          ivm := {},
          calls := [.fetchImageDescriptor "example.com/app:v1"] }) :=
  (verify_mutate_only (exampleCaps (exampleRegistry [] []) (exampleAttestations []))
    { policyContext := { jsonContext := [] }, rule := { Name := "check-image" },
      resp := {}, ivm := {} }
    { ImageReferences := ["*"], MutateDigest := true } exampleImage [] "sha256:abcd"
    rfl rfl rfl rfl (by simp [exampleCaps]) (by simp [exampleCaps]) rfl rfl).1.trans rfl

/-- Witness for claim C15: two matched images under resources whose image-verify
annotations differ. -/
theorem verify_annotation_changed_witness :
    imageVerifier.verify (exampleCaps (exampleRegistry ["A"] []) (exampleAttestations []))
        { policyContext :=
            { newResource := { Object := some { annotations := [("kyverno.io/verify-images", "a")] } },
              oldResource := { Object := some { annotations := [("kyverno.io/verify-images", "b")] } },
              jsonContext := [] },
          rule := { Name := "check-image" }, resp := {}, ivm := {} }
        { ImageReferences := ["*"], Attestors := [{ Entries := [keyAttestor "A"] }] }
        [exampleImage, exampleImage2]
      = some (.ret
        { policyContext :=
            { newResource := { Object := some { annotations := [("kyverno.io/verify-images", "a")] } },
              oldResource := { Object := some { annotations := [("kyverno.io/verify-images", "b")] } },
              jsonContext := [] },
          rule := { Name := "check-image" },
          resp := { PolicyResponse :=
            { Rules := [{ Name := "check-image", Type_ := .ImageVerify,
                          Message := "kyverno.io/verify-images annotation cannot be changed",
                          Status := .fail, Patches := [] },
                        { Name := "check-image", Type_ := .ImageVerify,
                          Message := "kyverno.io/verify-images annotation cannot be changed",
                          Status := .fail, Patches := [] }],
              RulesAppliedCount := 2 } },
          ivm := {}, calls := [] }) :=
  (verify_annotation_changed (exampleCaps (exampleRegistry ["A"] []) (exampleAttestations []))
    { policyContext :=
        { newResource := { Object := some { annotations := [("kyverno.io/verify-images", "a")] } },
          oldResource := { Object := some { annotations := [("kyverno.io/verify-images", "b")] } },
          jsonContext := [] },
      rule := { Name := "check-image" }, resp := {}, ivm := {} }
    { ImageReferences := ["*"], Attestors := [{ Entries := [keyAttestor "A"] }] }
    [exampleImage, exampleImage2]
    { annotations := [("kyverno.io/verify-images", "a")] }
    { annotations := [("kyverno.io/verify-images", "b")] } rfl rfl (by decide)).1.trans rfl

/-- Claim C12, as stated, fails: under a rule with two image verifications that mutate
the digest, the second call of `verify` over the same matched-image list
sees the image without digest again, fetches its descriptor again and emits
a second digest patch for it. -/
theorem verifyImagesLoop_second_digest_patch :
    verifyImagesLoop (exampleCaps (exampleRegistry [] []) (exampleAttestations []))
        [exampleImage]
        [{ ImageReferences := ["*"], MutateDigest := true },
         { ImageReferences := ["example.com/*"], MutateDigest := true }]
        { policyContext := { jsonContext := [] }, rule := { Name := "check-image" },
          resp := {}, ivm := {} }
      = some (.ret
        { policyContext := { jsonContext := [] }, rule := { Name := "check-image" },
          resp := { PolicyResponse :=
            { Rules := [{ Name := "check-image", Type_ := .ImageVerify,
                          Message := "mutated image digest", Status := .pass,
                          Patches := ["\x7b\"op\":\"replace\",\"path\":\"/spec/containers/0/image\"," ++
                            "\"value\":\"example.com/app:v1@sha256:abcd\"\x7d"] },
                        { Name := "check-image", Type_ := .ImageVerify,
                          Message := "mutated image digest", Status := .pass,
                          Patches := ["\x7b\"op\":\"replace\",\"path\":\"/spec/containers/0/image\"," ++
                            "\"value\":\"example.com/app:v1@sha256:abcd\"\x7d"] }],
              RulesAppliedCount := 2 } },
          ivm := {},
          calls := [.fetchImageDescriptor "example.com/app:v1",
                    .fetchImageDescriptor "example.com/app:v1"] }) := by
  rfl

/-- The loop of `verify` under an image verification that only mutates the digest,
over any list of matched images: the responses of the rounds are appended in
the order of the images, the registry calls of the rounds are made in that
order, and nothing else of the state changes. -/
theorem verifyLoop_mutate_only_list {σ : Type} (caps : Capabilities σ)
    (imageVerify : ImageVerification)
    (hattestors : imageVerify.Attestors = []) (hattestations : imageVerify.Attestations = [])
    (hmutate : imageVerify.MutateDigest = true)
    (matchedImageInfos : List ImageInfo) :
    ∀ iv : imageVerifier σ, hasImageVerifiedAnnotationChanged caps iv.policyContext = false →
      verifyLoop caps imageVerify matchedImageInfos iv =
        some (.ret
          { policyContext := iv.policyContext, rule := iv.rule,
            resp :=
              { PolicyResponse :=
                  { Rules := iv.resp.PolicyResponse.Rules ++
                      matchedImageInfos.filterMap
                        (fun x => (mutateOnlyRound caps iv.rule iv.policyContext x).1),
                    RulesAppliedCount := iv.resp.PolicyResponse.RulesAppliedCount +
                      ((matchedImageInfos.filterMap
                        (fun x => (mutateOnlyRound caps iv.rule iv.policyContext x).1)).length
                          : Nat),
                    RulesErrorCount := iv.resp.PolicyResponse.RulesErrorCount } },
            ivm := iv.ivm,
            calls := iv.calls ++
              matchedImageInfos.flatMap
                (fun x => (mutateOnlyRound caps iv.rule iv.policyContext x).2) }) := by
  induction matchedImageInfos with
  | nil =>
    intro iv _
    rw [verifyLoop]
    simp
  | cons imageInfo rest ih =>
    intro iv hann
    rw [verifyLoop]
    simp only [hann, Bool.false_eq_true, if_false,
      verifyImage_nothing_to_verify caps _ _ _ _ hattestors hattestations, hmutate, if_true,
      hattestors, hattestations, List.length_nil, gt_iff_lt, Nat.lt_irrefl, or_self]
    by_cases h1 : ((caps.HasChanged iv.policyContext.jsonContext
        (caps.JMESPath imageInfo.Pointer)).2.isNone
        && !(caps.HasChanged iv.policyContext.jsonContext
          (caps.JMESPath imageInfo.Pointer)).1) = true
    · simp only [h1, if_true]
      rw [ih iv hann]
      simp [mutateOnlyRound, h1]
    · simp only [h1, Bool.false_eq_true, if_false]
      by_cases h2 : ((caps.isImageVerified iv.policyContext.newResource
          (caps.imageString imageInfo)).2.isNone
          && (caps.isImageVerified iv.policyContext.newResource
            (caps.imageString imageInfo)).1) = true
      · simp only [h2, if_true]
        rw [ih iv hann]
        simp [mutateOnlyRound, h1, h2]
      · simp only [h2, Bool.false_eq_true, if_false]
        cases hmd : handleMutateDigest caps "" imageInfo with
        | mk more triple =>
          obtain ⟨patch, retrieved, err⟩ := triple
          cases err with
          | some e =>
            simp only []
            refine Eq.trans (ih _ (by exact hann)) ?_
            simp [mutateOnlyRound, h1, h2, hmd, incrementAppliedCount, appendRule]
            omega
          | none =>
            cases patch with
            | some p =>
              simp only []
              refine Eq.trans (ih _ (by exact hann)) ?_
              simp [mutateOnlyRound, h1, h2, hmd, incrementAppliedCount, appendRule,
                ruleResponse]
              omega
            | none =>
              simp only []
              refine Eq.trans (ih _ (by exact hann)) ?_
              simp [mutateOnlyRound, h1, h2, hmd]
/-- The round of `verify` under an image verification that only mutates the digest,
for an image that has changed, is not yet verified and has no digest, and
whose descriptor fetch succeeds: the pass response with the digest patch, after
one descriptor fetch. -/
theorem mutateOnlyRound_patch {σ : Type} (caps : Capabilities σ) (rule : Rule)
    (policyContext : PolicyContext σ) (imageInfo : ImageInfo) (digest : String)
    (hchanged : caps.HasChanged policyContext.jsonContext (caps.JMESPath imageInfo.Pointer)
      ≠ (false, none))
    (hverified : caps.isImageVerified policyContext.newResource (caps.imageString imageInfo)
      ≠ (true, none))
    (hdigest : imageInfo.Digest = "")
    (hfetch : caps.FetchImageDescriptor (caps.imageString imageInfo) = .ok digest) :
    mutateOnlyRound caps rule policyContext imageInfo =
      (some { Name := rule.Name, Type_ := .ImageVerify, Message := "mutated image digest",
              Status := .pass,
              Patches := [digestPatchText caps.quote caps.imageString imageInfo digest] },
        [.fetchImageDescriptor (caps.imageString imageInfo)]) := by
  have h1 : ((caps.HasChanged policyContext.jsonContext (caps.JMESPath imageInfo.Pointer)).2.isNone
      && !(caps.HasChanged policyContext.jsonContext (caps.JMESPath imageInfo.Pointer)).1)
      = false := by
    cases hc : caps.HasChanged policyContext.jsonContext (caps.JMESPath imageInfo.Pointer) with
    | mk b e =>
      cases b <;> cases e <;> simp_all
  have h2 : ((caps.isImageVerified policyContext.newResource (caps.imageString imageInfo)).2.isNone
      && (caps.isImageVerified policyContext.newResource (caps.imageString imageInfo)).1)
      = false := by
    cases hc : caps.isImageVerified policyContext.newResource (caps.imageString imageInfo) with
    | mk b e =>
      cases b <;> cases e <;> simp_all
  have h3 : handleMutateDigest caps "" imageInfo =
      ([.fetchImageDescriptor (caps.imageString imageInfo)],
        (some (digestPatchText caps.quote caps.imageString imageInfo digest), digest, none)) := by
    unfold handleMutateDigest
    simp [hdigest, hfetch, makeAddDigestPatch_ok]
  unfold mutateOnlyRound
  simp only [h1, h2, h3, Bool.false_eq_true, if_false]
  simp [ruleResponse]

/-- Claim C12, amended. The digest that `verify` resolves under one image verification
is not kept for the next: for two successive image verifications of a rule that
both only mutate the digest, where the annotation check does not fire, and for
any list of matched images, the second call of `verify` appends the same
responses and makes the same registry calls as the first. So every image of
the list that has changed, is not yet verified and has no digest, and whose
descriptor fetch succeeds, has its descriptor fetched under both image
verifications and the same digest patch emitted under both, in two pass
responses. -/
theorem verifyImagesLoop_digest_not_kept {σ : Type} (caps : Capabilities σ)
    (iv : imageVerifier σ) (first second : ImageVerification) (rest : List ImageVerification)
    (ruleImages : List ImageInfo)
    (hfirst : (caps.Convert first).Attestors = [] ∧ (caps.Convert first).Attestations = [] ∧
      (caps.Convert first).MutateDigest = true)
    (hsecond : (caps.Convert second).Attestors = [] ∧ (caps.Convert second).Attestations = [] ∧
      (caps.Convert second).MutateDigest = true)
    (hann : hasImageVerifiedAnnotationChanged caps iv.policyContext = false) :
    verifyImagesLoop caps ruleImages (first :: second :: rest) iv =
        verifyImagesLoop caps ruleImages rest
          { policyContext := iv.policyContext, rule := iv.rule,
            resp :=
              { PolicyResponse :=
                  { Rules := iv.resp.PolicyResponse.Rules ++
                      ruleImages.filterMap
                        (fun x => (mutateOnlyRound caps iv.rule iv.policyContext x).1) ++
                      ruleImages.filterMap
                        (fun x => (mutateOnlyRound caps iv.rule iv.policyContext x).1),
                    RulesAppliedCount := iv.resp.PolicyResponse.RulesAppliedCount +
                      ((ruleImages.filterMap
                        (fun x => (mutateOnlyRound caps iv.rule iv.policyContext x).1)).length
                          : Nat) +
                      ((ruleImages.filterMap
                        (fun x => (mutateOnlyRound caps iv.rule iv.policyContext x).1)).length
                          : Nat),
                    RulesErrorCount := iv.resp.PolicyResponse.RulesErrorCount } },
            ivm := iv.ivm,
            calls := iv.calls ++
              ruleImages.flatMap
                (fun x => (mutateOnlyRound caps iv.rule iv.policyContext x).2) ++
              ruleImages.flatMap
                (fun x => (mutateOnlyRound caps iv.rule iv.policyContext x).2) } ∧
      ∀ imageInfo ∈ ruleImages, ∀ digest : String,
        caps.HasChanged iv.policyContext.jsonContext (caps.JMESPath imageInfo.Pointer)
          ≠ (false, none) →
        caps.isImageVerified iv.policyContext.newResource (caps.imageString imageInfo)
          ≠ (true, none) →
        imageInfo.Digest = "" →
        caps.FetchImageDescriptor (caps.imageString imageInfo) = .ok digest →
        ({ Name := iv.rule.Name, Type_ := .ImageVerify, Message := "mutated image digest",
           Status := .pass,
           Patches := [digestPatchText caps.quote caps.imageString imageInfo digest] }
            : RuleResponse) ∈
          ruleImages.filterMap
            (fun x => (mutateOnlyRound caps iv.rule iv.policyContext x).1) ∧
        RegistryCall.fetchImageDescriptor (caps.imageString imageInfo) ∈
          ruleImages.flatMap
            (fun x => (mutateOnlyRound caps iv.rule iv.policyContext x).2) := by
  obtain ⟨f1, f2, f3⟩ := hfirst
  obtain ⟨s1, s2, s3⟩ := hsecond
  constructor
  · rw [verifyImagesLoop]
    unfold imageVerifier.verify
    rw [verifyLoop_mutate_only_list caps _ f1 f2 f3 ruleImages iv hann]
    simp only
    rw [verifyImagesLoop]
    unfold imageVerifier.verify
    rw [verifyLoop_mutate_only_list caps _ s1 s2 s3 ruleImages _ (by exact hann)]
  · intro imageInfo hmem digest hchanged hverified hdigest hfetch
    have hround := mutateOnlyRound_patch caps iv.rule iv.policyContext imageInfo digest hchanged
      hverified hdigest hfetch
    constructor
    · rw [List.mem_filterMap]
      exact ⟨imageInfo, hmem, by rw [hround]⟩
    · rw [List.mem_flatMap]
      exact ⟨imageInfo, hmem, by rw [hround]; simp⟩

/-- Witness for claim C12: two image verifications that mutate the digest, over two
matched images of which one is pinned to a digest; the image without digest
gets the digest patch under both, the pinned image gets none. -/
theorem verifyImagesLoop_digest_not_kept_witness :
    verifyImagesLoop (exampleCaps (exampleRegistry [] []) (exampleAttestations []))
        [pinnedImage, exampleImage]
        ({ ImageReferences := ["*"], MutateDigest := true } ::
          { ImageReferences := ["example.com/*"], MutateDigest := true } :: [])
        { policyContext := { jsonContext := [] }, rule := { Name := "check-image" },
          resp := {}, ivm := {} }
      = verifyImagesLoop (exampleCaps (exampleRegistry [] []) (exampleAttestations []))
        [pinnedImage, exampleImage] []
        { policyContext := { jsonContext := [] }, rule := { Name := "check-image" },
          resp := { PolicyResponse :=
            { Rules := [{ Name := "check-image", Type_ := .ImageVerify,
                          Message := "mutated image digest", Status := .pass,
                          Patches := ["\x7b\"op\":\"replace\",\"path\":\"/spec/containers/0/image\"," ++
                            "\"value\":\"example.com/app:v1@sha256:abcd\"\x7d"] },
                        { Name := "check-image", Type_ := .ImageVerify,
                          Message := "mutated image digest", Status := .pass,
                          Patches := ["\x7b\"op\":\"replace\",\"path\":\"/spec/containers/0/image\"," ++
                            "\"value\":\"example.com/app:v1@sha256:abcd\"\x7d"] }],
              RulesAppliedCount := 2 } },
          ivm := {},
          calls := [.fetchImageDescriptor "example.com/app:v1",
                    .fetchImageDescriptor "example.com/app:v1"] } :=
  (verifyImagesLoop_digest_not_kept
    (exampleCaps (exampleRegistry [] []) (exampleAttestations []))
    { policyContext := { jsonContext := [] }, rule := { Name := "check-image" },
      resp := {}, ivm := {} }
    { ImageReferences := ["*"], MutateDigest := true }
    { ImageReferences := ["example.com/*"], MutateDigest := true } []
    [pinnedImage, exampleImage]
    ⟨rfl, rfl, rfl⟩ ⟨rfl, rfl, rfl⟩ rfl).1.trans rfl

/-! ### Apply-one -/

/-- The loop of `verify` never lowers the count of applied rules. -/
theorem verifyLoop_count_le {σ : Type} (caps : Capabilities σ) (imageVerify : ImageVerification)
    (matchedImageInfos : List ImageInfo) :
    ∀ iv iv' : imageVerifier σ, verifyLoop caps imageVerify matchedImageInfos iv = some (.ret iv') →
      iv.resp.PolicyResponse.RulesAppliedCount ≤ iv'.resp.PolicyResponse.RulesAppliedCount := by
  induction matchedImageInfos with
  | nil =>
    intro iv iv' h
    rw [verifyLoop] at h
    simp at h
    subst h
    exact Int.le_refl _
  | cons imageInfo rest ih =>
    intro iv iv' h
    rw [verifyLoop] at h
    simp only at h
    repeat' split at h
    all_goals
      first
      | (simp at h; done)
      | (have key := ih _ _ h
         simp only [incrementAppliedCount, appendRule] at key
         omega)

theorem verifyImagesLoop_count_le {σ : Type} (caps : Capabilities σ) (ruleImages : List ImageInfo)
    (verifyImages : List ImageVerification) :
    ∀ iv iv' : imageVerifier σ, verifyImagesLoop caps ruleImages verifyImages iv = some (.ret iv') →
      iv.resp.PolicyResponse.RulesAppliedCount ≤ iv'.resp.PolicyResponse.RulesAppliedCount := by
  induction verifyImages with
  | nil =>
    intro iv iv' h
    rw [verifyImagesLoop] at h
    simp at h
    subst h
    exact Int.le_refl _
  | cons imageVerify rest ih =>
    intro iv iv' h
    rw [verifyImagesLoop] at h
    split at h
    · simp at h
    · simp at h
    · rename_i mid hmid
      unfold imageVerifier.verify at hmid
      exact Int.le_trans (verifyLoop_count_le caps _ ruleImages iv mid hmid) (ih mid iv' h)

/-- Processing a rule never lowers the count of applied rules. -/
theorem processRule_count_le {σ : Type} (caps : Capabilities σ) (rule : Rule)
    (st st' : EngineState σ) (h : processRule caps rule st = some (.ret st')) :
    st.resp.PolicyResponse.RulesAppliedCount ≤ st'.resp.PolicyResponse.RulesAppliedCount := by
  unfold processRule at h
  by_cases h1 : rule.VerifyImages.length = 0
  · simp only [h1, if_true, Option.some.injEq, Outcome.ret.injEq] at h
    subst h
    exact Int.le_refl _
  · simp only [h1, if_false] at h
    by_cases h2 : (!caps.ruleMatches rule st.policyContext) = true
    · simp only [h2, if_true, Option.some.injEq, Outcome.ret.injEq] at h
      subst h
      exact Int.le_refl _
    · have h2' : (!caps.ruleMatches rule st.policyContext) = false := by simpa using h2
      simp only [h2', Bool.false_eq_true, if_false] at h
      cases hext : extractMatchingImages caps st.policyContext rule with
      | mk ctx res =>
        cases res with
        | error err =>
          simp only [hext, Option.some.injEq, Outcome.ret.injEq] at h
          subst h
          simp [appendResponse, incrementErrorCount, appendRule]
        | ok found =>
          obtain ⟨ruleImages, imageRefs⟩ := found
          simp only [hext] at h
          by_cases h3 : ruleImages.length = 0
          · simp only [h3, if_true, Option.some.injEq, Outcome.ret.injEq] at h
            subst h
            simp [appendResponse, incrementErrorCount, appendRule]
          · simp only [h3, if_false] at h
            cases hload : caps.LoadContext (caps.Restore ctx) rule.Context rule.Name with
            | mk ctx2 lerr =>
              cases lerr with
              | some err =>
                simp only [hload, Option.some.injEq, Outcome.ret.injEq] at h
                subst h
                simp [appendResponse, incrementErrorCount, appendRule]
              | none =>
                simp only [hload] at h
                cases hsub : substituteVariables caps rule ctx2 with
                | panic reason => simp [hsub] at h
                | ret sub =>
                  cases sub with
                  | error err =>
                    simp only [hsub, Option.some.injEq, Outcome.ret.injEq] at h
                    subst h
                    simp [appendResponse, incrementErrorCount, appendRule]
                  | ok ruleCopy =>
                    simp only [hsub] at h
                    split at h
                    · simp at h
                    · simp at h
                    · rename_i iv hiv
                      simp only [Option.some.injEq, Outcome.ret.injEq] at h
                      subst h
                      exact verifyImagesLoop_count_le caps _ _ _ iv hiv

/-- Under apply-one, starting without applied rule, the loop over the rules ends
without applied rule, or right after the first rule that left the count of
applied rules above zero, every rule before it having left the count at
zero. -/
theorem rulesLoop_applyOne {σ : Type} (caps : Capabilities σ) (rules : List Rule) :
    ∀ st final : EngineState σ, st.resp.PolicyResponse.RulesAppliedCount = 0 →
      rulesLoop caps .ApplyOne rules st = some (.ret final) →
      final.resp.PolicyResponse.RulesAppliedCount = 0 ∨
        ∃ (pre : List Rule) (rule : Rule) (post : List Rule) (before : EngineState σ),
          rules = pre ++ rule :: post ∧
          rulesLoop caps .ApplyOne pre st = some (.ret before) ∧
          before.resp.PolicyResponse.RulesAppliedCount = 0 ∧
          processRule caps rule before = some (.ret final) ∧
          0 < final.resp.PolicyResponse.RulesAppliedCount := by
  induction rules with
  | nil =>
    intro st final h0 h
    rw [rulesLoop] at h
    simp at h
    subst h
    exact Or.inl h0
  | cons r rs ih =>
    intro st final h0 h
    rw [rulesLoop] at h
    split at h
    · simp at h
    · simp at h
    · rename_i st1 h1
      have hle := processRule_count_le caps r st st1 h1
      split at h
      · rename_i hbreak
        simp only [Option.some.injEq, Outcome.ret.injEq] at h
        subst h
        exact Or.inr ⟨[], r, rs, st, rfl, by rw [rulesLoop], h0, h1, hbreak.2⟩
      · rename_i hgo
        have hzero : st1.resp.PolicyResponse.RulesAppliedCount = 0 := by
          have : ¬ st1.resp.PolicyResponse.RulesAppliedCount > 0 := fun hc => hgo ⟨rfl, hc⟩
          omega
        rcases ih st1 final hzero h with hfin | ⟨pre, rule, post, before, e1, e2, e3, e4, e5⟩
        · exact Or.inl hfin
        · refine Or.inr ⟨r :: pre, rule, post, before, by rw [e1]; rfl, ?_, e3, e4, e5⟩
          rw [rulesLoop, h1]
          simp only
          rw [if_neg (by rw [hzero]; simp), e2]

/-- Claim C16. When the policy has `applyRules` set to apply-one and
`VerifyAndPatchImages` returns, either no rule has produced an applied
response, or the rules up to one rule of the policy were processed, those
before it leaving `RulesAppliedCount` at zero, that rule left it above zero,
and the response, the metadata and the registry calls returned are those
reached right after that rule: no rule after it is processed, so at most one
rule contributes applied responses. -/
theorem VerifyAndPatchImages_applyOne {σ : Type} (caps : Capabilities σ)
    (policyContext : PolicyContext σ) (final : EngineState σ)
    (hone : policyContext.policy.ApplyRules = .ApplyOne)
    (hret : VerifyAndPatchImages caps policyContext = some (.ret final)) :
    final.resp.PolicyResponse.RulesAppliedCount = 0 ∨
      ∃ (pre : List Rule) (rule : Rule) (post : List Rule) (before after : EngineState σ),
        caps.ComputeRules policyContext.policy = pre ++ rule :: post ∧
        rulesLoop caps .ApplyOne pre
            { policyContext :=
                { policyContext with jsonContext := caps.Checkpoint policyContext.jsonContext },
              resp := {}, ivm := {}, calls := [] } = some (.ret before) ∧
        before.resp.PolicyResponse.RulesAppliedCount = 0 ∧
        processRule caps rule before = some (.ret after) ∧
        0 < after.resp.PolicyResponse.RulesAppliedCount ∧
        final.resp = after.resp ∧ final.ivm = after.ivm ∧ final.calls = after.calls := by
  unfold VerifyAndPatchImages at hret
  simp only [hone] at hret
  split at hret
  · simp at hret
  · simp at hret
  · rename_i st hst
    simp only [Option.some.injEq, Outcome.ret.injEq] at hret
    subst hret
    rcases rulesLoop_applyOne caps _ _ st rfl hst with h | ⟨pre, rule, post, before, e1, e2, e3, e4, e5⟩
    · exact Or.inl h
    · exact Or.inr ⟨pre, rule, post, before, st, e1, e2, e3, e4, e5, rfl, rfl, rfl⟩

/-- Witness for claim C16: of three rules under apply-one, the first finds no matching
image, the second and the third would each mutate the digest of the image;
the response holds the skip of the first and the one applied response of the
second, and the third rule is not processed. -/
theorem VerifyAndPatchImages_applyOne_witness :
    VerifyAndPatchImages (exampleCaps (exampleRegistry [] []) (exampleAttestations []))
        applyOneContext = some (.ret applyOneResult) ∧
      (applyOneResult.resp.PolicyResponse.RulesAppliedCount = 0 ∨
        ∃ (pre : List Rule) (rule : Rule) (post : List Rule) (before after : EngineState Images),
          (exampleCaps (exampleRegistry [] []) (exampleAttestations [])).ComputeRules
              applyOneContext.policy = pre ++ rule :: post ∧
          rulesLoop (exampleCaps (exampleRegistry [] []) (exampleAttestations [])) .ApplyOne pre
              { policyContext :=
                  { applyOneContext with
                    jsonContext :=
                      (exampleCaps (exampleRegistry [] []) (exampleAttestations [])).Checkpoint
                        applyOneContext.jsonContext },
                resp := {}, ivm := {}, calls := [] } = some (.ret before) ∧
          before.resp.PolicyResponse.RulesAppliedCount = 0 ∧
          processRule (exampleCaps (exampleRegistry [] []) (exampleAttestations [])) rule before
            = some (.ret after) ∧
          0 < after.resp.PolicyResponse.RulesAppliedCount ∧
          applyOneResult.resp = after.resp ∧ applyOneResult.ivm = after.ivm ∧
          applyOneResult.calls = after.calls) :=
  ⟨rfl,
    VerifyAndPatchImages_applyOne (exampleCaps (exampleRegistry [] []) (exampleAttestations []))
      applyOneContext applyOneResult rfl rfl⟩

/-! ## The statement map -/

/-- One step of `mapPut` on a map with a first binding. -/
theorem mapPut_cons {α : Type} (k0 : String) (v0 : α) (m : List (String × α)) (key : String)
    (value : α) :
    mapPut ((k0, v0) :: m) key value =
      if k0 = key then (key, value) :: m.map (fun kv => if kv.1 == key then (key, value) else kv)
      else (k0, v0) :: mapPut m key value := by
  by_cases h : k0 = key
  · simp [mapPut, h]
  · by_cases hany : m.any (fun kv => kv.1 == key) = true
    · simp only [mapPut, List.any_cons, hany, Bool.or_true, if_true, List.map_cons]
      simp [h]
    · have hany' : m.any (fun kv => kv.1 == key) = false := (Bool.not_eq_true _).mp hany
      simp only [mapPut, List.any_cons, hany', Bool.or_false, List.cons_append]
      simp [h]

/-- Rewriting the bindings of `key` leaves the value found under another key. -/
theorem lookup_map_put {α : Type} (m : List (String × α)) (key other : String) (value : α)
    (h : other ≠ key) :
    (m.map (fun kv => if kv.1 == key then (key, value) else kv)).lookup other =
      m.lookup other := by
  induction m with
  | nil => rfl
  | cons kv m ih =>
    obtain ⟨k0, v0⟩ := kv
    by_cases h0 : k0 = key
    · subst h0
      have hne : (other == k0) = false := by simpa using h
      simpa [List.lookup_cons, hne] using ih
    · have hne : (k0 == key) = false := by simpa using h0
      simp only [List.map_cons, hne, Bool.false_eq_true, if_false, List.lookup_cons, ih]

/-- After `mapPut` the key holds the value put. -/
theorem mapPut_lookup_self {α : Type} (m : List (String × α)) (key : String) (value : α) :
    (mapPut m key value).lookup key = some value := by
  induction m with
  | nil => simp [mapPut]
  | cons kv m ih =>
    obtain ⟨k0, v0⟩ := kv
    rw [mapPut_cons]
    by_cases h0 : k0 = key
    · simp [h0]
    · have hne : (key == k0) = false := by
        simpa using fun h => h0 h.symm
      simp [h0, List.lookup_cons, hne, ih]

/-- Every other key holds after `mapPut` what it held before. -/
theorem mapPut_lookup_ne {α : Type} (m : List (String × α)) (key other : String) (value : α)
    (h : other ≠ key) : (mapPut m key value).lookup other = m.lookup other := by
  induction m with
  | nil =>
    have hne : (other == key) = false := by simpa using h
    simp [mapPut, List.lookup_cons, hne]
  | cons kv m ih =>
    obtain ⟨k0, v0⟩ := kv
    rw [mapPut_cons]
    by_cases h0 : k0 = key
    · subst h0
      have hne : (other == k0) = false := by simpa using h
      simpa [List.lookup_cons, hne] using lookup_map_put m k0 other value h
    · simp [h0, List.lookup_cons, ih]

/-- A statement with a string predicate type adds itself to the statements of its own
type and to no other. -/
theorem statementsOfType_append (processed : List Statement) (s : Statement) (t : String) :
    statementsOfType (processed ++ [s]) t =
      if predicateTypeOf s = t then
        some ((processed.filter (fun x => predicateTypeOf x == t)) ++ [s])
      else statementsOfType processed t := by
  unfold statementsOfType
  by_cases h : predicateTypeOf s = t
  · have hb : (predicateTypeOf s == t) = true := by simpa using h
    simp only [List.filter_append, List.filter_cons, List.filter_nil, hb, if_true, h]
    cases hf : processed.filter (fun x => predicateTypeOf x == t) <;> simp
  · have hb : (predicateTypeOf s == t) = false := by simpa using h
    simp [List.filter_append, List.filter_cons, hb, h]

/-- The loop of `buildStatementMap`, from a map that holds the statements of the
input read so far. -/
theorem buildStatementMapLoop_spec (statements : List Statement) :
    ∀ (processed : List Statement) (results : List (String × List Statement))
      (predicateTypes : List String),
      (∀ s ∈ statements, ∃ t, s.lookup "predicateType" = some (.string t)) →
      (∀ t, results.lookup t = statementsOfType processed t) →
      ∃ results',
        buildStatementMapLoop statements results predicateTypes =
          .ret (results', predicateTypes ++ statements.map predicateTypeOf) ∧
        ∀ t, results'.lookup t = statementsOfType (processed ++ statements) t := by
  induction statements with
  | nil =>
    intro processed results predicateTypes _ hres
    exact ⟨results, by simp [buildStatementMapLoop], by simpa using hres⟩
  | cons s statements ih =>
    intro processed results predicateTypes hall hres
    obtain ⟨pt, hpt⟩ := hall s (List.mem_cons_self _ _)
    have hof : predicateTypeOf s = pt := by simp [predicateTypeOf, hpt]
    have hrest : ∀ x ∈ statements, ∃ t, x.lookup "predicateType" = some (.string t) :=
      fun x hx => hall x (List.mem_cons_of_mem _ hx)
    have hinv : ∀ t,
        (match results.lookup pt with
          | some found => mapPut results pt (found ++ [s])
          | none => mapPut results pt [s]).lookup t =
          statementsOfType (processed ++ [s]) t := by
      intro t
      rw [statementsOfType_append, hof]
      by_cases ht : pt = t
      · subst ht
        have hl := hres pt
        unfold statementsOfType at hl
        cases hf : processed.filter (fun x => predicateTypeOf x == pt) with
        | nil =>
          rw [hf] at hl
          simp [hl, mapPut_lookup_self]
        | cons y ys =>
          rw [hf] at hl
          simp [hl, mapPut_lookup_self]
      · have hne : t ≠ pt := fun h => ht h.symm
        simp only [ht, if_false]
        rw [← hres t]
        cases results.lookup pt <;> simp [mapPut_lookup_ne _ _ _ _ hne]
    obtain ⟨results', hrun, hlook⟩ :=
      ih (processed ++ [s]) _ (predicateTypes ++ [pt]) hrest hinv
    refine ⟨results', ?_, ?_⟩
    · have hstep : buildStatementMapLoop (s :: statements) results predicateTypes =
          buildStatementMapLoop statements
            (match results.lookup pt with
              | some found => mapPut results pt (found ++ [s])
              | none => mapPut results pt [s]) (predicateTypes ++ [pt]) := by
        simp only [buildStatementMapLoop, hpt]
      rw [hstep, hrun]
      simp [hof]
    · intro t
      rw [hlook t]
      simp

/-- The statement map of well-formed statements, by lookup. -/
theorem buildStatementMap_lookup (statements : List Statement)
    (hall : ∀ s ∈ statements, ∃ t, s.lookup "predicateType" = some (.string t)) :
    ∃ results,
      buildStatementMap statements = .ret (results, statements.map predicateTypeOf) ∧
      ∀ t, results.lookup t = statementsOfType statements t := by
  have h := buildStatementMapLoop_spec statements [] [] [] hall (fun t => rfl)
  simpa [buildStatementMap] using h
/-- Claim C24. For every list of statements whose `predicateType` is a string,
`buildStatementMap` returns a map in which every predicate type `t` holds exactly
the statements of the input whose predicate type is `t`, in input order (and no
key for a type that no statement has), and returns as its second result the
predicate types of all statements in input order, one per statement. -/
theorem buildStatementMap_spec (statements : List Statement)
    (hall : ∀ s ∈ statements, ∃ t, s.lookup "predicateType" = some (.string t)) :
    ∃ results predicateTypes,
      buildStatementMap statements = .ret (results, predicateTypes) ∧
      (∀ t, results.lookup t = statementsOfType statements t) ∧
      predicateTypes = statements.map predicateTypeOf ∧
      predicateTypes.length = statements.length := by
  obtain ⟨results, hrun, hlook⟩ := buildStatementMap_lookup statements hall
  exact ⟨results, _, hrun, hlook, rfl, by simp⟩

/-- Claim C24 at three statements of two predicate types. -/
theorem buildStatementMap_spec_witness :
    (∀ s ∈ exampleStatements, ∃ t, s.lookup "predicateType" = some (.string t)) ∧
    ∃ results predicateTypes,
      buildStatementMap exampleStatements = .ret (results, predicateTypes) ∧
      (∀ t, results.lookup t = statementsOfType exampleStatements t) ∧
      predicateTypes = exampleStatements.map predicateTypeOf ∧
      predicateTypes.length = exampleStatements.length :=
  have hall : ∀ s ∈ exampleStatements, ∃ t, s.lookup "predicateType" = some (.string t) := by
    intro s hs
    simp only [exampleStatements, List.mem_cons, List.mem_singleton, List.not_mem_nil,
      or_false] at hs
    rcases hs with rfl | rfl | rfl <;> exact ⟨_, rfl⟩
  ⟨hall, buildStatementMap_spec exampleStatements hall⟩

/-- The statement map of the three example statements, evaluated. -/
theorem buildStatementMap_example :
    buildStatementMap exampleStatements =
      .ret ([("https://slsa.dev/provenance/v0.2",
              [exampleStatement "https://slsa.dev/provenance/v0.2" "first",
               exampleStatement "https://slsa.dev/provenance/v0.2" "third"]),
             ("https://cyclonedx.org/bom",
              [exampleStatement "https://cyclonedx.org/bom" "second"])],
            ["https://slsa.dev/provenance/v0.2", "https://cyclonedx.org/bom",
             "https://slsa.dev/provenance/v0.2"]) := by
  rfl

/-! ## The attestation checks -/

/-- A statement whose conditions are false in every context ends the loop of
`verifyAttestation` with an error, wherever it stands among the statements. -/
theorem verifyAttestationLoop_fails {σ : Type} (caps : Capabilities σ) (attestation : Attestation)
    (imageInfo : ImageInfo) (s : Statement)
    (hfalse : ∀ ctx, (checkAttestations caps ctx attestation s).2 = (false, none)) :
    ∀ (statements : List Statement), s ∈ statements → ∀ ctx, ∃ err,
      (verifyAttestationLoop caps attestation imageInfo statements ctx).2 = some err := by
  intro statements
  induction statements with
  | nil => intro hs; simp at hs
  | cons x statements ih =>
    intro hs ctx
    rw [verifyAttestationLoop]
    cases hx : checkAttestations caps ctx attestation x with
    | mk ctx1 r =>
      obtain ⟨val, err⟩ := r
      cases err with
      | some e => exact ⟨_, rfl⟩
      | none =>
        cases val with
        | false => exact ⟨_, rfl⟩
        | true =>
          have hne : s ≠ x := by
            intro h
            have := hfalse ctx
            rw [h, hx] at this
            simp at this
          rcases List.mem_cons.1 hs with h | h
          · exact absurd h hne
          · simpa using ih h ctx1

/-- The statements of a type that some statement has. -/
theorem statementsOfType_of_mem (statements : List Statement) (s : Statement)
    (hs : s ∈ statements) :
    statementsOfType statements (predicateTypeOf s) =
      some (statements.filter (fun x => predicateTypeOf x == predicateTypeOf s)) := by
  have hmem : s ∈ statements.filter (fun x => predicateTypeOf x == predicateTypeOf s) := by
    simp [List.mem_filter, hs]
  unfold statementsOfType
  cases hf : statements.filter (fun x => predicateTypeOf x == predicateTypeOf s) with
  | nil => rw [hf] at hmem; simp at hmem
  | cons y ys => rfl

/-- Statements with a string predicate type, one of which is of the type of the
attestation and has conditions that are false, fail the attestation check. -/
theorem verifyAttestation_fails {σ : Type} (caps : Capabilities σ) (ctx : σ)
    (statements : List Statement) (attestation : Attestation) (imageInfo : ImageInfo)
    (s : Statement)
    (hall : ∀ x ∈ statements, ∃ t, x.lookup "predicateType" = some (.string t))
    (hs : s ∈ statements) (hmatch : predicateTypeOf s = attestation.PredicateType)
    (hfalse : ∀ ctx, (checkAttestations caps ctx attestation s).2 = (false, none)) :
    ∃ ctx' err,
      verifyAttestation caps ctx statements attestation imageInfo = (ctx', .ret (some err)) := by
  unfold verifyAttestation
  by_cases htype : attestation.PredicateType = ""
  · exact ⟨ctx, .plain "a predicateType is required", by simp [htype]⟩
  · obtain ⟨results, hrun, hlook⟩ := buildStatementMap_lookup statements hall
    have hfound := hlook attestation.PredicateType
    rw [← hmatch, statementsOfType_of_mem statements s hs] at hfound
    have hin : s ∈ statements.filter (fun x => predicateTypeOf x == predicateTypeOf s) := by
      simp [List.mem_filter, hs]
    obtain ⟨err, herr⟩ := verifyAttestationLoop_fails caps attestation imageInfo s hfalse _ hin ctx
    simp only [htype, if_false, hrun]
    rw [← hmatch, hfound]
    exact ⟨(verifyAttestationLoop caps attestation imageInfo
      (statements.filter (fun x => predicateTypeOf x == predicateTypeOf s)) ctx).1, err,
      by simp only [herr]⟩

/-- An entry whose statements fail the attestation check ends `verifyAttestations`:
what the loop over the entries returns from within. -/
theorem verifyAttestationsEntries_fails {σ : Type} (caps : Capabilities σ) (rule : Rule)
    (imageVerify : ImageVerification) (attestation attestationRef : Attestation)
    (attestorPath : String) (i : Nat) (requiredCount : Int) (a : Attestor)
    (rest : List Attestor) (verifiedCount : Int) (st : AttestationState σ)
    (cosignResp : cosign.Response) (ctx' : σ) (err : GoError)
    (hfetch : caps.FetchAttestations
      (buildOptionsAndPath a imageVerify st.image (some attestationRef)).1 = (some cosignResp, none))
    (hcheck : verifyAttestation caps st.jsonContext cosignResp.Statements attestation
      (if st.imageInfo.Digest = "" then { st.imageInfo with Digest := cosignResp.Digest }
        else st.imageInfo) = (ctx', .ret (some err))) :
    verifyAttestationsEntries caps rule imageVerify attestation attestationRef attestorPath i
        requiredCount (a :: rest) verifiedCount st =
      ({ jsonContext := ctx',
         calls := st.calls ++
          [.fetchAttestations (buildOptionsAndPath a imageVerify st.image (some attestationRef)).1],
         imageInfo :=
          if st.imageInfo.Digest = "" then { st.imageInfo with Digest := cosignResp.Digest }
          else st.imageInfo,
         image :=
          if st.imageInfo.Digest = "" then
            caps.imageString { st.imageInfo with Digest := cosignResp.Digest }
          else st.image },
        .ret (.returned (ruleResponse rule .ImageVerify
          (errors.Wrapf err (attestorPath ++ ".entries[" ++ toString i ++ "]" ++
            (buildOptionsAndPath a imageVerify st.image (some attestationRef)).2)).Error .fail,
          ""))) := by
  rw [verifyAttestationsEntries]
  simp only [hfetch]
  by_cases hd : st.imageInfo.Digest = ""
  · simp only [hd, if_true] at hcheck ⊢
    simp only [hcheck]
  · simp only [hd, if_false] at hcheck ⊢
    simp only [hcheck]

/-- An entry whose statements pass the attestation check and that reaches the
required count ends the loop over the entries: the entries after it are not
fetched. -/
theorem verifyAttestationsEntries_quorum {σ : Type} (caps : Capabilities σ) (rule : Rule)
    (imageVerify : ImageVerification) (attestation attestationRef : Attestation)
    (attestorPath : String) (i : Nat) (requiredCount : Int) (a : Attestor)
    (rest : List Attestor) (verifiedCount : Int) (st : AttestationState σ)
    (cosignResp : cosign.Response) (ctx' : σ)
    (hfetch : caps.FetchAttestations
      (buildOptionsAndPath a imageVerify st.image (some attestationRef)).1 = (some cosignResp, none))
    (hcheck : verifyAttestation caps st.jsonContext cosignResp.Statements attestation
      (if st.imageInfo.Digest = "" then { st.imageInfo with Digest := cosignResp.Digest }
        else st.imageInfo) = (ctx', .ret none))
    (hquorum : requiredCount ≤ verifiedCount + 1) :
    verifyAttestationsEntries caps rule imageVerify attestation attestationRef attestorPath i
        requiredCount (a :: rest) verifiedCount st =
      ({ jsonContext := ctx',
         calls := st.calls ++
          [.fetchAttestations (buildOptionsAndPath a imageVerify st.image (some attestationRef)).1],
         imageInfo :=
          if st.imageInfo.Digest = "" then { st.imageInfo with Digest := cosignResp.Digest }
          else st.imageInfo,
         image :=
          if st.imageInfo.Digest = "" then
            caps.imageString { st.imageInfo with Digest := cosignResp.Digest }
          else st.image },
        .ret (.finished (verifiedCount + 1))) := by
  rw [verifyAttestationsEntries]
  simp only [hfetch]
  by_cases hd : st.imageInfo.Digest = ""
  · simp only [hd, if_true] at hcheck ⊢
    simp only [hcheck, ge_iff_le, hquorum, if_true]
  · simp only [hd, if_false] at hcheck ⊢
    simp only [hcheck, ge_iff_le, hquorum, if_true]

/-- What the loop over the entries returns from within, the loop over the attestor
sets returns as well. -/
theorem verifyAttestationsSets_returned {σ : Type} (caps : Capabilities σ) (rule : Rule)
    (imageVerify : ImageVerification) (attestation attestationRef : Attestation)
    (path : String) (i : Nat) (attestor : AttestorSet) (attestors : List AttestorSet) (j : Nat)
    (st st' : AttestationState σ) (value : RuleResponse × String)
    (h : verifyAttestationsEntries caps rule imageVerify attestation attestationRef
      (path ++ ".attestors[" ++ toString j ++ "]") i (getRequiredCount attestor)
      attestor.Entries 0 st = (st', .ret (.returned value))) :
    verifyAttestationsSets caps rule imageVerify attestation attestationRef path i
      (attestor :: attestors) j st = (st', .ret (.returned value)) := by
  rw [verifyAttestationsSets]
  simp only [h]

/-- What the loop over the attestor sets returns from within is the result of the
loop over the attestations. -/
theorem verifyAttestationsLoop_returned {σ : Type} (caps : Capabilities σ) (rule : Rule)
    (imageVerify : ImageVerification) (attestationRef : Attestation)
    (attestations : List Attestation) (i : Nat) (st st' : AttestationState σ)
    (value : RuleResponse × String) (htype : attestationRef.PredicateType ≠ "")
    (h : verifyAttestationsSets caps rule imageVerify
      (if attestationRef.Attestors.length = 0 then
        { attestationRef with Attestors := [{ Entries := [{ Attestor := none }] }] }
       else attestationRef) attestationRef (".attestations[" ++ toString i ++ "]") i
      (if attestationRef.Attestors.length = 0 then
        { attestationRef with Attestors := [{ Entries := [{ Attestor := none }] }] }
       else attestationRef).Attestors 0 st = (st', .ret (.returned value))) :
    verifyAttestationsLoop caps rule imageVerify (attestationRef :: attestations) i st =
      (st', .ret value) := by
  rw [verifyAttestationsLoop]
  simp only [htype, if_false, h]
/-! ### The point the loops have reached -/

/-- Entries that the loop has passed without reaching the required count can be cut
off: the loop goes on behind them with the count and the state they left. -/
theorem verifyAttestationsEntries_append {σ : Type} (caps : Capabilities σ) (rule : Rule)
    (imageVerify : ImageVerification) (attestation attestationRef : Attestation)
    (attestorPath : String) (i : Nat) (requiredCount : Int) (rest : List Attestor) :
    ∀ (pre : List Attestor) (verifiedCount reached : Int) (st st' : AttestationState σ),
      verifyAttestationsEntries caps rule imageVerify attestation attestationRef attestorPath i
          requiredCount pre verifiedCount st = (st', .ret (.finished reached)) →
      (pre = [] ∨ reached < requiredCount) →
      verifyAttestationsEntries caps rule imageVerify attestation attestationRef attestorPath i
          requiredCount (pre ++ rest) verifiedCount st =
        verifyAttestationsEntries caps rule imageVerify attestation attestationRef attestorPath i
          requiredCount rest reached st' := by
  intro pre
  induction pre with
  | nil =>
    intro v reached st st' h _
    rw [verifyAttestationsEntries] at h
    simp only [Prod.mk.injEq, Outcome.ret.injEq, LoopExit.finished.injEq] at h
    obtain ⟨h1, h2⟩ := h
    subst h1 h2
    rfl
  | cons b pre ih =>
    intro v reached st st' h hbelow
    have hlt : reached < requiredCount := by
      rcases hbelow with h0 | h0
      · simp at h0
      · exact h0
    rw [List.cons_append, verifyAttestationsEntries]
    rw [verifyAttestationsEntries] at h
    simp only at h ⊢
    split at h
    · simp at h
    · simp at h
    · rename_i heq
      try simp only [heq]
      split at h
      · simp at h
      · simp at h
      · rename_i hcheck
        try simp only [hcheck]
        split at h
        · rename_i hq
          simp only [Prod.mk.injEq, Outcome.ret.injEq, LoopExit.finished.injEq] at h
          omega
        · rename_i hq
          simp only [hq, if_false]
          exact ih _ _ _ _ h (Or.inr hlt)

/-- A response that the loop over the entries returns from within has not the status
pass. -/
theorem verifyAttestationsEntries_status {σ : Type} (caps : Capabilities σ) (rule : Rule)
    (imageVerify : ImageVerification) (attestation attestationRef : Attestation)
    (attestorPath : String) (i : Nat) (requiredCount : Int) :
    ∀ (entries : List Attestor) (verifiedCount : Int) (st st' : AttestationState σ)
      (value : RuleResponse × String),
      verifyAttestationsEntries caps rule imageVerify attestation attestationRef attestorPath i
          requiredCount entries verifiedCount st = (st', .ret (.returned value)) →
      value.1.Status ≠ .pass := by
  intro entries
  induction entries with
  | nil =>
    intro v st st' value h
    rw [verifyAttestationsEntries] at h
    simp at h
  | cons a rest ih =>
    intro v st st' value h
    rw [verifyAttestationsEntries] at h
    simp only at h
    split at h
    · simp only [Prod.mk.injEq, Outcome.ret.injEq, LoopExit.returned.injEq] at h
      rw [← h.2, handleRegistryErrors_status]
      split <;> simp
    · simp at h
    · split at h
      · simp at h
      · simp only [Prod.mk.injEq, Outcome.ret.injEq, LoopExit.returned.injEq] at h
        rw [← h.2]
        simp [ruleResponse]
      · split at h
        · simp at h
        · exact ih _ _ _ _ h

/-- A response that the loop over the attestor sets returns from within has not the
status pass. -/
theorem verifyAttestationsSets_status {σ : Type} (caps : Capabilities σ) (rule : Rule)
    (imageVerify : ImageVerification) (attestation attestationRef : Attestation)
    (path : String) (i : Nat) :
    ∀ (sets : List AttestorSet) (j : Nat) (st st' : AttestationState σ)
      (value : RuleResponse × String),
      verifyAttestationsSets caps rule imageVerify attestation attestationRef path i sets j st =
        (st', .ret (.returned value)) →
      value.1.Status ≠ .pass := by
  intro sets
  induction sets with
  | nil =>
    intro j st st' value h
    rw [verifyAttestationsSets] at h
    simp at h
  | cons s rest ih =>
    intro j st st' value h
    rw [verifyAttestationsSets] at h
    simp only at h
    split at h
    · simp at h
    · rename_i heq
      simp only [Prod.mk.injEq, Outcome.ret.injEq, LoopExit.returned.injEq] at h
      rw [h.2] at heq
      exact verifyAttestationsEntries_status caps rule imageVerify attestation attestationRef
        _ i _ _ _ _ _ _ heq
    · split at h
      · simp only [Prod.mk.injEq, Outcome.ret.injEq, LoopExit.returned.injEq] at h
        rw [← h.2]
        simp [ruleResponse]
      · exact ih _ _ _ _ h

/-- Attestor sets that the loop has left behind can be cut off. -/
theorem verifyAttestationsSets_append {σ : Type} (caps : Capabilities σ) (rule : Rule)
    (imageVerify : ImageVerification) (attestation attestationRef : Attestation)
    (path : String) (i : Nat) (rest : List AttestorSet) :
    ∀ (pre : List AttestorSet) (j : Nat) (st st' : AttestationState σ),
      verifyAttestationsSets caps rule imageVerify attestation attestationRef path i pre j st =
        (st', .ret (.finished ())) →
      verifyAttestationsSets caps rule imageVerify attestation attestationRef path i
          (pre ++ rest) j st =
        verifyAttestationsSets caps rule imageVerify attestation attestationRef path i
          rest (j + pre.length) st' := by
  intro pre
  induction pre with
  | nil =>
    intro j st st' h
    rw [verifyAttestationsSets] at h
    simp only [Prod.mk.injEq, Outcome.ret.injEq, LoopExit.finished.injEq, and_true] at h
    subst h
    rfl
  | cons s pre ih =>
    intro j st st' h
    rw [List.cons_append, verifyAttestationsSets]
    rw [verifyAttestationsSets] at h
    simp only at h ⊢
    split at h
    · simp at h
    · simp at h
    · rename_i heq
      try simp only [heq]
      split at h
      · simp at h
      · rename_i hq
        simp only [hq, if_false]
        rw [ih _ _ _ h, List.length_cons]
        congr 1
        omega

/-- Attestations that the loop has passed can be cut off: a response of status pass
is the response the loop returns after the last attestation. -/
theorem verifyAttestationsLoop_append {σ : Type} (caps : Capabilities σ) (rule : Rule)
    (imageVerify : ImageVerification) (rest : List Attestation) :
    ∀ (pre : List Attestation) (i : Nat) (st st' : AttestationState σ)
      (value : RuleResponse × String),
      verifyAttestationsLoop caps rule imageVerify pre i st = (st', .ret value) →
      value.1.Status = .pass →
      verifyAttestationsLoop caps rule imageVerify (pre ++ rest) i st =
        verifyAttestationsLoop caps rule imageVerify rest (i + pre.length) st' := by
  intro pre
  induction pre with
  | nil =>
    intro i st st' value h _
    rw [verifyAttestationsLoop] at h
    simp only [Prod.mk.injEq] at h
    rw [← h.1]
    rfl
  | cons a pre ih =>
    intro i st st' value h hpass
    rw [List.cons_append, verifyAttestationsLoop]
    rw [verifyAttestationsLoop] at h
    simp only at h ⊢
    split at h
    · simp only [Prod.mk.injEq, Outcome.ret.injEq] at h
      rw [← h.2] at hpass
      simp [ruleResponse] at hpass
    · rename_i htype
      simp only [htype, if_false]
      split at h
      · simp at h
      · rename_i heq
        simp only [Prod.mk.injEq, Outcome.ret.injEq] at h
        rw [h.2] at heq
        exact absurd hpass (verifyAttestationsSets_status caps rule imageVerify _ _ _ _ _ _ _ _ _ heq)
      · rename_i heq
        try simp only [heq]
        rw [ih _ _ _ _ h hpass, List.length_cons]
        congr 1
        omega
/-- The loop over the attestations at an attestation with a predicate type is what is
left of `verifyAttestations` from its first attestor set. -/
theorem verifyAttestationsLoop_cons_from {σ : Type} (caps : Capabilities σ) (rule : Rule)
    (imageVerify : ImageVerification) (attestationRef : Attestation)
    (attestations : List Attestation) (i : Nat) (st : AttestationState σ)
    (htype : attestationRef.PredicateType ≠ "") :
    (((verifyAttestationsLoop caps rule imageVerify (attestationRef :: attestations) i st).1.jsonContext,
      (verifyAttestationsLoop caps rule imageVerify (attestationRef :: attestations) i st).1.calls),
      (verifyAttestationsLoop caps rule imageVerify (attestationRef :: attestations) i st).2) =
      verifyAttestationsFrom caps rule imageVerify attestationRef i
        (attestationInUse attestationRef).Attestors 0 attestations st := by
  rw [verifyAttestationsLoop]
  unfold verifyAttestationsFrom attestationInUse
  simp only [htype, if_false]
  split <;> rename_i heq <;> simp only [heq]

/-- Attestor sets left behind can be cut off from what is left of
`verifyAttestations`. -/
theorem verifyAttestationsFrom_append {σ : Type} (caps : Capabilities σ) (rule : Rule)
    (imageVerify : ImageVerification) (attestationRef : Attestation) (i : Nat)
    (pre sets : List AttestorSet) (j : Nat) (attestations : List Attestation)
    (st st' : AttestationState σ)
    (h : verifyAttestationsSets caps rule imageVerify (attestationInUse attestationRef)
      attestationRef (".attestations[" ++ toString i ++ "]") i pre j st =
        (st', .ret (.finished ()))) :
    verifyAttestationsFrom caps rule imageVerify attestationRef i (pre ++ sets) j attestations st =
      verifyAttestationsFrom caps rule imageVerify attestationRef i sets (j + pre.length)
        attestations st' := by
  unfold verifyAttestationsFrom
  rw [verifyAttestationsSets_append caps rule imageVerify _ _ _ _ sets pre j st st' h]

/-- What is left of `verifyAttestations` at an attestor set, when the loop over the
entries of the set returns from within. -/
theorem verifyAttestationsFrom_returned {σ : Type} (caps : Capabilities σ) (rule : Rule)
    (imageVerify : ImageVerification) (attestationRef : Attestation) (i : Nat)
    (set : AttestorSet) (sets : List AttestorSet) (j : Nat) (attestations : List Attestation)
    (st st' : AttestationState σ) (value : RuleResponse × String)
    (h : verifyAttestationsEntries caps rule imageVerify (attestationInUse attestationRef)
      attestationRef (".attestations[" ++ toString i ++ "]" ++ ".attestors[" ++ toString j ++ "]")
      i (getRequiredCount set) set.Entries 0 st = (st', .ret (.returned value))) :
    verifyAttestationsFrom caps rule imageVerify attestationRef i (set :: sets) j attestations st =
      ((st'.jsonContext, st'.calls), .ret value) := by
  unfold verifyAttestationsFrom
  rw [verifyAttestationsSets]
  simp only [h]

/-- What is left of `verifyAttestations` at an attestor set, when the loop over the
entries of the set is left with the required count reached. -/
theorem verifyAttestationsFrom_finished {σ : Type} (caps : Capabilities σ) (rule : Rule)
    (imageVerify : ImageVerification) (attestationRef : Attestation) (i : Nat)
    (set : AttestorSet) (sets : List AttestorSet) (j : Nat) (attestations : List Attestation)
    (st st' : AttestationState σ) (reached : Int)
    (h : verifyAttestationsEntries caps rule imageVerify (attestationInUse attestationRef)
      attestationRef (".attestations[" ++ toString i ++ "]" ++ ".attestors[" ++ toString j ++ "]")
      i (getRequiredCount set) set.Entries 0 st = (st', .ret (.finished reached)))
    (hreached : getRequiredCount set ≤ reached) :
    verifyAttestationsFrom caps rule imageVerify attestationRef i (set :: sets) j attestations st =
      verifyAttestationsFrom caps rule imageVerify attestationRef i sets (j + 1) attestations
        st' := by
  have hnot : ¬ reached < getRequiredCount set := by omega
  conv => lhs; unfold verifyAttestationsFrom
  rw [verifyAttestationsSets]
  simp only [h, hnot, if_false]
  rfl

/-- The point of `verifyAttestations` at an entry of an attestor set: the
attestations before it are passed, the attestor sets before it are left behind,
and the entries before it are passed without reaching the required count. -/
theorem verifyAttestations_at_entry {σ : Type} (caps : Capabilities σ) (rule : Rule) (ctx : σ)
    (imageVerify : ImageVerification) (imageInfo : ImageInfo)
    (preAtts postAtts : List Attestation) (attestationRef : Attestation)
    (preSets postSets : List AttestorSet) (set : AttestorSet)
    (preEntries rest : List Attestor) (a : Attestor)
    (st1 st2 st3 : AttestationState σ) (passed : RuleResponse × String) (verifiedCount : Int)
    (hatts : imageVerify.Attestations = preAtts ++ attestationRef :: postAtts)
    (hpreAtts : verifyAttestationsLoop caps rule imageVerify preAtts 0
      { jsonContext := ctx, calls := [], imageInfo := imageInfo,
        image := caps.imageString imageInfo } = (st1, .ret passed))
    (hpass : passed.1.Status = .pass)
    (htype : attestationRef.PredicateType ≠ "")
    (hsets : (attestationInUse attestationRef).Attestors = preSets ++ set :: postSets)
    (hpreSets : verifyAttestationsSets caps rule imageVerify (attestationInUse attestationRef)
      attestationRef (".attestations[" ++ toString preAtts.length ++ "]") preAtts.length
      preSets 0 st1 = (st2, .ret (.finished ())))
    (hentries : set.Entries = preEntries ++ a :: rest)
    (hpreEntries : verifyAttestationsEntries caps rule imageVerify
      (attestationInUse attestationRef) attestationRef
      (".attestations[" ++ toString preAtts.length ++ "]" ++
        ".attestors[" ++ toString preSets.length ++ "]")
      preAtts.length (getRequiredCount set) preEntries 0 st2 =
        (st3, .ret (.finished verifiedCount)))
    (hbelow : preEntries = [] ∨ verifiedCount < getRequiredCount set) :
    verifyAttestations caps rule ctx imageVerify imageInfo =
        verifyAttestationsFrom caps rule imageVerify attestationRef preAtts.length
          (set :: postSets) preSets.length postAtts st2 ∧
      verifyAttestationsEntries caps rule imageVerify (attestationInUse attestationRef)
          attestationRef
          (".attestations[" ++ toString preAtts.length ++ "]" ++
            ".attestors[" ++ toString preSets.length ++ "]")
          preAtts.length (getRequiredCount set) set.Entries 0 st2 =
        verifyAttestationsEntries caps rule imageVerify (attestationInUse attestationRef)
          attestationRef
          (".attestations[" ++ toString preAtts.length ++ "]" ++
            ".attestors[" ++ toString preSets.length ++ "]")
          preAtts.length (getRequiredCount set) (a :: rest) verifiedCount st3 := by
  constructor
  · unfold verifyAttestations
    simp only
    rw [hatts, verifyAttestationsLoop_append caps rule imageVerify _ preAtts 0 _ st1 passed
      hpreAtts hpass, Nat.zero_add,
      verifyAttestationsLoop_cons_from caps rule imageVerify attestationRef postAtts
        preAtts.length st1 htype, hsets,
      verifyAttestationsFrom_append caps rule imageVerify attestationRef preAtts.length preSets
        (set :: postSets) 0 postAtts st1 st2 hpreSets, Nat.zero_add]
  · rw [hentries]
    exact verifyAttestationsEntries_append caps rule imageVerify _ _ _ _ _ (a :: rest) preEntries
      0 verifiedCount st2 st3 hpreEntries hbelow
/-- Claim C23. In `verifyAttestations`, at any entry that the loops consult (the
attestations before it are passed, the attestor sets of its attestation before
its own are left behind, the entries of its set before it are passed without
reaching the required count) and whose attestations are fetched: when the
statements fail the attestation check, the result of `verifyAttestations` is a
fail response and the fetch of this entry is the last registry call, whatever
the count of the set and the entries and attestor sets that follow; this is so
in particular when the statements have string predicate types and the
conditions are false for one statement of the predicate type of the
attestation; and when the statements pass the check and the required count is
reached, `verifyAttestations` goes on with the attestor sets after this one,
the fetch of this entry being the last registry call made for the set, so that
the entries after it are not fetched. -/
theorem verifyAttestations_fails_at_first_failed_check {σ : Type} (caps : Capabilities σ)
    (rule : Rule) (ctx : σ) (imageVerify : ImageVerification) (imageInfo : ImageInfo)
    (preAtts postAtts : List Attestation) (attestationRef : Attestation)
    (preSets postSets : List AttestorSet) (set : AttestorSet)
    (preEntries rest : List Attestor) (a : Attestor)
    (st1 st2 st3 : AttestationState σ) (passed : RuleResponse × String) (verifiedCount : Int)
    (cosignResp : cosign.Response)
    (hatts : imageVerify.Attestations = preAtts ++ attestationRef :: postAtts)
    (hpreAtts : verifyAttestationsLoop caps rule imageVerify preAtts 0
      { jsonContext := ctx, calls := [], imageInfo := imageInfo,
        image := caps.imageString imageInfo } = (st1, .ret passed))
    (hpass : passed.1.Status = .pass)
    (htype : attestationRef.PredicateType ≠ "")
    (hsets : (attestationInUse attestationRef).Attestors = preSets ++ set :: postSets)
    (hpreSets : verifyAttestationsSets caps rule imageVerify (attestationInUse attestationRef)
      attestationRef (".attestations[" ++ toString preAtts.length ++ "]") preAtts.length
      preSets 0 st1 = (st2, .ret (.finished ())))
    (hentries : set.Entries = preEntries ++ a :: rest)
    (hpreEntries : verifyAttestationsEntries caps rule imageVerify
      (attestationInUse attestationRef) attestationRef
      (".attestations[" ++ toString preAtts.length ++ "]" ++
        ".attestors[" ++ toString preSets.length ++ "]")
      preAtts.length (getRequiredCount set) preEntries 0 st2 =
        (st3, .ret (.finished verifiedCount)))
    (hbelow : preEntries = [] ∨ verifiedCount < getRequiredCount set)
    (hfetch : caps.FetchAttestations
      (buildOptionsAndPath a imageVerify st3.image (some attestationRef)).1
        = (some cosignResp, none)) :
    (∀ ctx' err,
      verifyAttestation caps st3.jsonContext cosignResp.Statements
        (attestationInUse attestationRef)
        (if st3.imageInfo.Digest = "" then { st3.imageInfo with Digest := cosignResp.Digest }
          else st3.imageInfo) = (ctx', .ret (some err)) →
      verifyAttestations caps rule ctx imageVerify imageInfo =
        ((ctx', st3.calls ++ [.fetchAttestations
            (buildOptionsAndPath a imageVerify st3.image (some attestationRef)).1]),
          .ret (ruleResponse rule .ImageVerify
            (errors.Wrapf err
              (".attestations[" ++ toString preAtts.length ++ "]" ++
                ".attestors[" ++ toString preSets.length ++ "]" ++
                ".entries[" ++ toString preAtts.length ++ "]" ++
                (buildOptionsAndPath a imageVerify st3.image (some attestationRef)).2)).Error
            .fail, ""))) ∧
    ((∀ x ∈ cosignResp.Statements, ∃ t, x.lookup "predicateType" = some (.string t)) →
      (∃ s ∈ cosignResp.Statements, predicateTypeOf s = attestationRef.PredicateType ∧
        ∀ c, (checkAttestations caps c (attestationInUse attestationRef) s).2 = (false, none)) →
      ∃ ctx' message,
        verifyAttestations caps rule ctx imageVerify imageInfo =
          ((ctx', st3.calls ++ [.fetchAttestations
              (buildOptionsAndPath a imageVerify st3.image (some attestationRef)).1]),
            .ret (ruleResponse rule .ImageVerify message .fail, ""))) ∧
    (∀ ctx',
      verifyAttestation caps st3.jsonContext cosignResp.Statements
        (attestationInUse attestationRef)
        (if st3.imageInfo.Digest = "" then { st3.imageInfo with Digest := cosignResp.Digest }
          else st3.imageInfo) = (ctx', .ret none) →
      getRequiredCount set ≤ verifiedCount + 1 →
      verifyAttestations caps rule ctx imageVerify imageInfo =
        verifyAttestationsFrom caps rule imageVerify attestationRef preAtts.length postSets
          (preSets.length + 1) postAtts
          { jsonContext := ctx',
            calls := st3.calls ++ [.fetchAttestations
              (buildOptionsAndPath a imageVerify st3.image (some attestationRef)).1],
            imageInfo :=
              if st3.imageInfo.Digest = "" then { st3.imageInfo with Digest := cosignResp.Digest }
              else st3.imageInfo,
            image :=
              if st3.imageInfo.Digest = "" then
                caps.imageString { st3.imageInfo with Digest := cosignResp.Digest }
              else st3.image }) := by
  obtain ⟨hfrom, hcut⟩ := verifyAttestations_at_entry caps rule ctx imageVerify imageInfo
    preAtts postAtts attestationRef preSets postSets set preEntries rest a st1 st2 st3 passed
    verifiedCount hatts hpreAtts hpass htype hsets hpreSets hentries hpreEntries hbelow
  have hfail : ∀ ctx' err,
      verifyAttestation caps st3.jsonContext cosignResp.Statements
        (attestationInUse attestationRef)
        (if st3.imageInfo.Digest = "" then { st3.imageInfo with Digest := cosignResp.Digest }
          else st3.imageInfo) = (ctx', .ret (some err)) →
      verifyAttestations caps rule ctx imageVerify imageInfo =
        ((ctx', st3.calls ++ [.fetchAttestations
            (buildOptionsAndPath a imageVerify st3.image (some attestationRef)).1]),
          .ret (ruleResponse rule .ImageVerify
            (errors.Wrapf err
              (".attestations[" ++ toString preAtts.length ++ "]" ++
                ".attestors[" ++ toString preSets.length ++ "]" ++
                ".entries[" ++ toString preAtts.length ++ "]" ++
                (buildOptionsAndPath a imageVerify st3.image (some attestationRef)).2)).Error
            .fail, "")) := by
    intro ctx' err hcheck
    rw [hfrom]
    exact verifyAttestationsFrom_returned caps rule imageVerify attestationRef preAtts.length
      set postSets preSets.length postAtts st2 _ _
      (hcut.trans (verifyAttestationsEntries_fails caps rule imageVerify _ attestationRef _ _ _
        a rest verifiedCount st3 cosignResp ctx' err hfetch hcheck))
  refine ⟨hfail, ?_, ?_⟩
  · intro hall hs
    obtain ⟨s, hmem, hmatch, hfalse⟩ := hs
    have hmatch' : predicateTypeOf s = (attestationInUse attestationRef).PredicateType := by
      rw [hmatch]
      unfold attestationInUse
      split <;> rfl
    obtain ⟨ctx', err, hcheck⟩ := verifyAttestation_fails caps st3.jsonContext
      cosignResp.Statements (attestationInUse attestationRef)
      (if st3.imageInfo.Digest = "" then { st3.imageInfo with Digest := cosignResp.Digest }
        else st3.imageInfo) s hall hmem hmatch' hfalse
    exact ⟨ctx', _, hfail ctx' err hcheck⟩
  · intro ctx' hcheck hquorum
    rw [hfrom]
    exact verifyAttestationsFrom_finished caps rule imageVerify attestationRef preAtts.length
      set postSets preSets.length postAtts st2 _ (verifiedCount + 1)
      (hcut.trans (verifyAttestationsEntries_quorum caps rule imageVerify _ attestationRef _ _ _
        a rest verifiedCount st3 cosignResp ctx' hfetch hcheck hquorum)) hquorum
/-- Claim C23 at an image verification with two attestations. The first passes. In
the second, the first attestor set reaches its count of 1 at the key `A`, so
`D` is not fetched; in the second set, of the count 3, the statement fetched
with `A` passes and the statement fetched with `B` fails the condition: the
result is a fail response after four fetches, and `C` is not fetched. -/
theorem verifyAttestations_fails_at_first_failed_check_witness :
    verifyAttestations (conditionCaps (attestationsByKey ["B"])) { Name := "check-provenance" }
        {} { Attestations := [bomAttestation, provenanceAttestation] } exampleImage =
      (({}, [exampleFetch "example.com/app:v1" "https://cyclonedx.org/bom" "A",
             exampleFetch "example.com/app@sha256:abcd" "https://slsa.dev/provenance/v0.2" "A",
             exampleFetch "example.com/app@sha256:abcd" "https://slsa.dev/provenance/v0.2" "A",
             exampleFetch "example.com/app@sha256:abcd" "https://slsa.dev/provenance/v0.2" "B"]),
        .ret ({ Name := "check-provenance", Type_ := .ImageVerify,
                Message := ".attestations[1].attestors[1].entries[1].keys: attestation checks " ++
                  "failed for example.com/app@sha256:abcd and predicate " ++
                  "https://slsa.dev/provenance/v0.2",
                Status := .fail }, "")) :=
  ((verifyAttestations_fails_at_first_failed_check
      (conditionCaps (attestationsByKey ["B"])) { Name := "check-provenance" } {}
      { Attestations := [bomAttestation, provenanceAttestation] } exampleImage
      [bomAttestation] [] provenanceAttestation
      [{ Count := some 1, Entries := [keyAttestor "A", keyAttestor "D"] }] []
      { Count := some 3, Entries := [keyAttestor "A", keyAttestor "B", keyAttestor "C"] }
      [keyAttestor "A"] [keyAttestor "C"] (keyAttestor "B")
      { jsonContext := {},
        calls := [exampleFetch "example.com/app:v1" "https://cyclonedx.org/bom" "A"],
        imageInfo := { exampleImage with Digest := "sha256:abcd" },
        image := "example.com/app@sha256:abcd" }
      { jsonContext := {},
        calls := [exampleFetch "example.com/app:v1" "https://cyclonedx.org/bom" "A",
          exampleFetch "example.com/app@sha256:abcd" "https://slsa.dev/provenance/v0.2" "A"],
        imageInfo := { exampleImage with Digest := "sha256:abcd" },
        image := "example.com/app@sha256:abcd" }
      { jsonContext := {},
        calls := [exampleFetch "example.com/app:v1" "https://cyclonedx.org/bom" "A",
          exampleFetch "example.com/app@sha256:abcd" "https://slsa.dev/provenance/v0.2" "A",
          exampleFetch "example.com/app@sha256:abcd" "https://slsa.dev/provenance/v0.2" "A"],
        imageInfo := { exampleImage with Digest := "sha256:abcd" },
        image := "example.com/app@sha256:abcd" }
      ({ Name := "check-provenance", Type_ := .ImageVerify,
         Message := "verified image attestations for example.com/app@sha256:abcd",
         Status := .pass }, "sha256:abcd")
      1 { Digest := "sha256:abcd",
          Statements := [exampleStatement "https://slsa.dev/provenance/v0.2" "untrusted"] }
      rfl rfl rfl (by decide) rfl rfl rfl rfl (Or.inr (by decide)) rfl).1
    {}
    (.plain ("attestation checks failed for example.com/app@sha256:abcd and predicate " ++
      "https://slsa.dev/provenance/v0.2"))
    rfl).trans rfl

/-- The whole of `verifyAttestations` on the example: one attestation with one
attestor set of two entries and the required count 1. With conditions that are
false the result is a fail response after one fetch. -/
theorem verifyAttestations_example_fail :
    verifyAttestations (failingCaps (exampleAttestations exampleStatements))
        { Name := "check-provenance" } []
        { Attestations := [{ exampleAttestation with
            Attestors := [{ Count := some 1, Entries := [keyAttestor "A", keyAttestor "B"] }] }] }
        exampleImage =
      (([], [.fetchAttestations
          { ImageRef := "example.com/app:v1",
            PredicateType := "https://slsa.dev/provenance/v0.2", FetchAttestations := true,
            Key := "A" }]),
        .ret ({ Name := "check-provenance", Type_ := .ImageVerify,
                Message := ".attestations[0].attestors[0].entries[0].keys: attestation checks " ++
                  "failed for example.com/app@sha256:abcd and predicate https://slsa.dev/provenance/v0.2",
                Status := .fail }, "")) := by
  rfl

/-- The whole of `verifyAttestations` on the same example with conditions that hold:
the first entry reaches the required count and the second is not fetched. -/
theorem verifyAttestations_example_quorum :
    verifyAttestations (exampleCaps (exampleRegistry [] []) (exampleAttestations exampleStatements))
        { Name := "check-provenance" } []
        { Attestations := [{ exampleAttestation with
            Attestors := [{ Count := some 1, Entries := [keyAttestor "A", keyAttestor "B"] }] }] }
        exampleImage =
      (([], [.fetchAttestations
          { ImageRef := "example.com/app:v1",
            PredicateType := "https://slsa.dev/provenance/v0.2", FetchAttestations := true,
            Key := "A" }]),
        .ret ({ Name := "check-provenance", Type_ := .ImageVerify,
                Message := "verified image attestations for example.com/app@sha256:abcd",
                Status := .pass }, "sha256:abcd")) := by
  rfl

/-! ## The options of expanded entries -/

/-- The options built from an attestor that holds one static key and nothing else. -/
theorem buildOptionsAndPath_key_only (key : String) (imageVerify : ImageVerification)
    (image : String) (attestation : Option Attestation) :
    (buildOptionsAndPath
      { Keys := some { PublicKeys := key, SignatureAlgorithm := "", KMS := "", Secret := none,
                       Rekor := none },
        Certificates := none, Keyless := none, Attestor := none, Annotations := none,
        Repository := "" } imageVerify image attestation).1 =
      { optionsStart imageVerify image attestation with
        Key := key, SignatureAlgorithm := "" } := by
  rw [buildOptionsAndPath_steps]
  by_cases hkey : key = ""
  · subst hkey
    simp [optionsFinish, optionsKind, applyKeys, (optionsStart_fields imageVerify image attestation).1]
  · simp [optionsFinish, optionsKind, applyKeys, hkey]

/-- The first step of `buildOptionsAndPath` sets no rekor URL and takes the repository
and the annotations of the image verification. -/
theorem optionsStart_settings (imageVerify : ImageVerification) (image : String)
    (attestation : Option Attestation) :
    (optionsStart imageVerify image attestation).RekorURL = "" ∧
      (optionsStart imageVerify image attestation).Repository = imageVerify.Repository ∧
      (optionsStart imageVerify image attestation).Annotations = imageVerify.Annotations := by
  unfold optionsStart
  cases attestation <;> by_cases h : imageVerify.Roots = "" <;> simp [h]

/-- Claim C22 fails on the code. For every static-keys entry that `expandStaticKeys`
splits, each expanded entry holds one key and nothing else, so the options that
`buildOptionsAndPath` derives from it have no rekor URL, no signature algorithm,
and the repository and annotations of the image verification, whatever the
original entry sets for them: the settings of the original entry are lost, not
carried over. -/
theorem expandStaticKeys_options_lose_settings (count : Option Int) (e : Attestor)
    (k : StaticKeyAttestor) (imageVerify : ImageVerification) (image : String)
    (attestation : Option Attestation)
    (hk : e.Keys = some k) (hsplit : 1 < (splitPEM k.PublicKeys).length) :
    ∀ a ∈ (expandStaticKeys { Count := count, Entries := [e] }).Entries,
      (buildOptionsAndPath a imageVerify image attestation).1.RekorURL = "" ∧
      (buildOptionsAndPath a imageVerify image attestation).1.SignatureAlgorithm = "" ∧
      (buildOptionsAndPath a imageVerify image attestation).1.Repository
        = imageVerify.Repository ∧
      (buildOptionsAndPath a imageVerify image attestation).1.Annotations
        = imageVerify.Annotations := by
  intro a ha
  rw [expandStaticKeys_entries] at ha
  simp only [List.flatMap_cons, List.flatMap_nil, List.append_nil, expandEntrySpec, hk, hsplit,
    if_true, List.mem_map] at ha
  obtain ⟨key, -, rfl⟩ := ha
  rw [buildOptionsAndPath_key_only]
  obtain ⟨h1, h2, h3⟩ := optionsStart_settings imageVerify image attestation
  exact ⟨h1, rfl, h2, h3⟩

/-- Claim C22 at an entry with two keys that sets the rekor URL, the signature
algorithm, the repository and the annotations: the options of the original
entry carry the four settings, the options of both expanded entries carry none
of them. -/
theorem expandStaticKeys_options_lose_settings_witness :
    ((buildOptionsAndPath twoKeyAttestor {} "example.com/app:v1" none).1.RekorURL
        = "https://rekor.example.com" ∧
      (buildOptionsAndPath twoKeyAttestor {} "example.com/app:v1" none).1.SignatureAlgorithm
        = "sha512" ∧
      (buildOptionsAndPath twoKeyAttestor {} "example.com/app:v1" none).1.Repository
        = "registry.example.com/signatures" ∧
      (buildOptionsAndPath twoKeyAttestor {} "example.com/app:v1" none).1.Annotations
        = some [("team", "release")]) ∧
    (expandStaticKeys { Count := some 1, Entries := [twoKeyAttestor] }).Entries.length = 2 ∧
    ∀ a ∈ (expandStaticKeys { Count := some 1, Entries := [twoKeyAttestor] }).Entries,
      (buildOptionsAndPath a {} "example.com/app:v1" none).1.RekorURL = "" ∧
      (buildOptionsAndPath a {} "example.com/app:v1" none).1.SignatureAlgorithm = "" ∧
      (buildOptionsAndPath a {} "example.com/app:v1" none).1.Repository = "" ∧
      (buildOptionsAndPath a {} "example.com/app:v1" none).1.Annotations = none :=
  ⟨⟨rfl, rfl, rfl, rfl⟩, by decide,
    expandStaticKeys_options_lose_settings (some 1) twoKeyAttestor
      { PublicKeys := twoKeyPEM, SignatureAlgorithm := "sha512",
        Rekor := some { URL := "https://rekor.example.com" } }
      {} "example.com/app:v1" none rfl (by decide)⟩

/-! ### Nested attestor sets -/

section Nested

variable (recurse : AttestorSet → String → Option SetResult)
  (VerifySignature : cosign.Options → Option cosign.Response × Option GoError)
  (imageVerify : ImageVerification) (image : String) (path : String) (requiredCount : Int)

/-- One round of the loop on a nested set whose recursive call returns a nil error:
the entry counts as one success of the parent set. -/
theorem verifyAttestorSetLoop_nested_ok (a : Attestor) (rest : List Attestor) (i : Nat)
    (verifiedCount : Int) (errorList : List GoError) (calls made : List cosign.Options)
    (nested : AttestorSet) (resp : Option cosign.Response)
    (ha : a.Attestor = some (.attestorSet nested))
    (hrec : recurse nested (path ++ ".entries[" ++ toString i ++ "]" ++ ".attestor") =
      some (made, .ret (resp, none))) :
    verifyAttestorSetLoop recurse VerifySignature imageVerify image path requiredCount
        (a :: rest) i verifiedCount errorList calls =
      if verifiedCount + 1 ≥ requiredCount then some (calls ++ made, .ret (resp, none))
      else
        verifyAttestorSetLoop recurse VerifySignature imageVerify image path requiredCount
          rest (i + 1) (verifiedCount + 1) errorList (calls ++ made) := by
  rw [verifyAttestorSetLoop]
  simp only [ha, AttestorSetUnmarshal, hrec]

/-- One round of the loop on a nested set whose recursive call returns an error: the
error is recorded as one entry error and the loop goes on with the next entry. -/
theorem verifyAttestorSetLoop_nested_err (a : Attestor) (rest : List Attestor) (i : Nat)
    (verifiedCount : Int) (errorList : List GoError) (calls made : List cosign.Options)
    (nested : AttestorSet) (resp : Option cosign.Response) (e : GoError)
    (ha : a.Attestor = some (.attestorSet nested))
    (hrec : recurse nested (path ++ ".entries[" ++ toString i ++ "]" ++ ".attestor") =
      some (made, .ret (resp, some e))) :
    verifyAttestorSetLoop recurse VerifySignature imageVerify image path requiredCount
        (a :: rest) i verifiedCount errorList calls =
      verifyAttestorSetLoop recurse VerifySignature imageVerify image path requiredCount
        rest (i + 1) verifiedCount (errorList ++ [e]) (calls ++ made) := by
  rw [verifyAttestorSetLoop]
  simp only [ha, AttestorSetUnmarshal, hrec]

/-- One round of the loop on a nested set that cannot be unmarshalled: the error is
recorded as one entry error and the loop goes on with the next entry. -/
theorem verifyAttestorSetLoop_nested_malformed (a : Attestor) (rest : List Attestor) (i : Nat)
    (verifiedCount : Int) (errorList : List GoError) (calls : List cosign.Options)
    (err : GoError) (ha : a.Attestor = some (.malformed err)) :
    verifyAttestorSetLoop recurse VerifySignature imageVerify image path requiredCount
        (a :: rest) i verifiedCount errorList calls =
      verifyAttestorSetLoop recurse VerifySignature imageVerify image path requiredCount
        rest (i + 1) verifiedCount
        (errorList ++ [errors.Wrapf err
          ("failed to unmarshal nested attestor " ++ path ++ ".entries[" ++ toString i ++ "]")])
        calls := by
  rw [verifyAttestorSetLoop]
  simp only [ha, AttestorSetUnmarshal, List.append_nil, String.append_assoc]

/-- One round of the loop on a nested set whose recursive call panics: the panic
ends the loop of the parent set. -/
theorem verifyAttestorSetLoop_nested_panic (a : Attestor) (rest : List Attestor) (i : Nat)
    (verifiedCount : Int) (errorList : List GoError) (calls made : List cosign.Options)
    (nested : AttestorSet) (reason : String)
    (ha : a.Attestor = some (.attestorSet nested))
    (hrec : recurse nested (path ++ ".entries[" ++ toString i ++ "]" ++ ".attestor") =
      some (made, .panic reason)) :
    verifyAttestorSetLoop recurse VerifySignature imageVerify image path requiredCount
        (a :: rest) i verifiedCount errorList calls =
      some (calls ++ made, .panic reason) := by
  rw [verifyAttestorSetLoop]
  simp only [ha, AttestorSetUnmarshal, hrec]

/-- The loop depends on the recursive call only at the nested sets of its entries. -/
theorem verifyAttestorSetLoop_congr (recurse' : AttestorSet → String → Option SetResult) :
    ∀ (es : List Attestor) (i : Nat) (verifiedCount : Int) (errorList : List GoError)
      (calls : List cosign.Options),
      (∀ a ∈ es, ∀ nested, a.Attestor = some (.attestorSet nested) →
        ∀ p, recurse nested p = recurse' nested p) →
      verifyAttestorSetLoop recurse VerifySignature imageVerify image path requiredCount
          es i verifiedCount errorList calls =
        verifyAttestorSetLoop recurse' VerifySignature imageVerify image path requiredCount
          es i verifiedCount errorList calls := by
  intro es
  induction es with
  | nil =>
    intro i v el calls _
    rw [verifyAttestorSetLoop, verifyAttestorSetLoop]
  | cons a rest ih =>
    intro i v el calls hrec
    have ih' := fun i v el calls =>
      ih i v el calls (fun b hb => hrec b (List.mem_cons_of_mem a hb))
    rw [verifyAttestorSetLoop, verifyAttestorSetLoop]
    cases hn : a.Attestor with
    | none =>
      simp only [hn]
      split <;> simp only [ih']
    | some j =>
      cases j with
      | malformed e => simp only [hn, AttestorSetUnmarshal, ih']
      | attestorSet nested =>
        simp only [hn, AttestorSetUnmarshal]
        rw [hrec a (List.mem_cons_self a rest) nested hn]
        split <;> simp only [ih']

end Nested

/-- Any bound above the nesting depth of the set gives the result of
`verifyAttestorSet`. -/
theorem verifyAttestorSetFuel_stable
    (VerifySignature : cosign.Options → Option cosign.Response × Option GoError)
    (imageString : ImageInfo → String) (imageVerify : ImageVerification) (imageInfo : ImageInfo) :
    ∀ (fuel fuel' : Nat) (attestorSet : AttestorSet) (path : String),
      setDepth attestorSet < fuel → setDepth attestorSet < fuel' →
      verifyAttestorSetFuel VerifySignature imageString imageVerify imageInfo fuel attestorSet
          path =
        verifyAttestorSetFuel VerifySignature imageString imageVerify imageInfo fuel'
          attestorSet path := by
  intro fuel
  induction fuel with
  | zero => intro fuel' s p h; omega
  | succ fuel ih =>
    intro fuel' s p h h'
    cases fuel' with
    | zero => omega
    | succ fuel' =>
      rw [verifyAttestorSetFuel, verifyAttestorSetFuel]
      apply verifyAttestorSetLoop_congr
      intro a ha nested hn q
      have h1 := attestorDepth_le_entriesDepth a _ ha
      rw [attestorDepth_eq, hn] at h1
      have h2 := setDepth_expandStaticKeys s
      unfold setDepth at h2 h1 h h'
      simp only at h1
      apply ih <;> unfold setDepth <;> omega

/-- Within `verifyAttestorSet` on a set, the recursive call on a nested set of an
entry is `verifyAttestorSet` on the nested set. -/
theorem verifyAttestorSetFuel_nested
    (VerifySignature : cosign.Options → Option cosign.Response × Option GoError)
    (imageString : ImageInfo → String) (imageVerify : ImageVerification) (imageInfo : ImageInfo)
    (attestorSet nested : AttestorSet) (a : Attestor) (path : String)
    (ha : a ∈ (expandStaticKeys attestorSet).Entries)
    (hn : a.Attestor = some (.attestorSet nested)) :
    verifyAttestorSetFuel VerifySignature imageString imageVerify imageInfo
        (setDepth attestorSet) nested path =
      verifyAttestorSet VerifySignature imageString imageVerify imageInfo nested path := by
  unfold verifyAttestorSet
  have h1 := attestorDepth_le_entriesDepth a _ ha
  rw [attestorDepth_eq, hn] at h1
  have h2 := setDepth_expandStaticKeys attestorSet
  unfold setDepth at h2 h1 ⊢
  simp only at h1
  apply verifyAttestorSetFuel_stable <;> unfold setDepth <;> omega
/-- A set of leaf entries that all verify and do not reach the required count makes
`verifyAttestorSet` panic. -/
theorem verifyAttestorSet_panic_of_leaves
    (VerifySignature : cosign.Options → Option cosign.Response × Option GoError)
    (imageString : ImageInfo → String) (imageVerify : ImageVerification) (imageInfo : ImageInfo)
    (attestorSet : AttestorSet) (path : String)
    (hok : ∀ b ∈ (expandStaticKeys attestorSet).Entries, b.Attestor = none ∧
      (VerifySignature (buildOptionsAndPath b imageVerify (imageString imageInfo) none).1).2
        = none)
    (hreq : (expandStaticKeys attestorSet).Entries = [] ∨
      ((expandStaticKeys attestorSet).Entries.length : Int)
        < getRequiredCount (expandStaticKeys attestorSet)) :
    verifyAttestorSet VerifySignature imageString imageVerify imageInfo attestorSet path =
      some ((expandStaticKeys attestorSet).Entries.map
          (fun b => (buildOptionsAndPath b imageVerify (imageString imageInfo) none).1),
        .panic nilDereference) := by
  rw [verifyAttestorSet_eq]
  rcases hreq with h | h
  · rw [h, verifyAttestorSetLoop]
    simp [multierr.Combine]
  · rw [verifyAttestorSetLoop_panic _ _ _ _ _ _ _ 0 0 [] hok (by omega)]
    simp

/-- Claim C21 fails on the code. When the first entry of a set is a nested attestor
set whose entries are leaves that all verify and still do not reach the nested
set's required count (it has no entry, or its count exceeds the number of its
entries), the recursive call records no entry error and panics in
`err.Error()`, and so does `verifyAttestorSet` on the parent set, whatever its
count and its later entries: the nested set that failed is not recorded as an
entry error and the loop does not go on with the next entry. -/
theorem verifyAttestorSet_nested_failure_panics
    (VerifySignature : cosign.Options → Option cosign.Response × Option GoError)
    (imageString : ImageInfo → String) (imageVerify : ImageVerification) (imageInfo : ImageInfo)
    (count : Option Int) (a : Attestor) (nested : AttestorSet) (rest : List Attestor)
    (path : String)
    (hk : a.Keys = none) (hn : a.Attestor = some (.attestorSet nested))
    (hok : ∀ b ∈ (expandStaticKeys nested).Entries, b.Attestor = none ∧
      (VerifySignature (buildOptionsAndPath b imageVerify (imageString imageInfo) none).1).2
        = none)
    (hreq : (expandStaticKeys nested).Entries = [] ∨
      ((expandStaticKeys nested).Entries.length : Int)
        < getRequiredCount (expandStaticKeys nested)) :
    verifyAttestorSet VerifySignature imageString imageVerify imageInfo
        { Count := count, Entries := a :: rest } path =
      some ((expandStaticKeys nested).Entries.map
          (fun b => (buildOptionsAndPath b imageVerify (imageString imageInfo) none).1),
        .panic nilDereference) := by
  have hent : (expandStaticKeys { Count := count, Entries := a :: rest }).Entries =
      a :: rest.flatMap expandEntrySpec := by
    rw [expandStaticKeys_entries]
    simp [expandEntrySpec, hk]
  have hmem : a ∈ (expandStaticKeys { Count := count, Entries := a :: rest }).Entries := by
    rw [hent]
    exact List.mem_cons_self _ _
  have hrec := verifyAttestorSetFuel_nested VerifySignature imageString imageVerify imageInfo
    { Count := count, Entries := a :: rest } nested a
    (path ++ ".entries[" ++ toString 0 ++ "]" ++ ".attestor") hmem hn
  rw [verifyAttestorSet_panic_of_leaves VerifySignature imageString imageVerify imageInfo nested
    _ hok hreq] at hrec
  rw [verifyAttestorSet_eq, hent,
    verifyAttestorSetLoop_nested_panic _ _ _ _ _ _ a _ 0 0 [] [] _ nested _ hn hrec]
  simp

/-- Claim C21 at a parent set with `Count` 1 whose first entry is a nested set of two
keys with `Count` 3 and whose second entry is a key: all three keys verify, the
nested set fails its count, and the parent set panics after the two calls of
the nested set; the third key, which would meet the parent count, is never
verified. -/
theorem verifyAttestorSet_nested_failure_panics_witness :
    verifyAttestorSet (exampleRegistry ["A", "B", "C"] []) exampleImageString {} exampleImage
        { Count := some 1,
          Entries := [nestedAttestor (some 3) [keyAttestor "A", keyAttestor "B"],
            keyAttestor "C"] } ".attestors[0]" =
      some ([{ ImageRef := "example.com/app:v1", Key := "A" },
             { ImageRef := "example.com/app:v1", Key := "B" }], .panic nilDereference) :=
  verifyAttestorSet_nested_failure_panics (exampleRegistry ["A", "B", "C"] [])
    exampleImageString {} exampleImage (some 1)
    (nestedAttestor (some 3) [keyAttestor "A", keyAttestor "B"])
    { Count := some 3, Entries := [keyAttestor "A", keyAttestor "B"] } [keyAttestor "C"]
    ".attestors[0]" rfl rfl
    (by
      intro b hb
      have : (expandStaticKeys
          { Count := some 3, Entries := [keyAttestor "A", keyAttestor "B"] }).Entries
          = [keyAttestor "A", keyAttestor "B"] := rfl
      rw [this] at hb
      simp at hb
      rcases hb with rfl | rfl <;> exact ⟨rfl, rfl⟩)
    (Or.inr (by decide))

/-- Where the nested set ends with a recorded error, the parent set does what claim
C21 says. A nested set in which no key verifies is recorded as one entry error
of the parent and the next entry is verified; a nested set that cannot be
unmarshalled likewise; a nested set that reaches its own count counts as one
success of the parent. -/
theorem verifyAttestorSet_nested_examples :
    verifyAttestorSet (exampleRegistry ["C"] []) exampleImageString {} exampleImage
        { Count := some 1,
          Entries := [nestedAttestor (some 1) [keyAttestor "A", keyAttestor "B"],
            keyAttestor "C"] } ".attestors[0]" =
      some ([{ ImageRef := "example.com/app:v1", Key := "A" },
             { ImageRef := "example.com/app:v1", Key := "B" },
             { ImageRef := "example.com/app:v1", Key := "C" }],
        .ret (some { Digest := "sha256:abcd" }, none)) ∧
    verifyAttestorSet (exampleRegistry ["C"] []) exampleImageString {} exampleImage
        { Count := some 1,
          Entries := [{ Attestor := some (.malformed (.plain "unexpected end of JSON input")) },
            keyAttestor "C"] } ".attestors[0]" =
      some ([{ ImageRef := "example.com/app:v1", Key := "C" }],
        .ret (some { Digest := "sha256:abcd" }, none)) ∧
    verifyAttestorSet (exampleRegistry ["B"] []) exampleImageString {} exampleImage
        { Count := some 1,
          Entries := [nestedAttestor (some 1) [keyAttestor "A", keyAttestor "B"],
            keyAttestor "C"] } ".attestors[0]" =
      some ([{ ImageRef := "example.com/app:v1", Key := "A" },
             { ImageRef := "example.com/app:v1", Key := "B" }],
        .ret (some { Digest := "sha256:abcd" }, none)) ∧
    verifyAttestorSet (exampleRegistry [] []) exampleImageString {} exampleImage
        { Count := some 1,
          Entries := [nestedAttestor (some 1) [keyAttestor "A"]] } ".attestors[0]" =
      some ([{ ImageRef := "example.com/app:v1", Key := "A" }],
        .ret (none, some (.withMessage
          (.plain "no matching signatures")
          ".attestors[0].entries[0].attestor.entries[0].keys"))) := by
  refine ⟨by rfl, by rfl, by rfl, by rfl⟩

/-! ### Patches -/

/-- The response of `handleRegistryErrors` carries no patch. -/
theorem handleRegistryErrors_patches (rule : Rule) (image : String) (err : GoError) :
    (handleRegistryErrors rule image err).Patches = [] := by
  unfold handleRegistryErrors
  cases err.asOpError <;> rfl

/-- The response of `verifyAttestors` carries no patch. -/
theorem verifyAttestorsLoop_patches
    (VerifySignature : cosign.Options → Option cosign.Response × Option GoError)
    (imageString : ImageInfo → String) (rule : Rule) (imageVerify : ImageVerification)
    (imageInfo : ImageInfo) (image : String) :
    ∀ (sets : List AttestorSet) (i : Nat) (cosignResponse : Option cosign.Response)
      (calls made : List cosign.Options) (ruleResp : RuleResponse)
      (resp : Option cosign.Response),
      verifyAttestorsLoop VerifySignature imageString rule imageVerify imageInfo image sets i
          cosignResponse calls = some (made, .ret (ruleResp, resp)) →
      ruleResp.Patches = [] := by
  intro sets
  induction sets with
  | nil =>
    intro i c calls made rr resp h
    cases c with
    | none =>
      rw [verifyAttestorsLoop] at h
      simp only [Option.some.injEq, Prod.mk.injEq, Outcome.ret.injEq] at h
      rw [← h.2.1]
      rfl
    | some r =>
      rw [verifyAttestorsLoop] at h
      simp only [Option.some.injEq, Prod.mk.injEq, Outcome.ret.injEq] at h
      rw [← h.2.1]
      rfl
  | cons s rest ih =>
    intro i c calls made rr resp h
    rw [verifyAttestorsLoop] at h
    cases hs : verifyAttestorSet VerifySignature imageString imageVerify imageInfo s
        (".attestors[" ++ toString i ++ "]") with
    | none => simp [hs] at h
    | some r =>
      obtain ⟨m, out⟩ := r
      cases out with
      | panic reason => simp [hs] at h
      | ret v =>
        obtain ⟨cr, e⟩ := v
        cases e with
        | some err =>
          simp only [hs, Option.some.injEq, Prod.mk.injEq, Outcome.ret.injEq] at h
          rw [← h.2.1]
          exact handleRegistryErrors_patches _ _ _
        | none =>
          simp only [hs] at h
          exact ih _ _ _ _ _ _ h

/-- A response that the loop over the entries returns carries no patch. -/
theorem verifyAttestationsEntries_patches {σ : Type} (caps : Capabilities σ) (rule : Rule)
    (imageVerify : ImageVerification) (attestation attestationRef : Attestation)
    (attestorPath : String) (i : Nat) (requiredCount : Int) :
    ∀ (entries : List Attestor) (verifiedCount : Int) (st st' : AttestationState σ)
      (ruleResp : RuleResponse) (digest : String),
      verifyAttestationsEntries caps rule imageVerify attestation attestationRef attestorPath i
          requiredCount entries verifiedCount st = (st', .ret (.returned (ruleResp, digest))) →
      ruleResp.Patches = [] := by
  intro entries
  induction entries with
  | nil =>
    intro v st st' rr d h
    rw [verifyAttestationsEntries] at h
    simp at h
  | cons a rest ih =>
    intro v st st' rr d h
    rw [verifyAttestationsEntries] at h
    simp only at h
    split at h
    · simp only [Prod.mk.injEq, Outcome.ret.injEq, LoopExit.returned.injEq] at h
      rw [← h.2.1]
      exact handleRegistryErrors_patches _ _ _
    · simp at h
    · split at h
      · simp at h
      · simp only [Prod.mk.injEq, Outcome.ret.injEq, LoopExit.returned.injEq] at h
        rw [← h.2.1]
        rfl
      · split at h
        · simp at h
        · exact ih _ _ _ _ _ h

/-- A response that the loop over the attestor sets returns carries no patch. -/
theorem verifyAttestationsSets_patches {σ : Type} (caps : Capabilities σ) (rule : Rule)
    (imageVerify : ImageVerification) (attestation attestationRef : Attestation)
    (path : String) (i : Nat) :
    ∀ (sets : List AttestorSet) (j : Nat) (st st' : AttestationState σ)
      (ruleResp : RuleResponse) (digest : String),
      verifyAttestationsSets caps rule imageVerify attestation attestationRef path i sets j st =
        (st', .ret (.returned (ruleResp, digest))) →
      ruleResp.Patches = [] := by
  intro sets
  induction sets with
  | nil =>
    intro j st st' rr d h
    rw [verifyAttestationsSets] at h
    simp at h
  | cons s rest ih =>
    intro j st st' rr d h
    rw [verifyAttestationsSets] at h
    simp only at h
    split at h
    · simp at h
    · rename_i heq
      simp only [Prod.mk.injEq, Outcome.ret.injEq, LoopExit.returned.injEq] at h
      rw [h.2] at heq
      exact verifyAttestationsEntries_patches caps rule imageVerify attestation attestationRef
        _ i _ _ _ _ _ _ _ heq
    · split at h
      · simp only [Prod.mk.injEq, Outcome.ret.injEq, LoopExit.returned.injEq] at h
        rw [← h.2.1]
        rfl
      · exact ih _ _ _ _ _ h

/-- The response of `verifyAttestations` carries no patch. -/
theorem verifyAttestationsLoop_patches {σ : Type} (caps : Capabilities σ) (rule : Rule)
    (imageVerify : ImageVerification) :
    ∀ (attestations : List Attestation) (i : Nat) (st st' : AttestationState σ)
      (ruleResp : RuleResponse) (digest : String),
      verifyAttestationsLoop caps rule imageVerify attestations i st =
        (st', .ret (ruleResp, digest)) →
      ruleResp.Patches = [] := by
  intro attestations
  induction attestations with
  | nil =>
    intro i st st' rr d h
    rw [verifyAttestationsLoop] at h
    simp only [Prod.mk.injEq, Outcome.ret.injEq] at h
    rw [← h.2.1]
    rfl
  | cons a rest ih =>
    intro i st st' rr d h
    rw [verifyAttestationsLoop] at h
    simp only at h
    split at h
    · simp only [Prod.mk.injEq, Outcome.ret.injEq] at h
      rw [← h.2.1]
      rfl
    · split at h
      · simp at h
      · rename_i heq
        simp only [Prod.mk.injEq, Outcome.ret.injEq] at h
        obtain ⟨h1, h2⟩ := h
        subst h2
        exact verifyAttestationsSets_patches caps rule imageVerify _ _ _ _ _ _ _ _ _ _ heq
      · exact ih _ _ _ _ _ h
/-- The response of `verifyAttestations` carries no patch. -/
theorem verifyAttestations_patches {σ : Type} (caps : Capabilities σ) (rule : Rule) (ctx : σ)
    (imageVerify : ImageVerification) (imageInfo : ImageInfo) (result : σ × List RegistryCall)
    (ruleResp : RuleResponse) (digest : String)
    (h : verifyAttestations caps rule ctx imageVerify imageInfo =
      (result, .ret (ruleResp, digest))) :
    ruleResp.Patches = [] := by
  unfold verifyAttestations at h
  simp only [Prod.mk.injEq] at h
  exact verifyAttestationsLoop_patches caps rule imageVerify _ _ _ _ _ _
    (Prod.ext rfl h.2)

/-- A response that `verifyImage` returns carries no patch. -/
theorem verifyImage_patches {σ : Type} (caps : Capabilities σ) (rule : Rule) (ctx : σ)
    (imageVerify : ImageVerification) (imageInfo : ImageInfo) (result : σ × List RegistryCall)
    (ruleResp : RuleResponse) (digest : String)
    (h : verifyImage caps rule ctx imageVerify imageInfo =
      some (result, .ret (some ruleResp, digest))) :
    ruleResp.Patches = [] := by
  have hatt : ∀ (ctx : σ) (made : List RegistryCall) (info : ImageInfo),
      (match verifyAttestations caps rule ctx imageVerify info with
        | ((ctx, more), .panic reason) =>
          (((ctx, made ++ more), .panic reason) :
            (σ × List RegistryCall) × Outcome (Option RuleResponse × String))
        | ((ctx, more), .ret (ruleResp, digest)) =>
          ((ctx, made ++ more), .ret (some ruleResp, digest))) =
        (result, .ret (some ruleResp, digest)) → ruleResp.Patches = [] := by
    intro ctx made info hm
    split at hm
    · simp at hm
    · rename_i heq
      simp only [Prod.mk.injEq, Outcome.ret.injEq, Option.some.injEq] at hm
      obtain ⟨-, h1, -⟩ := hm
      subst h1
      exact verifyAttestations_patches caps rule ctx imageVerify info _ _ _ heq
  unfold verifyImage at h
  split at h
  · simp at h
  · split at h
    · simp only [Option.some.injEq, Prod.mk.injEq, Outcome.ret.injEq] at h
      rw [← h.2.1]
      rfl
    · simp only at h
      split at h
      · split at h
        · simp at h
        · simp at h
        · rename_i heq
          split at h
          · simp only [Option.some.injEq, Prod.mk.injEq, Outcome.ret.injEq] at h
            rw [← h.2.1]
            exact verifyAttestorsLoop_patches _ _ _ _ _ _ _ _ _ _ _ _ _ heq
          · split at h
            · split at h
              · simp at h
              · simp only [Option.some.injEq, Prod.mk.injEq, Outcome.ret.injEq] at h
                rw [← h.2.1]
                exact verifyAttestorsLoop_patches _ _ _ _ _ _ _ _ _ _ _ _ _ heq
            · split at h
              · split at h
                · simp at h
                · exact hatt _ _ _ (Option.some.inj h)
              · exact hatt _ _ _ (Option.some.inj h)
      · exact hatt _ _ _ (Option.some.inj h)
/-! ### The digest patch and the status of the response -/

/-- The loop of `verify` over a list in two parts: the second part is run from the
state that the first part leaves. -/
theorem verifyLoop_append {σ : Type} (caps : Capabilities σ) (imageVerify : ImageVerification)
    (post : List ImageInfo) :
    ∀ (pre : List ImageInfo) (iv : imageVerifier σ),
      verifyLoop caps imageVerify (pre ++ post) iv =
        match verifyLoop caps imageVerify pre iv with
        | some (.ret mid) => verifyLoop caps imageVerify post mid
        | other => other := by
  intro pre
  induction pre with
  | nil =>
    intro iv
    rw [verifyLoop]
    rfl
  | cons imageInfo pre ih =>
    intro iv
    rw [List.cons_append, verifyLoop, verifyLoop]
    simp only
    repeat' split
    all_goals first
      | exact ih _
      | rfl
      | simp_all

/-- One round of the loop of `verify` on an image that reaches the verification, for
an image verification with `mutateDigest` set, when `handleMutateDigest` makes
a patch: the response that `verifyImage` returned, or the pass response
"mutated image digest" when it returned none, is appended with the patch as
its one patch, whatever its status. -/
theorem verifyLoop_patch_attached {σ : Type} (caps : Capabilities σ)
    (imageVerify : ImageVerification) (imageInfo : ImageInfo) (rest : List ImageInfo)
    (iv : imageVerifier σ) (ctx : σ) (made more : List RegistryCall)
    (ruleResp : Option RuleResponse) (digest patch retrieved : String)
    (hann : hasImageVerifiedAnnotationChanged caps iv.policyContext = false)
    (hchanged : caps.HasChanged iv.policyContext.jsonContext (caps.JMESPath imageInfo.Pointer)
      ≠ (false, none))
    (hverified : caps.isImageVerified iv.policyContext.newResource (caps.imageString imageInfo)
      ≠ (true, none))
    (hvi : verifyImage caps iv.rule iv.policyContext.jsonContext imageVerify imageInfo =
      some ((ctx, made), .ret (ruleResp, digest)))
    (hmutate : imageVerify.MutateDigest = true)
    (hmd : handleMutateDigest caps digest imageInfo = (more, (some patch, retrieved, none))) :
    verifyLoop caps imageVerify (imageInfo :: rest) iv =
      verifyLoop caps imageVerify rest
        { iv with
          policyContext := { iv.policyContext with jsonContext := ctx }
          calls := iv.calls ++ made ++ more
          ivm :=
            if imageVerify.Attestors.length > 0 ∨ imageVerify.Attestations.length > 0 then
              iv.ivm.add (caps.imageString { imageInfo with Digest := retrieved })
                ((ruleResp.getD
                  (ruleResponse iv.rule .ImageVerify "mutated image digest" .pass)).Status
                    == .pass)
            else iv.ivm
          resp := incrementAppliedCount (appendRule iv.resp
            { ruleResp.getD (ruleResponse iv.rule .ImageVerify "mutated image digest" .pass) with
              Patches := [patch] }) } := by
  have h1 : ((caps.HasChanged iv.policyContext.jsonContext (caps.JMESPath imageInfo.Pointer)).2.isNone
      && !(caps.HasChanged iv.policyContext.jsonContext (caps.JMESPath imageInfo.Pointer)).1)
      = false := by
    cases hc : caps.HasChanged iv.policyContext.jsonContext (caps.JMESPath imageInfo.Pointer) with
    | mk b e =>
      cases b <;> cases e <;> simp_all
  have h2 : ((caps.isImageVerified iv.policyContext.newResource (caps.imageString imageInfo)).2.isNone
      && (caps.isImageVerified iv.policyContext.newResource (caps.imageString imageInfo)).1)
      = false := by
    cases hc : caps.isImageVerified iv.policyContext.newResource (caps.imageString imageInfo) with
    | mk b e =>
      cases b <;> cases e <;> simp_all
  rw [verifyLoop]
  simp only [hann, h1, h2, hvi, hmutate, hmd]
  cases ruleResp with
  | none => simp [ruleResponse]
  | some r0 =>
    have hp := verifyImage_patches caps iv.rule _ imageVerify imageInfo _ r0 _ hvi
    simp [hp]
/-- One round of the loop of `verify`, read off its result: at most one response is
appended, and a response appended with a patch comes from an image that
reached the verification, under `mutateDigest`, and is the response that
`verifyImage` returned at the JSON context of the round (the pass response
"mutated image digest" when it returned none), carrying the one patch that
`handleMutateDigest` made. -/
theorem verifyLoop_step {σ : Type} (caps : Capabilities σ) (imageVerify : ImageVerification)
    (imageInfo : ImageInfo) (iv mid : imageVerifier σ)
    (h : verifyLoop caps imageVerify [imageInfo] iv = some (.ret mid)) :
    mid.rule = iv.rule ∧
      (mid.resp.PolicyResponse.Rules = iv.resp.PolicyResponse.Rules ∨
        ∃ rr, mid.resp.PolicyResponse.Rules = iv.resp.PolicyResponse.Rules ++ [rr] ∧
          (rr.Patches ≠ [] →
            imageVerify.MutateDigest = true ∧
            hasImageVerifiedAnnotationChanged caps iv.policyContext = false ∧
            caps.HasChanged iv.policyContext.jsonContext (caps.JMESPath imageInfo.Pointer)
              ≠ (false, none) ∧
            caps.isImageVerified iv.policyContext.newResource (caps.imageString imageInfo)
              ≠ (true, none) ∧
            ∃ result ruleResp digest more patch retrieved,
              verifyImage caps iv.rule iv.policyContext.jsonContext imageVerify imageInfo =
                some (result, .ret (ruleResp, digest)) ∧
              handleMutateDigest caps digest imageInfo = (more, (some patch, retrieved, none)) ∧
              rr = { ruleResp.getD
                      (ruleResponse iv.rule .ImageVerify "mutated image digest" .pass) with
                     Patches := [patch] })) := by
  rw [verifyLoop] at h
  simp only [verifyLoop] at h
  by_cases hann : hasImageVerifiedAnnotationChanged caps iv.policyContext = true
  · simp only [hann, if_true, Option.some.injEq, Outcome.ret.injEq] at h
    subst h
    exact ⟨rfl, Or.inr ⟨_, rfl, fun hp => absurd rfl hp⟩⟩
  · have hann' : hasImageVerifiedAnnotationChanged caps iv.policyContext = false := by
      simpa using hann
    simp only [hann, Bool.false_eq_true, if_false] at h
    split at h
    · simp only [Option.some.injEq, Outcome.ret.injEq] at h
      subst h
      exact ⟨rfl, Or.inl rfl⟩
    · rename_i hchanged
      have hchanged' : caps.HasChanged iv.policyContext.jsonContext
          (caps.JMESPath imageInfo.Pointer) ≠ (false, none) := by
        intro hc
        rw [hc] at hchanged
        simp at hchanged
      split at h
      · simp only [Option.some.injEq, Outcome.ret.injEq] at h
        subst h
        exact ⟨rfl, Or.inl rfl⟩
      · rename_i hverified
        have hverified' : caps.isImageVerified iv.policyContext.newResource
            (caps.imageString imageInfo) ≠ (true, none) := by
          intro hc
          rw [hc] at hverified
          simp at hverified
        cases hvi : verifyImage caps iv.rule iv.policyContext.jsonContext imageVerify
            imageInfo with
        | none => simp [hvi] at h
        | some r =>
          obtain ⟨⟨ctx, made⟩, out⟩ := r
          cases out with
          | panic reason => simp [hvi] at h
          | ret v =>
            obtain ⟨ruleResp, digest⟩ := v
            simp only [hvi] at h
            by_cases hm : imageVerify.MutateDigest = true
            · simp only [hm, if_true] at h
              cases hmd : handleMutateDigest caps digest imageInfo with
              | mk more triple =>
                obtain ⟨patch, retrieved, err⟩ := triple
                cases err with
                | some e =>
                  simp only [hmd, Option.some.injEq, Outcome.ret.injEq] at h
                  subst h
                  exact ⟨rfl, Or.inr ⟨_, rfl, fun hp => absurd rfl hp⟩⟩
                | none =>
                  cases patch with
                  | some p =>
                    simp only [hmd, Option.some.injEq, Outcome.ret.injEq] at h
                    subst h
                    refine ⟨rfl, Or.inr ⟨_, rfl, fun _ => ⟨hm, hann', hchanged', hverified', _,
                      ruleResp, _, _, p, _, rfl, hmd, ?_⟩⟩⟩
                    cases ruleResp with
                    | none => rfl
                    | some r0 =>
                      have hp := verifyImage_patches caps iv.rule _ imageVerify imageInfo _ r0 _ hvi
                      simp [hp]
                  | none =>
                    simp only [hmd] at h
                    cases ruleResp with
                    | none =>
                      simp only [Option.some.injEq, Outcome.ret.injEq] at h
                      subst h
                      exact ⟨rfl, Or.inl rfl⟩
                    | some r0 =>
                      have hp := verifyImage_patches caps iv.rule _ imageVerify imageInfo _ r0 _ hvi
                      simp only [Option.some.injEq, Outcome.ret.injEq] at h
                      subst h
                      exact ⟨rfl, Or.inr ⟨_, rfl, fun hne => absurd hp hne⟩⟩
            · have hm' : imageVerify.MutateDigest = false := by simpa using hm
              simp only [hm', Bool.false_eq_true, if_false] at h
              cases ruleResp with
              | none =>
                simp only [Option.some.injEq, Outcome.ret.injEq] at h
                subst h
                exact ⟨rfl, Or.inl rfl⟩
              | some r0 =>
                have hp := verifyImage_patches caps iv.rule _ imageVerify imageInfo _ r0 _ hvi
                simp only [Option.some.injEq, Outcome.ret.injEq] at h
                subst h
                exact ⟨rfl, Or.inr ⟨_, rfl, fun hne => absurd hp hne⟩⟩

/-- The responses that the loop of `verify` appends with a patch. -/
theorem verifyLoop_patched {σ : Type} (caps : Capabilities σ) (imageVerify : ImageVerification)
    (matchedImageInfos : List ImageInfo) :
    ∀ iv iv' : imageVerifier σ,
      verifyLoop caps imageVerify matchedImageInfos iv = some (.ret iv') →
      ∃ new, iv'.resp.PolicyResponse.Rules = iv.resp.PolicyResponse.Rules ++ new ∧
        ∀ rr ∈ new, rr.Patches ≠ [] →
          imageVerify.MutateDigest = true ∧
          ∃ pre imageInfo post mid,
            matchedImageInfos = pre ++ imageInfo :: post ∧
            verifyLoop caps imageVerify pre iv = some (.ret mid) ∧
            hasImageVerifiedAnnotationChanged caps mid.policyContext = false ∧
            caps.HasChanged mid.policyContext.jsonContext (caps.JMESPath imageInfo.Pointer)
              ≠ (false, none) ∧
            caps.isImageVerified mid.policyContext.newResource (caps.imageString imageInfo)
              ≠ (true, none) ∧
            ∃ result ruleResp digest more patch retrieved,
              verifyImage caps iv.rule mid.policyContext.jsonContext imageVerify imageInfo =
                some (result, .ret (ruleResp, digest)) ∧
              handleMutateDigest caps digest imageInfo = (more, (some patch, retrieved, none)) ∧
              rr = { ruleResp.getD
                      (ruleResponse iv.rule .ImageVerify "mutated image digest" .pass) with
                     Patches := [patch] } := by
  induction matchedImageInfos with
  | nil =>
    intro iv iv' h
    rw [verifyLoop] at h
    simp only [Option.some.injEq, Outcome.ret.injEq] at h
    subst h
    exact ⟨[], by simp, by simp⟩
  | cons imageInfo rest ih =>
    intro iv iv' h
    have happ := verifyLoop_append caps imageVerify rest [imageInfo] iv
    rw [List.singleton_append, h] at happ
    cases hsingle : verifyLoop caps imageVerify [imageInfo] iv with
    | none => simp [hsingle] at happ
    | some out =>
      cases out with
      | panic reason => simp [hsingle] at happ
      | ret mid1 =>
        simp only [hsingle] at happ
        obtain ⟨hrule, hstep⟩ := verifyLoop_step caps imageVerify imageInfo iv mid1 hsingle
        obtain ⟨new, hnew, hall⟩ := ih mid1 iv' happ.symm
        have hlater : ∀ rr ∈ new, rr.Patches ≠ [] →
            imageVerify.MutateDigest = true ∧
            ∃ pre info post mid,
              imageInfo :: rest = pre ++ info :: post ∧
              verifyLoop caps imageVerify pre iv = some (.ret mid) ∧
              hasImageVerifiedAnnotationChanged caps mid.policyContext = false ∧
              caps.HasChanged mid.policyContext.jsonContext (caps.JMESPath info.Pointer)
                ≠ (false, none) ∧
              caps.isImageVerified mid.policyContext.newResource (caps.imageString info)
                ≠ (true, none) ∧
              ∃ result ruleResp digest more patch retrieved,
                verifyImage caps iv.rule mid.policyContext.jsonContext imageVerify info =
                  some (result, .ret (ruleResp, digest)) ∧
                handleMutateDigest caps digest info = (more, (some patch, retrieved, none)) ∧
                rr = { ruleResp.getD
                        (ruleResponse iv.rule .ImageVerify "mutated image digest" .pass) with
                       Patches := [patch] } := by
          intro rr hrr hp
          obtain ⟨hm, pre, info, post, mid, hsplit, hrun, facts⟩ := hall rr hrr hp
          rw [hrule] at facts
          refine ⟨hm, imageInfo :: pre, info, post, mid, by rw [hsplit]; rfl, ?_, facts⟩
          have happ2 := verifyLoop_append caps imageVerify pre [imageInfo] iv
          rw [List.singleton_append, hsingle] at happ2
          rw [happ2]
          exact hrun
        rcases hstep with hsame | ⟨r, hr, hq⟩
        · exact ⟨new, by rw [hnew, hsame], hlater⟩
        · refine ⟨r :: new, by rw [hnew, hr]; simp, ?_⟩
          intro rr hrr hp
          rcases List.mem_cons.1 hrr with h1 | h1
          · subst h1
            obtain ⟨hm, facts⟩ := hq hp
            exact ⟨hm, [], imageInfo, rest, iv, rfl, by rw [verifyLoop], facts⟩
          · exact hlater rr h1 hp
/-- Claim C25 fails on the code: with `mutateDigest` set and one attestor whose key
the registry does not trust, the signature verification of `example.com/app:v1`
ends in fail, the descriptor is fetched nonetheless, and `verify` appends the
fail response with the digest patch attached. -/
theorem verify_fail_response_with_patch :
    imageVerifier.verify (exampleCaps (exampleRegistry [] []) (exampleAttestations []))
        freshVerifier signedAndPinned [exampleImage] = some (.ret failedAndPinned) ∧
      ∃ rr ∈ failedAndPinned.resp.PolicyResponse.Rules,
        rr.Patches ≠ [] ∧ rr.Status = .fail := by
  refine ⟨by rfl, _, List.mem_cons_self _ _, by decide, rfl⟩

/-- Claim C25, amended. The digest patch is attached whatever the status. For an
image that reaches the verification in `verify` (the annotation check does not
fire, the image has changed and is not yet verified), under an image
verification with `mutateDigest` set, when `handleMutateDigest` makes a patch
from the digest that `verifyImage` returned, `verify` appends the response
that `verifyImage` returned, with the status it has, be it pass, fail or
error (the pass response "mutated image digest" when `verifyImage` returned
none), carrying the patch as its one patch, and goes on with the next image.
And every rule response that `verify` appends with a non-empty patch list
arises in this way, for one of the matched images, at the state that `verify`
has reached at that image. -/
theorem verify_patched_responses {σ : Type} (caps : Capabilities σ)
    (imageVerify : ImageVerification) :
    (∀ (iv : imageVerifier σ) (imageInfo : ImageInfo) (rest : List ImageInfo) (ctx : σ)
        (made more : List RegistryCall) (ruleResp : Option RuleResponse)
        (digest patch retrieved : String),
      hasImageVerifiedAnnotationChanged caps iv.policyContext = false →
      caps.HasChanged iv.policyContext.jsonContext (caps.JMESPath imageInfo.Pointer)
        ≠ (false, none) →
      caps.isImageVerified iv.policyContext.newResource (caps.imageString imageInfo)
        ≠ (true, none) →
      verifyImage caps iv.rule iv.policyContext.jsonContext (caps.Convert imageVerify)
        imageInfo = some ((ctx, made), .ret (ruleResp, digest)) →
      (caps.Convert imageVerify).MutateDigest = true →
      handleMutateDigest caps digest imageInfo = (more, (some patch, retrieved, none)) →
      imageVerifier.verify caps iv imageVerify (imageInfo :: rest) =
        imageVerifier.verify caps
          { iv with
            policyContext := { iv.policyContext with jsonContext := ctx }
            calls := iv.calls ++ made ++ more
            ivm :=
              if (caps.Convert imageVerify).Attestors.length > 0 ∨
                  (caps.Convert imageVerify).Attestations.length > 0 then
                iv.ivm.add (caps.imageString { imageInfo with Digest := retrieved })
                  ((ruleResp.getD
                    (ruleResponse iv.rule .ImageVerify "mutated image digest" .pass)).Status
                      == .pass)
              else iv.ivm
            resp := incrementAppliedCount (appendRule iv.resp
              { ruleResp.getD
                  (ruleResponse iv.rule .ImageVerify "mutated image digest" .pass) with
                Patches := [patch] }) }
          imageVerify rest) ∧
    (∀ (iv iv' : imageVerifier σ) (matchedImageInfos : List ImageInfo),
      imageVerifier.verify caps iv imageVerify matchedImageInfos = some (.ret iv') →
      ∃ new, iv'.resp.PolicyResponse.Rules = iv.resp.PolicyResponse.Rules ++ new ∧
        ∀ rr ∈ new, rr.Patches ≠ [] →
          (caps.Convert imageVerify).MutateDigest = true ∧
          ∃ pre imageInfo post mid,
            matchedImageInfos = pre ++ imageInfo :: post ∧
            imageVerifier.verify caps iv imageVerify pre = some (.ret mid) ∧
            hasImageVerifiedAnnotationChanged caps mid.policyContext = false ∧
            caps.HasChanged mid.policyContext.jsonContext (caps.JMESPath imageInfo.Pointer)
              ≠ (false, none) ∧
            caps.isImageVerified mid.policyContext.newResource (caps.imageString imageInfo)
              ≠ (true, none) ∧
            ∃ result ruleResp digest more patch retrieved,
              verifyImage caps iv.rule mid.policyContext.jsonContext (caps.Convert imageVerify)
                imageInfo = some (result, .ret (ruleResp, digest)) ∧
              handleMutateDigest caps digest imageInfo =
                (more, (some patch, retrieved, none)) ∧
              rr = { ruleResp.getD
                      (ruleResponse iv.rule .ImageVerify "mutated image digest" .pass) with
                     Patches := [patch] }) := by
  constructor
  · intro iv imageInfo rest ctx made more ruleResp digest patch retrieved hann hchanged
      hverified hvi hmutate hmd
    exact verifyLoop_patch_attached caps (caps.Convert imageVerify) imageInfo rest iv ctx made
      more ruleResp digest patch retrieved hann hchanged hverified hvi hmutate hmd
  · intro iv iv' matchedImageInfos h
    exact verifyLoop_patched caps (caps.Convert imageVerify) matchedImageInfos iv iv' h

/-- Claim C25, amended, at a signature verification that ends in error: the registry
cannot be reached for the key of the one attestor, `mutateDigest` is set, and
the error response is appended with the digest patch. -/
theorem verify_patched_responses_witness :
    imageVerifier.verify (exampleCaps (exampleRegistry [] ["A"]) (exampleAttestations []))
        freshVerifier signedAndPinned [exampleImage] = some (.ret erroredAndPinned) :=
  ((verify_patched_responses (exampleCaps (exampleRegistry [] ["A"]) (exampleAttestations []))
      signedAndPinned).1 freshVerifier exampleImage [] []
      [.verifySignature { ImageRef := "example.com/app:v1", Key := "A" }]
      [.fetchImageDescriptor "example.com/app:v1"]
      (some { Name := "check-image", Type_ := .ImageVerify,
              Message := "failed to verify image example.com/app:v1: " ++
                ".attestors[0].entries[0].keys: dial tcp: i/o timeout",
              Status := .error })
      ""
      ("\x7b\"op\":\"replace\",\"path\":\"/spec/containers/0/image\"," ++
        "\"value\":\"example.com/app:v1@sha256:abcd\"\x7d")
      "sha256:abcd" rfl (by simp [exampleCaps]) (by simp [exampleCaps]) rfl rfl rfl).trans rfl

end Kyverno
